import Mathlib

/-!
# Constraint-based form validator (`validator.js`)

A shallow embedding of the `Validator` class of `src/validator.js` and the
properties of its per-field and batch validation.

Conventions of the embedding.

* JavaScript values that a control can hold are the type `Value`; truthiness and
  `String(...)` conversion are `Value.truthy` and `Value.toJsString`.
* Strings are processed as lists of characters, so that every definition is
  structurally recursive and evaluates on concrete inputs.
* A control is a record of its capabilities; a capability that the source probes
  (`if (oControl.getValue)`) is an `Option`.
* The message manager, the error index `InputsErrorsIds` and the visual state of the
  controls form the mutable `State`; every operation returns the new state, its result
  (`Except JsError _`, an exception being `.error`) and the list of `Event`s it performed
  (rule invocations, calls to the external type system).
* The message manager is an external component: it is modelled as an ordered list,
  `addMessages` appends, `removeMessages` removes the given entries, `removeAllMessages`
  empties the list.
* Custom rules are pure functions of the value and the control; a rule either returns a
  result (truthiness of `isValid`, and `message`, a string) or throws.
* Two controls with the same id are the same control: the visual state is kept by
  control id.
* The registry `customRules` is given by its lookup `this.customRules[key]`; a key without
  own property yields what an object created as `{}` inherits (`inheritedEntry`).
-/

namespace Validator

/-! ## Values -/

/-- A JavaScript value held by a control. Numbers are integral and small enough for
`String(n)` to be their decimal numeral; an array is given by the string conversions of
its elements and any other object (a date, say) by its own string conversion. -/
inductive Value where
  | undefined
  | null
  | bool (b : Bool)
  | num (n : Int)
  | str (s : String)
  | array (items : List String)
  | object (repr : String)
  deriving DecidableEq, Repr

/-- JavaScript truthiness (`if (value)`). -/
def Value.truthy : Value → Bool
  | .undefined => false
  | .null => false
  | .bool b => b
  | .num n => n != 0
  | .str s => s != ""
  | .array _ => true
  | .object _ => true

/-- The conversion `String(value)`. -/
def Value.toJsString : Value → String
  | .undefined => "undefined"
  | .null => "null"
  | .bool true => "true"
  | .bool false => "false"
  | .num n => toString n
  | .str s => s
  | .array items => ",".intercalate items
  | .object repr => repr

/-- An exception raised by the program. -/
inductive JsError where
  | typeError (what : String)
  | error (message : String)
  deriving DecidableEq, Repr

/-! ## String primitives -/

/-- White space and line terminators removed by `String.prototype.trim` and skipped by
`parseFloat`. -/
def isJsWhitespace (c : Char) : Bool :=
  c.toNat == 0x09 || c.toNat == 0x0A || c.toNat == 0x0B || c.toNat == 0x0C ||
  c.toNat == 0x0D || c.toNat == 0x20 || c.toNat == 0xA0 || c.toNat == 0x1680 ||
  (0x2000 ≤ c.toNat && c.toNat ≤ 0x200A) || c.toNat == 0x2028 || c.toNat == 0x2029 ||
  c.toNat == 0x202F || c.toNat == 0x205F || c.toNat == 0x3000 || c.toNat == 0xFEFF

/-- The test `value.trim() === ""`: the string consists of white space only. -/
def trimIsEmpty (s : String) : Bool :=
  s.data.all isJsWhitespace

/-- Strips `p` from the front of `l` when `l` starts with `p`. -/
def dropPattern? : List Char → List Char → Option (List Char)
  | [], l => some l
  | _ :: _, [] => none
  | p :: ps, c :: cs => if p = c then dropPattern? ps cs else none

/-- Splits `l` at the first occurrence of the non-empty pattern `p`: the text before
the match and the text after it. -/
def splitAtFirst (p : List Char) : List Char → Option (List Char × List Char)
  | [] => none
  | c :: cs =>
    match dropPattern? p (c :: cs) with
    | some rest => some ([], rest)
    | none =>
      match splitAtFirst p cs with
      | some (before, rest) => some (c :: before, rest)
      | none => none

/-- Expansion of a replacement template of `String.prototype.replace` for a string
pattern (no capture groups): `$$` is a dollar sign, `$&` the matched text, the dollar
sign followed by a backtick the text before the match and followed by an apostrophe
the text after it; every other character, a dollar sign included, stands for itself. -/
def expandReplacement (before pat rest : List Char) : List Char → List Char
  | [] => []
  | '$' :: '$' :: t => '$' :: expandReplacement before pat rest t
  | '$' :: '&' :: t => pat ++ expandReplacement before pat rest t
  | '$' :: '\x60' :: t => before ++ expandReplacement before pat rest t
  | '$' :: '\x27' :: t => rest ++ expandReplacement before pat rest t
  | c :: t => c :: expandReplacement before pat rest t

/-- The call `text.replace(pattern, replacement)` with a non-empty string pattern: only
the first occurrence is replaced. -/
def jsReplace (text pattern replacement : String) : String :=
  match splitAtFirst pattern.data text.data with
  | none => text
  | some (before, rest) =>
    String.mk (before ++ expandReplacement before pattern.data rest replacement.data ++ rest)

/-- The last element of `sId.split("--")`: accumulates the current segment (reversed)
and starts a new one after each separator. -/
def lastSegmentAux : List Char → List Char → List Char
  | acc, [] => acc.reverse
  | _, '-' :: '-' :: t => lastSegmentAux [] t
  | acc, c :: t => lastSegmentAux (c :: acc) t

/-- The local id of a control: `oControl.sId.split("--").pop()`. -/
def localId (sId : String) : String :=
  String.mk (lastSegmentAux [] sId.data)

/-! ## Texts -/

/-- The table `fallbackTexts` of `_getFallbackText`. -/
def fallbackTexts : List (String × String) :=
  [ ("validator.required", "\x7b0\x7d is required"),
    ("validator.minLength", "\x7b0\x7d: Minimum length is \x7b1\x7d characters"),
    ("validator.maxLength", "\x7b0\x7d: Maximum length is \x7b1\x7d characters"),
    ("validator.minValue", "\x7b0\x7d: Minimum value is \x7b1\x7d"),
    ("validator.maxValue", "\x7b0\x7d: Maximum value is \x7b1\x7d"),
    ("validator.maxDigits", "\x7b0\x7d: Maximum total digits is \x7b1\x7d"),
    ("validator.maxDecimalPlaces", "\x7b0\x7d: Maximum decimal places is \x7b1\x7d"),
    ("validator.invalidValue", "Invalid value"),
    ("validator.invalidDecimal",
      "Enter a valid decimal number (max \x7b0\x7d digits, \x7b1\x7d decimal places)"),
    ("validator.invalidDecimalSimple", "Enter a valid decimal number"),
    ("validator.invalidInteger", "Enter a valid integer"),
    ("validator.invalidTime", "Enter a valid time"),
    ("validator.invalidDate", "Enter a valid date"),
    ("validator.invalidText", "Enter a valid text"),
    ("validator.maxLengthSimple", "Maximum length is \x7b0\x7d characters"),
    ("validator.fieldLabel", "Field"),
    ("validator.validationError", "Validation error occurred") ]

/-- The loop `aParams.forEach(function (param, index) ...)` of `_getFallbackText`: the
placeholder of each index is replaced in turn in the text produced so far. -/
def replaceParams : String → Nat → List String → String
  | text, _, [] => text
  | text, index, param :: rest =>
    replaceParams (jsReplace text ("\x7b" ++ toString index ++ "\x7d") param) (index + 1) rest

/-- Translation of `_getFallbackText`. The parameters are given by their string
conversions (the replacement converts them). The table is an object literal, so the
lookup of a key that names a member of `Object.prototype` finds that member; such keys
are left out here, every key that the validator passes starts with `validator.`. -/
def _getFallbackText (sKey : String) (aParams : List String) : String :=
  replaceParams ((fallbackTexts.lookup sKey).getD sKey) 0 aParams

/-- The resource bundle handed to the constructor, when there is one: its `getText`. -/
abbrev ResourceBundle := String → List String → String

/-- Translation of `_getText`. -/
def _getText (oResourceBundle : Option ResourceBundle) (sKey : String)
    (aParams : List String) : String :=
  match oResourceBundle with
  | some bundle => bundle sKey aParams
  | none => _getFallbackText sKey aParams

/-! ## Controls, bindings and types -/

/-- The constraints of a type (`oType.getConstraints()`); an absent field is
`undefined`. -/
structure Constraints where
  minLength : Option Int := none
  maxLength : Option Int := none
  minimum : Option Int := none
  maximum : Option Int := none
  precision : Option Int := none
  scale : Option Int := none
  deriving DecidableEq, Repr

/-- A type of the external typed-constraint system. `parseValue` gives `none` and
`validateValue` gives `false` when the call raises. -/
structure OType where
  name : String
  getConstraints : Option Constraints
  parseValue : Value → Option Value
  validateValue : Value → Bool

/-- A property binding of a control. `getType` is `none` when the binding has no
`getType` or it returns nothing. -/
structure Binding where
  getPath : String
  getType : Option OType
  getValue : Value

/-- A control, as the validator sees it. `metadataName` is `getMetadata().getName()` and
`sId` is both `sId` and `getId()`; a probed capability that the control lacks is `none`.
`hasValueState` tells whether the control has `setValueState`. -/
structure Control where
  sId : String
  metadataName : String
  getVisible : Option Bool := none
  getEnabled : Option Bool := none
  getTokens : Option Value := none
  getValue : Option Value := none
  getSelectedKey : Option Value := none
  getSelected : Option Value := none
  getDateValue : Option Value := none
  getRequired : Option Value := none
  getLabels : Option (List String) := none
  getPlaceholder : Option String := none
  getBinding : String → Option Binding := fun _ => none
  hasValueState : Bool := true

/-- Translation of `_getControlValue`. The token list of a `sap.m.MultiInput` is read
without a probe, so a control of that name without `getTokens` raises. -/
def _getControlValue (oControl : Control) : Except JsError Value :=
  if oControl.metadataName = "sap.m.MultiInput" then
    match oControl.getTokens with
    | some tokens => .ok tokens
    | none => .error (.typeError "oControl.getTokens is not a function")
  else
    match oControl.getValue with
    | some v => .ok v
    | none =>
      match oControl.getSelectedKey with
      | some v => .ok v
      | none =>
        match oControl.getSelected with
        | some v => .ok v
        | none =>
          match oControl.getDateValue with
          | some v => .ok v
          | none => .ok (.str "")

/-- Translation of `_getValueBinding`. -/
def _getValueBinding (oControl : Control) : Option Binding :=
  match oControl.getBinding "value" with
  | some b => some b
  | none =>
    match oControl.getBinding "selectedKey" with
    | some b => some b
    | none => oControl.getBinding "dateValue"

/-- Translation of `_getBindingPath`. -/
def _getBindingPath (oControl : Control) : String :=
  let bindingPath :=
    match _getValueBinding oControl with
    | some binding => binding.getPath
    | none => ""
  if bindingPath = "" then "/" ++ oControl.sId else bindingPath

/-- Translation of `_getControlLabel`. -/
def _getControlLabel (oResourceBundle : Option ResourceBundle) (oControl : Control) : String :=
  match oControl.getLabels with
  | some (first :: _) => first
  | _ =>
    match oControl.getPlaceholder with
    | some placeholder => placeholder
    | none => _getText oResourceBundle "validator.fieldLabel" []

/-- Translation of `_getControlId`. -/
def _getControlId (oControl : Control) : String :=
  localId oControl.sId

/-- Translation of `_isControlRequired`; the caller tests the result for truthiness. -/
def _isControlRequired (oControl : Control) : Value :=
  match oControl.getRequired with
  | some (.bool required) => .bool required
  | some _ =>
    match oControl.getBinding "required" with
    | some binding => binding.getValue
    | none => .bool false
  | none => .bool false

/-- Translation of `_isEmpty`. -/
def _isEmpty (value : Value) (oControl : Control) : Bool :=
  if oControl.metadataName = "sap.m.MultiInput" then
    match value with
    | .array items => items.length == 0
    | _ => true
  else
    match value with
    | .null => true
    | .undefined => true
    | _ =>
      if (match value with | .str s => trimIsEmpty s | _ => false) then true
      else if oControl.metadataName = "sap.m.ComboBox" ∨ oControl.metadataName = "sap.m.Select" then
        value = .str "" ∨ value = .str "00" ∨ value = .str "0"
      else false

/-! ## Numbers in texts

A parsed number is kept exactly, as a decimal `mant * 10 ^ exp` or an infinity; the
rounding of `parseFloat` to a binary floating-point number is not modelled. -/

/-- The result of `parseFloat` when it is not `NaN`. -/
inductive ParsedNumber where
  | finite (mant : Int) (exp : Int)
  | posInf
  | negInf
  deriving DecidableEq, Repr

/-- The comparison `numericValue < bound`. -/
def ParsedNumber.ltInt : ParsedNumber → Int → Bool
  | .finite mant exp, bound =>
    if 0 ≤ exp then decide (mant * 10 ^ exp.toNat < bound)
    else decide (mant < bound * 10 ^ (-exp).toNat)
  | .posInf, _ => false
  | .negInf, _ => true

/-- The comparison `numericValue > bound`. -/
def ParsedNumber.gtInt : ParsedNumber → Int → Bool
  | .finite mant exp, bound =>
    if 0 ≤ exp then decide (bound < mant * 10 ^ exp.toNat)
    else decide (bound * 10 ^ (-exp).toNat < mant)
  | .posInf, _ => true
  | .negInf, _ => false

/-- The class `\d` of a regular expression and the decimal digits of a numeral. -/
def isDigit (c : Char) : Bool :=
  48 ≤ c.toNat && c.toNat ≤ 57

/-- The number written by a list of decimal digits. -/
def digitsToNat (l : List Char) : Nat :=
  l.foldl (fun n c => 10 * n + (c.toNat - 48)) 0

/-- An optional sign: whether it is a minus, and the text after it. -/
def takeSign : List Char → Bool × List Char
  | '-' :: t => (true, t)
  | '+' :: t => (false, t)
  | l => (false, l)

/-- The exponent part of a decimal literal at the front of `l`, zero when there is
none (an `e` not followed by digits is not part of the literal). -/
def exponentPart : List Char → Int
  | c :: t =>
    if c = 'e' ∨ c = 'E' then
      let expDigits := ((takeSign t).2).takeWhile isDigit
      if expDigits = [] then 0
      else if (takeSign t).1 then -(digitsToNat expDigits : Int) else (digitsToNat expDigits : Int)
    else 0
  | [] => 0

/-- The function `parseFloat` on the characters of a string: leading white space is
skipped and the longest prefix that is a decimal literal is read; `none` is `NaN`. -/
def parseFloatChars (l : List Char) : Option ParsedNumber :=
  let signed := takeSign (l.dropWhile isJsWhitespace)
  let body := signed.2
  if "Infinity".data.isPrefixOf body then
    some (if signed.1 then .negInf else .posInf)
  else
    let intDigits := body.takeWhile isDigit
    let afterInt := body.dropWhile isDigit
    let fracDigits :=
      match afterInt with
      | '.' :: t => t.takeWhile isDigit
      | _ => []
    let afterFrac :=
      match afterInt with
      | '.' :: t => t.dropWhile isDigit
      | _ => afterInt
    if intDigits = [] ∧ fracDigits = [] then none
    else
      let mant : Int := digitsToNat (intDigits ++ fracDigits)
      some (.finite (if signed.1 then -mant else mant)
        (exponentPart afterFrac - (fracDigits.length : Int)))

/-- The replacement `.replace(/,/g, "")`. -/
def removeCommas (l : List Char) : List Char :=
  l.filter (fun c => c != ',')

/-- Translation of `_tryParseNumber`; `none` is the result `null`. -/
def _tryParseNumber (value : Value) : Option ParsedNumber :=
  if value = .null ∨ value = .undefined ∨ value = .str "" then none
  else parseFloatChars (removeCommas value.toJsString.data)

/-- The test of the regular expression `/^-?\d*\.?\d+$/`. -/
def matchesDecimalShape (l : List Char) : Bool :=
  let body := match l with
    | '-' :: t => t
    | _ => l
  match body.dropWhile isDigit with
  | [] => body != []
  | '.' :: t => t != [] && t.all isDigit
  | _ => false

/-- Translation of `_looksLikeValidDecimal`. -/
def _looksLikeValidDecimal (value : Value) : Bool :=
  if !value.truthy then false
  else matchesDecimalShape (removeCommas value.toJsString.data)

/-- The `length` of a string: its number of UTF-16 code units. -/
def jsLength (l : List Char) : Nat :=
  (l.map (fun c => if c.toNat < 0x10000 then 1 else 2)).sum

/-- Translation of `_isStringType`. -/
def _isStringType (typeName : String) : Bool :=
  typeName = "sap.ui.model.type.String" ∨ typeName = "sap.ui.model.odata.type.String"

/-- Translation of `_isNumericType`. -/
def _isNumericType (typeName : String) : Bool :=
  typeName = "sap.ui.model.odata.type.Decimal" ∨
  typeName = "sap.ui.model.odata.type.Int32" ∨
  typeName = "sap.ui.model.odata.type.Int16" ∨
  typeName = "sap.ui.model.type.Integer" ∨
  typeName = "sap.ui.model.type.Float"

/-- Translation of `_checkDecimalPrecision`; `none` is the result `null`. -/
def _checkDecimalPrecision (oResourceBundle : Option ResourceBundle) (value : Value)
    (constraints : Constraints) (controlLabel : String) : Option String :=
  match constraints.precision with
  | none => none
  | some precision =>
    let stringValue := value.toJsString.data.filter (fun c => c != '.' && c != ',' && c != '-')
    if precision < (jsLength stringValue : Int) then
      some (_getText oResourceBundle "validator.maxDigits" [controlLabel, toString precision])
    else none

/-- The text after the first full stop of `l`, when there is one
(`indexOf(".") !== -1`). -/
def afterFirstDot : List Char → Option (List Char)
  | [] => none
  | c :: t => if c = '.' then some t else afterFirstDot t

/-- Translation of `_checkDecimalScale`; `none` is the result `null`. The number of
decimal places `length - decimalIndex - 1` is the length of the text after the first
full stop. -/
def _checkDecimalScale (oResourceBundle : Option ResourceBundle) (value : Value)
    (constraints : Constraints) (controlLabel : String) : Option String :=
  match constraints.scale with
  | none => none
  | some scale =>
    match afterFirstDot value.toJsString.data with
    | some decimals =>
      if scale < (jsLength decimals : Int) then
        some (_getText oResourceBundle "validator.maxDecimalPlaces" [controlLabel, toString scale])
      else none
    | none => none

/-! ## The constraint evaluator -/

/-- A step performed during a validation, recorded in the order of execution. -/
inductive Event where
  | constraintCheck (sId : String)
  | parseValue (sId : String)
  | validateValue (sId : String)
  | ruleCall (key : String) (index : Nat)
  | globalRuleCall (index : Nat)
  deriving DecidableEq, Repr

/-- A validation result `{ isValid, errors }`. -/
structure Verdict where
  isValid : Bool
  errors : List String
  deriving DecidableEq, Repr

/-- The string-length part of `_preValidateConstraints`: the message pushed before the
early `return errors`, if any. The length is that of `String(value || "")`. -/
def preValidateLength (oResourceBundle : Option ResourceBundle) (value : Value)
    (constraints : Constraints) (controlLabel : String) : Option String :=
  let stringValue := if value.truthy then value.toJsString else ""
  let length : Int := jsLength stringValue.data
  let maxCheck : Option String :=
    match constraints.maxLength with
    | some maxLength =>
      if maxLength < length then
        some (_getText oResourceBundle "validator.maxLength" [controlLabel, toString maxLength])
      else none
    | none => none
  match constraints.minLength with
  | some minLength =>
    if length < minLength then
      some (_getText oResourceBundle "validator.minLength" [controlLabel, toString minLength])
    else maxCheck
  | none => maxCheck

/-- The precision and scale part of `_preValidateConstraints`. A message is used only
when it is truthy (`if (precisionError)`), that is a non-empty string. -/
def preValidateDigits (oResourceBundle : Option ResourceBundle) (value : Value)
    (constraints : Constraints) (controlLabel : String) : List String :=
  let scalePart : List String :=
    match _checkDecimalScale oResourceBundle value constraints controlLabel with
    | some scaleError => if scaleError != "" then [scaleError] else []
    | none => []
  match _checkDecimalPrecision oResourceBundle value constraints controlLabel with
  | some precisionError => if precisionError != "" then [precisionError] else scalePart
  | none => scalePart

/-- The numeric part of `_preValidateConstraints`, for a value that parsed to
`numericValue`. -/
def preValidateNumber (oResourceBundle : Option ResourceBundle) (value : Value)
    (constraints : Constraints) (controlLabel : String) (numericValue : ParsedNumber) :
    List String :=
  let afterRange : List String :=
    if _looksLikeValidDecimal value then
      preValidateDigits oResourceBundle value constraints controlLabel
    else []
  let maxCheck : List String :=
    match constraints.maximum with
    | some maximum =>
      if numericValue.gtInt maximum then
        [_getText oResourceBundle "validator.maxValue" [controlLabel, toString maximum]]
      else afterRange
    | none => afterRange
  match constraints.minimum with
  | some minimum =>
    if numericValue.ltInt minimum then
      [_getText oResourceBundle "validator.minValue" [controlLabel, toString minimum]]
    else maxCheck
  | none => maxCheck

/-- Translation of `_preValidateConstraints`. -/
def _preValidateConstraints (oResourceBundle : Option ResourceBundle) (value : Value)
    (constraints : Constraints) (controlLabel : String) (oType : OType) : List String :=
  let typeName := oType.name
  let lengthError : Option String :=
    if _isStringType typeName then
      preValidateLength oResourceBundle value constraints controlLabel
    else none
  match lengthError with
  | some error => [error]
  | none =>
    if _isNumericType typeName then
      match _tryParseNumber value with
      | some numericValue =>
        preValidateNumber oResourceBundle value constraints controlLabel numericValue
      | none => []
    else []

/-- Translation of `_getFormatErrorMessage`. -/
def _getFormatErrorMessage (oResourceBundle : Option ResourceBundle) (typeName : String) :
    String :=
  if typeName = "sap.ui.model.odata.type.Decimal" then
    _getText oResourceBundle "validator.invalidDecimalSimple" []
  else if typeName = "sap.ui.model.odata.type.Int32" ∨
      typeName = "sap.ui.model.odata.type.Int16" then
    _getText oResourceBundle "validator.invalidInteger" []
  else if typeName = "sap.ui.model.odata.type.Time" then
    _getText oResourceBundle "validator.invalidTime" []
  else if typeName = "sap.ui.model.odata.type.Date" ∨
      typeName = "sap.ui.model.odata.type.DateTime" then
    _getText oResourceBundle "validator.invalidDate" []
  else if typeName = "sap.ui.model.type.String" ∨
      typeName = "sap.ui.model.odata.type.String" then
    _getText oResourceBundle "validator.invalidText" []
  else
    _getText oResourceBundle "validator.invalidValue" []

/-- Translation of `_createUserFriendlyErrorMessage`. -/
def _createUserFriendlyErrorMessage (oResourceBundle : Option ResourceBundle)
    (oControl : Control) : String :=
  let controlLabel := _getControlLabel oResourceBundle oControl
  let oType : Option OType :=
    match _getValueBinding oControl with
    | some binding => binding.getType
    | none => none
  match oType with
  | none => controlLabel ++ ": " ++ _getText oResourceBundle "validator.invalidValue" []
  | some oType => controlLabel ++ ": " ++ _getFormatErrorMessage oResourceBundle oType.name

/-- Translation of `_validateConstraints`: the verdict and the calls made to the
external type (`parseValue`, then `validateValue` when the parse succeeded). -/
def _validateConstraints (oResourceBundle : Option ResourceBundle) (oControl : Control)
    (value : Value) : Verdict × List Event :=
  match _getValueBinding oControl with
  | none => ({ isValid := true, errors := [] }, [])
  | some binding =>
    match binding.getType with
    | none => ({ isValid := true, errors := [] }, [])
    | some oType =>
      let constraints := oType.getConstraints.getD {}
      let controlLabel := _getControlLabel oResourceBundle oControl
      let preValidationErrors :=
        _preValidateConstraints oResourceBundle value constraints controlLabel oType
      if preValidationErrors.length > 0 then
        ({ isValid := false, errors := preValidationErrors }, [])
      else
        match oType.parseValue value with
        | none =>
          ({ isValid := false,
             errors := [_createUserFriendlyErrorMessage oResourceBundle oControl] },
           [.parseValue oControl.sId])
        | some internalValue =>
          if oType.validateValue internalValue then
            ({ isValid := true, errors := [] },
             [.parseValue oControl.sId, .validateValue oControl.sId])
          else
            ({ isValid := false,
               errors := [_createUserFriendlyErrorMessage oResourceBundle oControl] },
             [.parseValue oControl.sId, .validateValue oControl.sId])

/-! ## Custom rules and the validator state -/

/-- What a rule function does when invoked: it returns a result, of which the validator
reads the truthiness of `isValid` and the `message`, or it throws. -/
inductive RuleOutcome where
  | returned (isValid : Bool) (message : String)
  | threw
  deriving DecidableEq, Repr

/-- A custom rule `function (value, oControl)`. -/
abbrev Rule := Value → Control → RuleOutcome

/-- A global rule `function ()`. -/
abbrev GlobalRule := Unit → RuleOutcome

/-- The value of `this.customRules[key]`: nothing, an array of rules, or a truthy value
that is not an array (what invoking it as a rule would do is `legacy`). -/
inductive RegistryEntry where
  | absent
  | rules (list : List Rule)
  | other (legacy : Rule)

/-- The type of a message of the message manager. -/
inductive MessageType where
  | Error
  | Warning
  | Information
  | Success
  | None
  deriving DecidableEq, Repr

/-- A message of the message manager (`new Message({...})`). -/
structure Message where
  message : String
  type : MessageType
  target : String
  additionalText : String
  deriving DecidableEq, Repr

/-- An element of `InputsErrorsIds`. -/
structure ErrorIdEntry where
  sTarget : String
  inputError : String
  deriving DecidableEq, Repr

/-- The visual state of a control: its value state and value state text. -/
structure ValueStateRec where
  valueState : String
  valueStateText : String
  deriving DecidableEq, Repr

/-- The validator object (`oResourceBundle`, `customRules`, `globalCustomRules`,
`InputsErrorsIds`) together with what it acts upon: the data of the message manager
(`messages`) and the visual state of each control, by control id (`controlState`). -/
@[ext]
structure State where
  oResourceBundle : Option ResourceBundle
  customRules : String → RegistryEntry
  globalCustomRules : List GlobalRule
  InputsErrorsIds : List ErrorIdEntry
  messages : List Message
  controlState : String → ValueStateRec

/-- The outcome of an operation: the value it returns or the exception it raises, the
state it leaves and the steps it performed. -/
structure Outcome (α : Type) where
  result : Except JsError α
  state : State
  trace : List Event

/-- The body of the loops of `_validateCustomRules` over the rules registered under
`key`, from index `index` on: each rule is invoked inside `try`; a falsy `isValid` pushes
the message of the rule and an exception pushes the text `validator.validationError`. -/
def runRules (oResourceBundle : Option ResourceBundle) (key : String) (value : Value)
    (oControl : Control) : List Rule → Nat → Verdict × List Event → Verdict × List Event
  | [], _, acc => acc
  | rule :: rest, index, acc =>
    let verdict : Verdict :=
      match rule value oControl with
      | .returned true _ => acc.1
      | .returned false message => { isValid := false, errors := acc.1.errors ++ [message] }
      | .threw =>
        { isValid := false,
          errors := acc.1.errors ++ [_getText oResourceBundle "validator.validationError" []] }
    runRules oResourceBundle key value oControl rest (index + 1)
      (verdict, acc.2 ++ [.ruleCall key index])

/-- The rules that `_validateCustomRules` runs for a key: those of an array entry. -/
def rulesFor (customRules : String → RegistryEntry) (key : String) : List Rule :=
  match customRules key with
  | .rules list => list
  | _ => []

/-- Translation of `_validateCustomRules`: first the rules under the local id of the
control, then those under its binding path. -/
def _validateCustomRules (self : State) (oControl : Control) (value : Value) :
    Verdict × List Event :=
  let controlId := _getControlId oControl
  let bindingPath := _getBindingPath oControl
  let byId := runRules self.oResourceBundle controlId value oControl
    (rulesFor self.customRules controlId) 0 ({ isValid := true, errors := [] }, [])
  runRules self.oResourceBundle bindingPath value oControl
    (rulesFor self.customRules bindingPath) 0 byId

/-- The result `{ isValid, message }` of `_validateRequired`. -/
inductive RequiredResult where
  | valid
  | invalid (message : String)
  deriving DecidableEq, Repr

/-- The field `isValid` of a required result. -/
def RequiredResult.isValid : RequiredResult → Bool
  | .valid => true
  | .invalid _ => false

/-- Translation of `_getRequiredMessage`. -/
def _getRequiredMessage (oResourceBundle : Option ResourceBundle) (oControl : Control) :
    String :=
  _getText oResourceBundle "validator.required" [_getControlLabel oResourceBundle oControl]

/-- Translation of `_validateRequired`. -/
def _validateRequired (oResourceBundle : Option ResourceBundle) (oControl : Control)
    (value : Value) : RequiredResult :=
  if !(_isControlRequired oControl).truthy then .valid
  else if _isEmpty value oControl then .invalid (_getRequiredMessage oResourceBundle oControl)
  else .valid

/-! ## Messages and visual state -/

/-- The calls `setValueState(state); setValueStateText(text)` on a control that has
them. -/
def setValueState (self : State) (oControl : Control) (state text : String) : State :=
  { self with
    controlState := fun id =>
      if id = oControl.sId then { valueState := state, valueStateText := text }
      else self.controlState id }

/-- Translation of `_setControlState`. -/
def _setControlState (self : State) (oControl : Control) (isValid : Bool)
    (errors : List String) : State :=
  if oControl.hasValueState then
    if isValid then setValueState self oControl "None" ""
    else
      let errorText :=
        if errors.length > 1 then "• " ++ "\n• ".intercalate errors else errors.headD ""
      setValueState self oControl "Error" errorText
  else self

/-- The message created by `_addErrorMessages` for one error text. -/
def errorMessage (sTarget controlLabel errorText : String) : Message :=
  { message := errorText, type := .Error, target := sTarget, additionalText := controlLabel }

/-- Translation of `_addErrorMessages`. -/
def _addErrorMessages (self : State) (oControl : Control) (sTarget controlLabel : String)
    (errors : List String) : State :=
  { self with
    InputsErrorsIds := self.InputsErrorsIds ++ [{ sTarget := sTarget, inputError := oControl.sId }]
    messages := self.messages ++ errors.map (errorMessage sTarget controlLabel) }

/-! ## Validation of one control -/

/-- The update `if (!result.isValid) { isValid = false; errors = errors.concat(result.errors) }`
of the running verdict. -/
def Verdict.absorb (acc result : Verdict) : Verdict :=
  if !result.isValid then { isValid := false, errors := acc.errors ++ result.errors } else acc

/-- The checks of `_validateControl`, without its effects: the verdict and the steps
performed for a control whose value is `value`. -/
def checkControl (self : State) (oControl : Control) (value : Value) : Verdict × List Event :=
  let requiredResult := _validateRequired self.oResourceBundle oControl value
  let afterRequired : Verdict :=
    match requiredResult with
    | .invalid message => { isValid := false, errors := [message] }
    | .valid => { isValid := true, errors := [] }
  let afterConstraints : Verdict × List Event :=
    if value.truthy && requiredResult.isValid then
      let constraintResult := _validateConstraints self.oResourceBundle oControl value
      (afterRequired.absorb constraintResult.1,
        [.constraintCheck oControl.sId] ++ constraintResult.2)
    else (afterRequired, [])
  if value.truthy || requiredResult.isValid then
    let customResult := _validateCustomRules self oControl value
    (afterConstraints.1.absorb customResult.1, afterConstraints.2 ++ customResult.2)
  else afterConstraints

/-- Translation of `_validateControl`. -/
def _validateControl (self : State) (oControl : Control) : Outcome Verdict :=
  let sTarget := _getBindingPath oControl
  let controlLabel := _getControlLabel self.oResourceBundle oControl
  match _getControlValue oControl with
  | .error e => { result := .error e, state := self, trace := [] }
  | .ok value =>
    let checked := checkControl self oControl value
    let isValid := checked.1.isValid
    let errors := checked.1.errors
    let withState := _setControlState self oControl isValid errors
    let withMessages :=
      if !isValid then _addErrorMessages withState oControl sTarget controlLabel errors
      else withState
    { result := .ok { isValid := isValid, errors := errors },
      state := withMessages, trace := checked.2 }

/-- Translation of `_clearControlMessages`. -/
def _clearControlMessages (self : State) (oControl : Control) : State :=
  let sTarget := _getBindingPath oControl
  let controlId := oControl.sId
  let withoutMessages : State :=
    if sTarget != "" then
      { self with messages := self.messages.filter (fun oMessage => oMessage.target != sTarget) }
    else self
  let withoutIds : State :=
    { withoutMessages with
      InputsErrorsIds :=
        withoutMessages.InputsErrorsIds.filter (fun item => item.inputError != controlId) }
  if oControl.hasValueState then setValueState withoutIds oControl "None" "" else withoutIds

/-- Translation of `validateControl`. -/
def validateControl (self : State) (oControl : Control) : Outcome Verdict :=
  _validateControl (_clearControlMessages self oControl) oControl

/-! ## Batch validation -/

/-- The list `aValidatableTypes` of `_filterValidatableControls`. -/
def aValidatableTypes : List String :=
  [ "sap.m.Input", "sap.m.TextArea", "sap.m.Select", "sap.m.ComboBox", "sap.m.MultiComboBox",
    "sap.m.CheckBox", "sap.m.DatePicker", "sap.m.DateTimePicker", "sap.m.TimePicker",
    "sap.m.MultiInput", "sap.m.CheckBox", "sap.m.Switch" ]

/-- The predicate of the `filter` of `_filterValidatableControls` on a control. -/
def isValidatable (oControl : Control) : Bool :=
  if !aValidatableTypes.contains oControl.metadataName then false
  else if oControl.getVisible = some false || oControl.getEnabled = some false then false
  else true

/-- Translation of `_filterValidatableControls`. An element of the input that is falsy
or has no `getMetadata` is `none`. -/
def _filterValidatableControls (aControls : List (Option Control)) : List Control :=
  aControls.filterMap (fun entry =>
    match entry with
    | none => none
    | some oControl => if isValidatable oControl then some oControl else none)

/-- The message added by `_validateGlobalCustomRules` for a failing global rule. -/
def globalMessage (text : String) : Message :=
  { message := text, type := .Error, target := "/globalValidation", additionalText := "" }

/-- The loop of `_validateGlobalCustomRules` from index `index` on: the running verdict,
the state and the steps performed so far are threaded through. -/
def runGlobalRules : List GlobalRule → Nat → Verdict × State × List Event →
    Verdict × State × List Event
  | [], _, acc => acc
  | rule :: rest, index, (verdict, self, trace) =>
    let step : Verdict × State :=
      match rule () with
      | .returned true _ => (verdict, self)
      | .returned false message =>
        ({ isValid := false, errors := verdict.errors ++ [message] },
         { self with messages := self.messages ++ [globalMessage message] })
      | .threw => ({ verdict with isValid := false }, self)
    runGlobalRules rest (index + 1) (step.1, step.2, trace ++ [.globalRuleCall index])

/-- Translation of `_validateGlobalCustomRules`. -/
def _validateGlobalCustomRules (self : State) : Outcome Verdict :=
  let final := runGlobalRules self.globalCustomRules 0
    ({ isValid := true, errors := [] }, self, [])
  { result := .ok final.1, state := final.2.1, trace := final.2.2 }

/-- The loop `aFilteredControls.forEach(...)` of `validateControls`: each control is
validated inside `try`; an invalid verdict and a caught exception both clear `isValid`. -/
def validateEach : List Control → Bool × State × List Event → Bool × State × List Event
  | [], acc => acc
  | oControl :: rest, (isValid, self, trace) =>
    let fieldOutcome := _validateControl self oControl
    let isValid :=
      match fieldOutcome.result with
      | .ok fieldResult => if !fieldResult.isValid then false else isValid
      | .error _ => false
    validateEach rest (isValid, fieldOutcome.state, trace ++ fieldOutcome.trace)

/-- Translation of `validateControls`. -/
def validateControls (self : State) (aControls : List (Option Control)) : Outcome Bool :=
  let aFilteredControls := _filterValidatableControls aControls
  let cleared : State := { self with messages := [], InputsErrorsIds := [] }
  let afterControls := validateEach aFilteredControls (true, cleared, [])
  let globalOutcome := _validateGlobalCustomRules afterControls.2.1
  match globalOutcome.result with
  | .ok globalValidationResult =>
    { result := .ok (if !globalValidationResult.isValid then false else afterControls.1),
      state := globalOutcome.state, trace := afterControls.2.2 ++ globalOutcome.trace }
  | .error e =>
    { result := .error e, state := globalOutcome.state,
      trace := afterControls.2.2 ++ globalOutcome.trace }

/-! ## Global rules, clearing and registration -/

/-- Translation of `validateGlobalCustomRules`: the messages whose target is
`/globalValidation` are removed from the message manager, then the global rules run. -/
def validateGlobalCustomRules (self : State) : Outcome Verdict :=
  _validateGlobalCustomRules
    { self with
      messages := self.messages.filter (fun oMessage => oMessage.target != "/globalValidation") }

/-- The loop `this.InputsErrorsIds.forEach(...)` of `clearAllMessages`: the control of
each record is looked up in the element registry and, when it is found and has
`setValueState`, its visual state is reset. -/
def resetControls (registry : String → Option Control) : List ErrorIdEntry → State → State
  | [], self => self
  | item :: rest, self =>
    let afterItem : State :=
      match registry item.inputError with
      | some oControl =>
        if oControl.hasValueState then setValueState self oControl "None" "" else self
      | none => self
    resetControls registry rest afterItem

/-- Translation of `clearAllMessages`. The element registry
(`sap.ui.core.Element.registry.get`) maps an id to its control, if any. -/
def clearAllMessages (registry : String → Option Control) (self : State) : State :=
  let reset := resetControls registry self.InputsErrorsIds self
  { reset with messages := [], InputsErrorsIds := [] }

/-- An argument passed where a function is expected: a function, or any other value. -/
inductive Callable (α : Type) where
  | function (f : α)
  | notFunction (value : Value)

/-- The test `typeof validationFunction === "function"`. -/
def Callable.isFunction {α : Type} : Callable α → Bool
  | .function _ => true
  | .notFunction _ => false

/-- Translation of `addCustomRule`. An entry that is not an array is first replaced by
an empty array when it is falsy and by the array of its value when it is truthy. (The
effect of the key `__proto__` on the lookup of other keys is not modelled.) -/
def addCustomRule (self : State) (controlIdOrPath : String)
    (validationFunction : Callable Rule) : Outcome Unit :=
  match validationFunction with
  | .notFunction _ =>
    { result := .error (.error "validationFunction is required and must be a function"),
      state := self, trace := [] }
  | .function rule =>
    let asArray : List Rule :=
      match self.customRules controlIdOrPath with
      | .absent => []
      | .rules list => list
      | .other legacy => [legacy]
    { result := .ok (),
      state :=
        { self with
          customRules := fun key =>
            if key = controlIdOrPath then .rules (asArray ++ [rule]) else self.customRules key },
      trace := [] }

/-- Translation of `addGlobalCustomRule`. -/
def addGlobalCustomRule (self : State) (validationFunction : Callable GlobalRule) :
    Outcome Unit :=
  match validationFunction with
  | .notFunction _ =>
    { result := .error (.error "validationFunction is required and must be a function"),
      state := self, trace := [] }
  | .function rule =>
    { result := .ok (),
      state := { self with globalCustomRules := self.globalCustomRules ++ [rule] },
      trace := [] }

/-! ## The registry object

`this.customRules` is created as `{}`, so a lookup `this.customRules[key]` that finds no own
property continues in `Object.prototype`. -/

/-- The names of the members that an object created as `{}` inherits from
`Object.prototype`. -/
def objectPrototypeKeys : List String :=
  [ "constructor", "toString", "toLocaleString", "valueOf", "hasOwnProperty",
    "isPrototypeOf", "propertyIsEnumerable", "__defineGetter__", "__defineSetter__",
    "__lookupGetter__", "__lookupSetter__", "__proto__" ]

/-- What invoking the inherited member `key` as a rule does, with the rule array as
`this`, the value as first argument and the control as second. `__defineGetter__` and
`__defineSetter__` raise because the control is not callable, and the value of
`__proto__` is not callable; `__lookupGetter__` and `__lookupSetter__` return
`undefined`, whose `isValid` cannot be read, unless the value names the accessor
`__proto__`; the other members return a value without `isValid`, so the rule fails with
the message `undefined`, written here as the empty text. -/
def inheritedMember (key : String) : Rule := fun value _ =>
  if key = "__defineGetter__" ∨ key = "__defineSetter__" ∨ key = "__proto__" then .threw
  else if key = "__lookupGetter__" ∨ key = "__lookupSetter__" then
    if value.toJsString = "__proto__" then .returned false "" else .threw
  else .returned false ""

/-- The result of the lookup `this.customRules[key]` when the registry object has no own
property `key`. -/
def inheritedEntry (key : String) : RegistryEntry :=
  if objectPrototypeKeys.contains key then .other (inheritedMember key) else .absent

/-- Translation of `clearCustomRules`: when the lookup is truthy, `delete` removes the own
property, if any, and later lookups of the key find what the object inherits. -/
def clearCustomRules (self : State) (controlIdOrPath : String) : State :=
  match self.customRules controlIdOrPath with
  | .absent => self
  | _ =>
    { self with
      customRules := fun key =>
        if key = controlIdOrPath then inheritedEntry key else self.customRules key }

/-- Translation of `getCustomRules`: `this.customRules[key] || []`. The result `.rules`
is an array and `.other` is the truthy value found that is not an array. -/
def getCustomRules (self : State) (controlIdOrPath : String) : RegistryEntry :=
  match self.customRules controlIdOrPath with
  | .absent => .rules []
  | entry => entry

/-! ## Vocabulary of the statements -/

/-- The message that a rule outcome contributes to the errors of the custom-rule check:
none when the rule passes, its own message when it fails, the generic text when it
throws. -/
def ruleError (oResourceBundle : Option ResourceBundle) : RuleOutcome → Option String
  | .returned true _ => none
  | .returned false message => some message
  | .threw => some (_getText oResourceBundle "validator.validationError" [])

/-- The messages of the failing rules of a list, in the order of the list. -/
def failedMessages (oResourceBundle : Option ResourceBundle) (value : Value)
    (oControl : Control) (rules : List Rule) : List String :=
  rules.filterMap (fun rule => ruleError oResourceBundle (rule value oControl))

/-- The invocations of the rules registered under `key`, one per rule, in registration
order. -/
def ruleCalls (key : String) (rules : List Rule) : List Event :=
  (List.range' 0 rules.length).map (Event.ruleCall key)

/-- The verdict invariant: a verdict is valid exactly when it has no errors. -/
def Verdict.Consistent (verdict : Verdict) : Prop :=
  verdict.isValid = true ↔ verdict.errors = []

/-- The visual state that `_setControlState` gives to a control for a verdict. -/
def visualStateOf (verdict : Verdict) : ValueStateRec :=
  if verdict.isValid then { valueState := "None", valueStateText := "" }
  else
    { valueState := "Error",
      valueStateText :=
        if verdict.errors.length > 1 then "• " ++ "\n• ".intercalate verdict.errors
        else verdict.errors.headD "" }

/-- The entries that the validation of a control adds to the message manager: one
error message per error of its verdict, under the target of the control; none when
the validation raises. -/
def entriesOf (self : State) (oControl : Control) : List Message :=
  match (_validateControl self oControl).result with
  | .ok verdict =>
    verdict.errors.map
      (errorMessage (_getBindingPath oControl) (_getControlLabel self.oResourceBundle oControl))
  | .error _ => []

/-- The records that the validation of a control adds to `InputsErrorsIds`: one when
its verdict is invalid. -/
def indexRecordsOf (self : State) (oControl : Control) : List ErrorIdEntry :=
  match (_validateControl self oControl).result with
  | .ok verdict =>
    if verdict.isValid then []
    else [{ sTarget := _getBindingPath oControl, inputError := oControl.sId }]
  | .error _ => []

/-- Whether the validation of a control returns a valid verdict. -/
def passes (self : State) (oControl : Control) : Bool :=
  match (_validateControl self oControl).result with
  | .ok verdict => verdict.isValid
  | .error _ => false

/-- The message that a global rule adds to the message manager: one entry under
`/globalValidation` when the rule returns a falsy `isValid`, none when it passes or
throws. -/
def globalEntry (rule : GlobalRule) : Option Message :=
  match rule () with
  | .returned false message => some (globalMessage message)
  | _ => none

/-- Whether a global rule returns a truthy `isValid` (and does not throw). -/
def globalPasses (rule : GlobalRule) : Bool :=
  match rule () with
  | .returned true _ => true
  | _ => false

/-! ## Sample forms

Concrete validators and controls on which the statements are evaluated. -/

/-- A validator as the constructor leaves it, without resource bundle: no rule is
registered, so a lookup in the registry finds what the registry object inherits; the
message manager is empty and every control is in the state `None`. -/
def freshState : State :=
  { oResourceBundle := none
    customRules := inheritedEntry
    globalCustomRules := []
    InputsErrorsIds := []
    messages := []
    controlState := fun _ => { valueState := "None", valueStateText := "" } }

/-- A required `sap.m.Input` with label `Name` and the given text. -/
def nameInput (text : String) : Control :=
  { sId := "__xmlview0--name", metadataName := "sap.m.Input",
    getVisible := some true, getEnabled := some true,
    getValue := some (.str text), getRequired := some (.bool true),
    getLabels := some ["Name"] }

/-- A rule that fails with the given message. -/
def failingRule (message : String) : Rule := fun _ _ => .returned false message

/-- A rule that throws. -/
def throwingRule : Rule := fun _ _ => .threw

/-- A validator with one failing rule registered under the local id `name`. -/
def stateWithNameRule : State :=
  { freshState with
    customRules := fun key =>
      if key = "name" then .rules [failingRule "Name must start with a capital letter"]
      else inheritedEntry key }

/-- A required `sap.m.Input` whose label contains two dollar signs, with an empty
text. -/
def amountInput : Control :=
  { sId := "__xmlview0--amount", metadataName := "sap.m.Input",
    getVisible := some true, getEnabled := some true,
    getValue := some (.str ""), getRequired := some (.bool true),
    getLabels := some ["Amount ($$)"] }

/-- A validator with three failing rules under the local id `name` and one under the
path `/__xmlview0--name`, the target of the unbound control `nameInput`. -/
def stateWithFourRules : State :=
  { freshState with
    customRules := fun key =>
      if key = "name" then
        .rules [failingRule "first", failingRule "second", failingRule "third"]
      else if key = "/__xmlview0--name" then .rules [failingRule "fourth"]
      else inheritedEntry key }

/-- A validator whose second rule under the local id `name` throws. -/
def stateWithThrowingRule : State :=
  { freshState with
    customRules := fun key =>
      if key = "name" then .rules [failingRule "first", throwingRule, failingRule "third"]
      else inheritedEntry key }

/-- An optional `sap.m.Input` with the local id `taxId`. -/
def taxInput : Control :=
  { sId := "__xmlview0--taxId", metadataName := "sap.m.Input",
    getVisible := some true, getEnabled := some true,
    getValue := some (.str "12"), getLabels := some ["Tax number"] }

/-- A required `sap.m.Input` with label `Email` and an empty text. -/
def emailInput : Control :=
  { sId := "__xmlview0--email", metadataName := "sap.m.Input",
    getVisible := some true, getEnabled := some true,
    getValue := some (.str ""), getRequired := some (.bool true),
    getLabels := some ["Email"] }

/-- A required `sap.m.Select` with a selected key. -/
def citySelect : Control :=
  { sId := "__xmlview0--city", metadataName := "sap.m.Select",
    getVisible := some true, getEnabled := some true,
    getSelectedKey := some (.str "HH"), getRequired := some (.bool true),
    getLabels := some ["City"] }

/-- A validator whose only rule, registered under the local id `taxId`, throws. -/
def stateWithThrowingTaxRule : State :=
  { freshState with
    customRules := fun key => if key = "taxId" then .rules [throwingRule] else inheritedEntry key }

/-- A batch of four fields; the custom rule of the second one throws. -/
def sampleBatch : List (Option Control) :=
  [some (nameInput "Ann"), some taxInput, some emailInput, some citySelect]

/-- A validator whose message manager already holds an error of the control `name`, an
error of the control `email` and a server error, with both controls in error state. -/
def stateWithEarlierErrors : State :=
  { freshState with
    messages :=
      [ errorMessage "/__xmlview0--name" "Name" "Name is required",
        errorMessage "/__xmlview0--email" "Email" "Email is required",
        { message := "Service unavailable", type := .Error, target := "/serverError",
          additionalText := "" } ]
    InputsErrorsIds :=
      [ { sTarget := "/__xmlview0--name", inputError := "__xmlview0--name" },
        { sTarget := "/__xmlview0--email", inputError := "__xmlview0--email" } ]
    controlState := fun id =>
      if id = "__xmlview0--name" then
        { valueState := "Error", valueStateText := "Name is required" }
      else if id = "__xmlview0--email" then
        { valueState := "Error", valueStateText := "Email is required" }
      else { valueState := "None", valueStateText := "" } }

/-- The error that a global rule contributes to the verdict of the global check: its
message when it returns a falsy `isValid`, nothing when it passes or throws. -/
def globalError (rule : GlobalRule) : Option String :=
  match rule () with
  | .returned false message => some message
  | _ => none

/-- The record `None` with empty text of a control without error. -/
def noError : ValueStateRec :=
  { valueState := "None", valueStateText := "" }

/-- The element registry of the sample form. -/
def sampleRegistry : String → Option Control := fun id =>
  if id = "__xmlview0--name" then some (nameInput "Ann")
  else if id = "__xmlview0--email" then some emailInput
  else if id = "__xmlview0--taxId" then some taxInput
  else if id = "__xmlview0--city" then some citySelect
  else none

/-- The state reached from the fresh validator by validating the group of the control
`email` and then the group of the control `name`. -/
def stateAfterTwoBatches : State :=
  (validateControls (validateControls freshState [some emailInput]).state
    [some (nameInput "Ann")]).state

/-- The global rule of the sample controller: the attachment list, of the given length,
must not be empty. -/
def attachmentRule (attachments : Nat) : GlobalRule :=
  fun _ => .returned (decide (attachments > 0)) "Attachment is mandatory"

/-- A global rule that throws. -/
def throwingGlobalRule : GlobalRule := fun _ => .threw

/-- A validator whose only global rule throws. -/
def stateWithThrowingGlobalRule : State :=
  { freshState with globalCustomRules := [throwingGlobalRule] }

/-- A validator with the attachment rule, for an attachment list of the given length. -/
def stateWithAttachments (attachments : Nat) : State :=
  { freshState with globalCustomRules := [attachmentRule attachments] }

/-- The state of the sample validator after a first global validation without
attachment, once an attachment has been added. -/
def stateAfterAttachmentAdded : State :=
  { (validateGlobalCustomRules (stateWithAttachments 0)).state with
    globalCustomRules := [attachmentRule 1] }

/-- The decimal type of the sample form, with the constraints minimum 0, maximum 100,
precision 5 and scale 2; its external parse and validation accept every value. -/
def decimalType : OType :=
  { name := "sap.ui.model.odata.type.Decimal"
    getConstraints := some { minimum := some 0, maximum := some 100, precision := some 5,
                             scale := some 2 }
    parseValue := fun value => some value
    validateValue := fun _ => true }

/-- A `sap.m.Input` with label `Price`, bound to `/price` with the sample decimal type
and holding the given text. -/
def priceInput (text : String) : Control :=
  { sId := "__xmlview0--price", metadataName := "sap.m.Input",
    getVisible := some true, getEnabled := some true,
    getValue := some (.str text), getLabels := some ["Price"],
    getBinding := fun property =>
      if property = "value" then
        some { getPath := "/price", getType := some decimalType, getValue := .str text }
      else none }

/-- A string type with a degenerate configuration: minimum length 5, maximum length 3. -/
def degenerateStringType : OType :=
  { name := "sap.ui.model.type.String"
    getConstraints := some { minLength := some 5, maxLength := some 3 }
    parseValue := fun value => some value
    validateValue := fun _ => true }

/-- The plain integer type `sap.ui.model.type.Integer`, whose external parse raises. -/
def integerType : OType :=
  { name := "sap.ui.model.type.Integer"
    getConstraints := none
    parseValue := fun _ => none
    validateValue := fun _ => true }

/-- A `sap.m.Input` with label `Age`, bound to `/age` with the plain integer type and
holding the text `abc`. -/
def ageInput : Control :=
  { sId := "__xmlview0--age", metadataName := "sap.m.Input",
    getVisible := some true, getEnabled := some true,
    getValue := some (.str "abc"), getLabels := some ["Age"],
    getBinding := fun property =>
      if property = "value" then
        some { getPath := "/age", getType := some integerType, getValue := .str "abc" }
      else none }

/-- A `sap.m.MultiInput` with the given tokens. -/
def tagsInput (tokens : List String) : Control :=
  { sId := "__xmlview0--tags", metadataName := "sap.m.MultiInput",
    getTokens := some (.array tokens), getLabels := some ["Tags"] }

/-- The characters of a plain decimal text: an optional minus sign, the digits of the
integral part, a full stop and the digits of the fractional part. -/
def plainDecimal (negative : Bool) (intDigits fracDigits : List Char) : List Char :=
  (if negative then ['-'] else []) ++ (intDigits ++ '.' :: fracDigits)

/-- The number written by a plain decimal text. -/
def plainDecimalNumber (negative : Bool) (intDigits fracDigits : List Char) : ParsedNumber :=
  .finite
    (if negative then -(digitsToNat (intDigits ++ fracDigits) : Int)
     else (digitsToNat (intDigits ++ fracDigits) : Int))
    (0 - (fracDigits.length : Int))

/-- A `sap.m.Input` with the given id, bound to the given path, holding the given text. -/
def boundInput (sId path text : String) : Control :=
  { sId := sId, metadataName := "sap.m.Input",
    getVisible := some true, getEnabled := some true,
    getValue := some (.str text), getLabels := some ["Name"],
    getBinding := fun property =>
      if property = "value" then
        some { getPath := path, getType := none, getValue := .str text }
      else none }

/-- A `sap.m.Input` whose property `required` is the boolean `false` while the current
value of its `required` binding is `true` (a binding with a formatter, say). -/
def formattedRequiredInput : Control :=
  { sId := "__xmlview0--code", metadataName := "sap.m.Input",
    getValue := some (.str ""), getRequired := some (.bool false),
    getBinding := fun property =>
      if property = "required" then
        some { getPath := "/codeOptional", getType := none, getValue := .bool true }
      else none }

/-- The eleven kinds of control named by `aValidatableTypes`. -/
def validatableKinds : List String :=
  [ "sap.m.Input", "sap.m.TextArea", "sap.m.Select", "sap.m.ComboBox", "sap.m.MultiComboBox",
    "sap.m.CheckBox", "sap.m.DatePicker", "sap.m.DateTimePicker", "sap.m.TimePicker",
    "sap.m.MultiInput", "sap.m.Switch" ]

/-- An invisible `sap.m.Input`. -/
def hiddenInput : Control :=
  { sId := "__xmlview0--hidden", metadataName := "sap.m.Input",
    getVisible := some false, getEnabled := some true, getValue := some (.str "") }

/-- A `sap.m.Button`, which is not a validatable kind. -/
def saveButton : Control :=
  { sId := "__xmlview0--save", metadataName := "sap.m.Button",
    getVisible := some true, getEnabled := some true }

/-- A string type with the constraint minimum length 5; its external parse and validation
accept every value. -/
def postcodeType : OType :=
  { name := "sap.ui.model.type.String"
    getConstraints := some { minLength := some 5 }
    parseValue := fun value => some value
    validateValue := fun _ => true }

/-- An optional `sap.m.Input` with label `Postcode`, bound to `/postcode` with the
sample string type of minimum length 5 and holding the given text. -/
def postcodeInput (text : String) : Control :=
  { sId := "__xmlview0--postcode", metadataName := "sap.m.Input",
    getVisible := some true, getEnabled := some true,
    getValue := some (.str text), getRequired := some (.bool false),
    getLabels := some ["Postcode"],
    getBinding := fun property =>
      if property = "value" then
        some { getPath := "/postcode", getType := some postcodeType, getValue := .str text }
      else none }

/-- An integer type with the constraint minimum 1; its external parse and validation
accept every value. -/
def quantityType : OType :=
  { name := "sap.ui.model.type.Integer"
    getConstraints := some { minimum := some 1 }
    parseValue := fun value => some value
    validateValue := fun _ => true }

/-- A required `sap.m.StepInput` with label `Quantity`, bound to `/quantity` with the
sample integer type of minimum 1; its `getValue()` returns the given number. -/
def quantityInput (quantity : Int) : Control :=
  { sId := "__xmlview0--quantity", metadataName := "sap.m.StepInput",
    getVisible := some true, getEnabled := some true,
    getValue := some (.num quantity), getRequired := some (.bool true),
    getLabels := some ["Quantity"],
    getBinding := fun property =>
      if property = "value" then
        some { getPath := "/quantity", getType := some quantityType,
               getValue := .num quantity }
      else none }

/-- The characters of `String.prototype.trim` applied to a text: the text without its
leading and trailing white space. -/
def jsTrim (l : List Char) : List Char :=
  ((l.dropWhile isJsWhitespace).reverse.dropWhile isJsWhitespace).reverse

/-- An optional `sap.m.Input` with id `__xmlview0--name` whose value is bound with the
relative path `name`, the same string as its local id, holding the given text. -/
def relativeNameInput (text : String) : Control :=
  boundInput "__xmlview0--name" "name" text

/-- An optional `sap.m.Input` whose label is `Rate {1}`, bound to `/rate` with the sample
string type of minimum length 5 and holding the given text. -/
def rateInput (text : String) : Control :=
  { sId := "__xmlview0--rate", metadataName := "sap.m.Input",
    getVisible := some true, getEnabled := some true,
    getValue := some (.str text), getLabels := some ["Rate \x7b1\x7d"],
    getBinding := fun property =>
      if property = "value" then
        some { getPath := "/rate", getType := some postcodeType, getValue := .str text }
      else none }

/-- A call of the public interface of the validator. -/
inductive Call where
  | validateControls (aControls : List (Option Control))
  | validateControl (oControl : Control)
  | clearAllMessages

/-- The state after a call. -/
def applyCall (registry : String → Option Control) (self : State) : Call → State
  | .validateControls aControls => (validateControls self aControls).state
  | .validateControl oControl => (validateControl self oControl).state
  | .clearAllMessages => clearAllMessages registry self

/-- The state after a sequence of calls, made in the order of the list. -/
def runCalls (registry : String → Option Control) (calls : List Call) (self : State) :
    State :=
  calls.foldl (applyCall registry) self

/-- The entries of the message manager under the target of a control. -/
def entriesUnder (self : State) (oControl : Control) : List Message :=
  self.messages.filter (fun oMessage => oMessage.target == _getBindingPath oControl)

/-! ## Custom rules -/

theorem runRules_eq (rb : Option ResourceBundle) (key : String) (value : Value)
    (c : Control) (rules : List Rule) (index : Nat) (acc : Verdict × List Event) :
    runRules rb key value c rules index acc =
      ({ isValid := acc.1.isValid && (failedMessages rb value c rules).isEmpty,
         errors := acc.1.errors ++ failedMessages rb value c rules },
       acc.2 ++ (List.range' index rules.length).map (Event.ruleCall key)) := by
  induction rules generalizing index acc with
  | nil => simp [runRules, failedMessages]
  | cons rule rest ih =>
    rw [runRules, ih]
    cases h : rule value c with
    | returned ok message =>
      cases ok <;> simp [failedMessages, ruleError, h, List.range'_succ]
    | threw => simp [failedMessages, ruleError, h, List.range'_succ]

theorem validateCustomRules_eq (self : State) (c : Control) (value : Value) :
    _validateCustomRules self c value =
      ({ isValid :=
           (failedMessages self.oResourceBundle value c
              (rulesFor self.customRules (_getControlId c))).isEmpty &&
           (failedMessages self.oResourceBundle value c
              (rulesFor self.customRules (_getBindingPath c))).isEmpty,
         errors :=
           failedMessages self.oResourceBundle value c
             (rulesFor self.customRules (_getControlId c)) ++
           failedMessages self.oResourceBundle value c
             (rulesFor self.customRules (_getBindingPath c)) },
       ruleCalls (_getControlId c) (rulesFor self.customRules (_getControlId c)) ++
       ruleCalls (_getBindingPath c) (rulesFor self.customRules (_getBindingPath c))) := by
  simp [_validateCustomRules, runRules_eq, ruleCalls]

theorem validateCustomRules_consistent (self : State) (c : Control) (value : Value) :
    (_validateCustomRules self c value).1.Consistent := by
  rw [validateCustomRules_eq]
  simp [Verdict.Consistent, List.isEmpty_iff]

theorem validateConstraints_consistent (rb : Option ResourceBundle) (c : Control)
    (value : Value) : (_validateConstraints rb c value).1.Consistent := by
  unfold _validateConstraints Verdict.Consistent
  split
  · simp
  · split
    · simp
    · dsimp only
      split
      · rename_i h
        simp only [false_iff, Bool.false_eq_true]
        intro h0
        rw [h0] at h
        simp at h
      · split
        · simp
        · split <;> simp

theorem absorb_consistent (acc result : Verdict) (hacc : acc.Consistent)
    (hres : result.Consistent) : (acc.absorb result).Consistent := by
  unfold Verdict.absorb
  cases hv : result.isValid with
  | true => simpa using hacc
  | false =>
    have hne : result.errors ≠ [] := by
      intro h
      have := hres.2 h
      rw [hv] at this
      exact Bool.noConfusion this
    simp [Verdict.Consistent, hne]

theorem checkControl_consistent (self : State) (c : Control) (value : Value) :
    (checkControl self c value).1.Consistent := by
  have hreq : (match _validateRequired self.oResourceBundle c value with
      | .invalid message => ({ isValid := false, errors := [message] } : Verdict)
      | .valid => { isValid := true, errors := [] }).Consistent := by
    split <;> simp [Verdict.Consistent]
  have hcon : (if value.truthy && (_validateRequired self.oResourceBundle c value).isValid then
      ((match _validateRequired self.oResourceBundle c value with
        | .invalid message => ({ isValid := false, errors := [message] } : Verdict)
        | .valid => { isValid := true, errors := [] }).absorb
          (_validateConstraints self.oResourceBundle c value).1,
        [Event.constraintCheck c.sId] ++ (_validateConstraints self.oResourceBundle c value).2)
      else ((match _validateRequired self.oResourceBundle c value with
        | .invalid message => ({ isValid := false, errors := [message] } : Verdict)
        | .valid => { isValid := true, errors := [] }), [])).1.Consistent := by
    split
    · exact absorb_consistent _ _ hreq (validateConstraints_consistent _ _ _)
    · exact hreq
  unfold checkControl
  dsimp only
  split
  · exact absorb_consistent _ _ hcon (validateCustomRules_consistent _ _ _)
  · exact hcon

/-! ## Effects of the validation of one control -/

theorem checkControl_congr (s t : State) (c : Control) (value : Value)
    (hb : s.oResourceBundle = t.oResourceBundle) (hr : s.customRules = t.customRules) :
    checkControl s c value = checkControl t c value := by
  simp only [checkControl, _validateCustomRules, hb, hr]

theorem validateControl_result_congr (s t : State) (c : Control)
    (hb : s.oResourceBundle = t.oResourceBundle) (hr : s.customRules = t.customRules) :
    (_validateControl s c).result = (_validateControl t c).result ∧
    (_validateControl s c).trace = (_validateControl t c).trace := by
  unfold _validateControl
  cases hv : _getControlValue c with
  | error e => simp
  | ok value => simp [checkControl_congr s t c value hb hr]

theorem validateControl_result_eq (self : State) (c : Control) :
    (_validateControl self c).result =
      match _getControlValue c with
      | .error e => .error e
      | .ok value => .ok (checkControl self c value).1 := by
  unfold _validateControl
  cases hv : _getControlValue c <;> simp

theorem validateControl_config (self : State) (c : Control) :
    (_validateControl self c).state.oResourceBundle = self.oResourceBundle ∧
    (_validateControl self c).state.customRules = self.customRules ∧
    (_validateControl self c).state.globalCustomRules = self.globalCustomRules := by
  unfold _validateControl
  cases hv : _getControlValue c with
  | error e => simp
  | ok value =>
    cases hb : (checkControl self c value).1.isValid <;>
    cases hs : c.hasValueState <;>
    simp [hb, hs, _setControlState, setValueState, _addErrorMessages]

theorem validateControl_messages (self : State) (c : Control) :
    (_validateControl self c).state.messages = self.messages ++ entriesOf self c := by
  unfold entriesOf
  rw [validateControl_result_eq]
  unfold _validateControl
  cases hv : _getControlValue c with
  | error e => simp
  | ok value =>
    have hc := checkControl_consistent self c value
    simp only [Verdict.Consistent] at hc
    cases hb : (checkControl self c value).1.isValid with
    | true =>
      cases hs : c.hasValueState <;>
      simp [hb, hs, _setControlState, setValueState, hc.1 hb]
    | false =>
      cases hs : c.hasValueState <;>
      simp [hb, hs, _setControlState, setValueState, _addErrorMessages]

theorem validateControl_ids (self : State) (c : Control) :
    (_validateControl self c).state.InputsErrorsIds =
      self.InputsErrorsIds ++ indexRecordsOf self c := by
  unfold indexRecordsOf
  rw [validateControl_result_eq]
  unfold _validateControl
  cases hv : _getControlValue c with
  | error e => simp
  | ok value =>
    cases hb : (checkControl self c value).1.isValid <;>
    cases hs : c.hasValueState <;>
    simp [hb, hs, _setControlState, setValueState, _addErrorMessages]

theorem validateControl_controlState (self : State) (c : Control) (id : String) :
    (_validateControl self c).state.controlState id =
      match (_validateControl self c).result with
      | .ok verdict =>
        if c.hasValueState = true ∧ id = c.sId then visualStateOf verdict
        else self.controlState id
      | .error _ => self.controlState id := by
  rw [validateControl_result_eq]
  unfold _validateControl
  cases hv : _getControlValue c with
  | error e => simp
  | ok value =>
    cases hb : (checkControl self c value).1.isValid <;>
    cases hs : c.hasValueState <;>
    simp [hb, hs, _setControlState, setValueState, _addErrorMessages, visualStateOf]

/-! ## The loops of the batch validation -/

theorem entriesOf_congr (s t : State) (c : Control)
    (hb : s.oResourceBundle = t.oResourceBundle) (hr : s.customRules = t.customRules) :
    entriesOf s c = entriesOf t c := by
  unfold entriesOf
  rw [(validateControl_result_congr s t c hb hr).1, hb]

theorem indexRecordsOf_congr (s t : State) (c : Control)
    (hb : s.oResourceBundle = t.oResourceBundle) (hr : s.customRules = t.customRules) :
    indexRecordsOf s c = indexRecordsOf t c := by
  unfold indexRecordsOf
  rw [(validateControl_result_congr s t c hb hr).1]

theorem passes_congr (s t : State) (c : Control)
    (hb : s.oResourceBundle = t.oResourceBundle) (hr : s.customRules = t.customRules) :
    passes s c = passes t c := by
  unfold passes
  rw [(validateControl_result_congr s t c hb hr).1]

theorem validateEach_config (cs : List Control) (acc : Bool × State × List Event) :
    (validateEach cs acc).2.1.oResourceBundle = acc.2.1.oResourceBundle ∧
    (validateEach cs acc).2.1.customRules = acc.2.1.customRules ∧
    (validateEach cs acc).2.1.globalCustomRules = acc.2.1.globalCustomRules := by
  induction cs generalizing acc with
  | nil => simp [validateEach]
  | cons c rest ih =>
    obtain ⟨b, s, t⟩ := acc
    rw [validateEach]
    have h := validateControl_config s c
    have := ih (match (_validateControl s c).result with
      | .ok fieldResult => if !fieldResult.isValid then false else b
      | .error _ => false, (_validateControl s c).state, t ++ (_validateControl s c).trace)
    simp only at this
    rw [this.1, this.2.1, this.2.2]
    exact h

theorem validateEach_isValid (cs : List Control) (b : Bool) (s : State) (t : List Event) :
    (validateEach cs (b, s, t)).1 = (b && cs.all (passes s)) := by
  induction cs generalizing b s t with
  | nil => simp [validateEach]
  | cons c rest ih =>
    rw [validateEach, ih]
    have hcfg := validateControl_config s c
    have hall : rest.all (passes (_validateControl s c).state) = rest.all (passes s) := by
      congr 1
      funext d
      exact passes_congr _ _ d hcfg.1 hcfg.2.1
    rw [hall]
    simp only [List.all_cons, passes]
    cases hres : (_validateControl s c).result with
    | error e => simp
    | ok v => cases hv : v.isValid <;> simp [hv]

theorem validateEach_messages (cs : List Control) (b : Bool) (s : State) (t : List Event) :
    (validateEach cs (b, s, t)).2.1.messages = s.messages ++ cs.flatMap (entriesOf s) := by
  induction cs generalizing b s t with
  | nil => simp [validateEach]
  | cons c rest ih =>
    rw [validateEach, ih, validateControl_messages]
    have hcfg := validateControl_config s c
    have hall : rest.flatMap (entriesOf (_validateControl s c).state) =
        rest.flatMap (entriesOf s) := by
      congr 1
      funext d
      exact entriesOf_congr _ _ d hcfg.1 hcfg.2.1
    rw [hall]
    simp

theorem validateEach_ids (cs : List Control) (b : Bool) (s : State) (t : List Event) :
    (validateEach cs (b, s, t)).2.1.InputsErrorsIds =
      s.InputsErrorsIds ++ cs.flatMap (indexRecordsOf s) := by
  induction cs generalizing b s t with
  | nil => simp [validateEach]
  | cons c rest ih =>
    rw [validateEach, ih, validateControl_ids]
    have hcfg := validateControl_config s c
    have hall : rest.flatMap (indexRecordsOf (_validateControl s c).state) =
        rest.flatMap (indexRecordsOf s) := by
      congr 1
      funext d
      exact indexRecordsOf_congr _ _ d hcfg.1 hcfg.2.1
    rw [hall]
    simp

theorem validateEach_trace (cs : List Control) (b : Bool) (s : State) (t : List Event) :
    (validateEach cs (b, s, t)).2.2 =
      t ++ cs.flatMap (fun c => (_validateControl s c).trace) := by
  induction cs generalizing b s t with
  | nil => simp [validateEach]
  | cons c rest ih =>
    rw [validateEach, ih]
    have hcfg := validateControl_config s c
    have hall : rest.flatMap (fun d => (_validateControl (_validateControl s c).state d).trace) =
        rest.flatMap (fun d => (_validateControl s d).trace) := by
      congr 1
      funext d
      exact (validateControl_result_congr _ _ d hcfg.1 hcfg.2.1).2
    rw [hall]
    simp

theorem runGlobalRules_eq (rules : List GlobalRule) (index : Nat) (verdict : Verdict)
    (s : State) (t : List Event) :
    (runGlobalRules rules index (verdict, s, t)).1.isValid =
        (verdict.isValid && rules.all globalPasses) ∧
    (runGlobalRules rules index (verdict, s, t)).1.errors =
        verdict.errors ++ (rules.filterMap globalEntry).map (fun m => m.message) ∧
    (runGlobalRules rules index (verdict, s, t)).2.1.messages =
        s.messages ++ rules.filterMap globalEntry ∧
    (runGlobalRules rules index (verdict, s, t)).2.1.InputsErrorsIds = s.InputsErrorsIds ∧
    (runGlobalRules rules index (verdict, s, t)).2.1.controlState = s.controlState ∧
    (runGlobalRules rules index (verdict, s, t)).2.1.oResourceBundle = s.oResourceBundle ∧
    (runGlobalRules rules index (verdict, s, t)).2.1.customRules = s.customRules ∧
    (runGlobalRules rules index (verdict, s, t)).2.1.globalCustomRules = s.globalCustomRules ∧
    (runGlobalRules rules index (verdict, s, t)).2.2 =
        t ++ (List.range' index rules.length).map Event.globalRuleCall := by
  induction rules generalizing index verdict s t with
  | nil => simp [runGlobalRules]
  | cons rule rest ih =>
    rw [runGlobalRules]
    cases h : rule () with
    | returned ok message =>
      cases ok <;>
      simp [ih, globalPasses, globalEntry, h, List.range'_succ, globalMessage]
    | threw => simp [ih, globalPasses, globalEntry, h, List.range'_succ]

/-! ## The verdict of one control -/

/-- C1. Every verdict returned by `_validateControl`, and so by `validateControl`,
satisfies `isValid == (errors.length == 0)`, whatever the control, its value, the
registered rules, the type constraints and the resource bundle; and a verdict is
returned whenever the value of the control can be read. -/
theorem validateControl_verdict_consistent (self : State) (oControl : Control) :
    (∀ verdict, (_validateControl self oControl).result = .ok verdict →
        verdict.isValid = decide (verdict.errors.length = 0)) ∧
    (∀ verdict, (validateControl self oControl).result = .ok verdict →
        verdict.isValid = decide (verdict.errors.length = 0)) ∧
    (∀ value, _getControlValue oControl = .ok value →
        (∃ verdict, (_validateControl self oControl).result = .ok verdict) ∧
        (∃ verdict, (validateControl self oControl).result = .ok verdict)) := by
  have key : ∀ (s : State) verdict, (_validateControl s oControl).result = .ok verdict →
      verdict.isValid = decide (verdict.errors.length = 0) := by
    intro s verdict h
    rw [validateControl_result_eq] at h
    split at h
    · simp at h
    · rename_i value hv
      simp only [Except.ok.injEq] at h
      have hc := checkControl_consistent s oControl value
      rw [← h]
      simp only [Verdict.Consistent] at hc
      cases hb : (checkControl s oControl value).1.isValid with
      | true => simp [hc.1 hb]
      | false =>
        have : (checkControl s oControl value).1.errors ≠ [] := by
          intro h0
          rw [hc.2 h0] at hb
          exact Bool.noConfusion hb
        simp [this]
  refine ⟨key self, key _, ?_⟩
  intro value hv
  simp [validateControl, _validateControl, hv]

theorem validateControl_verdict_consistent_witness :
    ({ isValid := false, errors := ["Name is required"] } : Verdict).isValid =
      decide (({ isValid := false, errors := ["Name is required"] } : Verdict).errors.length = 0) :=
  (validateControl_verdict_consistent freshState (nameInput "")).1
    { isValid := false, errors := ["Name is required"] } rfl

/-- A required control whose value is empty under `_isEmpty` and falsy gets the
required message only, and neither the constraint check nor a custom rule runs. -/
theorem checkControl_required_falsy (self : State) (c : Control) (value : Value)
    (hreq : (_isControlRequired c).truthy = true) (hempty : _isEmpty value c = true)
    (hfalsy : value.truthy = false) :
    checkControl self c value =
      ({ isValid := false, errors := [_getRequiredMessage self.oResourceBundle c] }, []) := by
  simp [checkControl, _validateRequired, hreq, hempty, hfalsy, RequiredResult.isValid]

/-- C2. A required `sap.m.Input` whose text is three blanks is empty under `_isEmpty`,
yet the rule registered under its local id is invoked and its message follows the
required message: the verdict has two errors. -/
theorem required_blank_input_runs_custom_rule :
    (_isControlRequired (nameInput "   ")).truthy = true ∧
    _isEmpty (.str "   ") (nameInput "   ") = true ∧
    (_validateControl stateWithNameRule (nameInput "   ")).result =
      .ok { isValid := false,
            errors := ["Name is required", "Name must start with a capital letter"] } ∧
    (_validateControl stateWithNameRule (nameInput "   ")).trace = [.ruleCall "name" 0] := by
  refine ⟨by decide, by decide, rfl, by decide⟩

/-- C3. A required text field with the empty text and a label containing two dollar
signs, validated without resource bundle: the verdict is invalid with one error, and
this error is not the label followed by " is required", because the replacement of
the placeholder turns the two dollar signs into one. -/
theorem required_empty_label_with_dollars :
    (_validateControl freshState amountInput).result =
      .ok { isValid := false, errors := ["Amount ($) is required"] } ∧
    _getControlLabel freshState.oResourceBundle amountInput = "Amount ($$)" ∧
    _getText freshState.oResourceBundle "validator.required" ["Amount ($$)"] ≠
      "Amount ($$)" ++ " is required" := by
  refine ⟨rfl, by decide, by decide⟩

theorem expandReplacement_of_no_dollar (before pat rest : List Char) (l : List Char)
    (h : '$' ∉ l) : expandReplacement before pat rest l = l := by
  induction l with
  | nil => simp [expandReplacement]
  | cons c t ih =>
    have hc : c ≠ '$' := fun hc => h (by simp [hc])
    have ht : '$' ∉ t := fun ht => h (by simp [ht])
    unfold expandReplacement
    split
    · rename_i heq; simp at heq
    · rename_i heq; simp at heq; exact absurd heq.1 hc
    · rename_i heq; simp at heq; exact absurd heq.1 hc
    · rename_i heq; simp at heq; exact absurd heq.1 hc
    · rename_i heq; simp at heq; exact absurd heq.1 hc
    · rename_i heq
      simp at heq
      rw [← heq.2, ih ht, heq.1]

theorem getFallbackText_required (label : String) (h : '$' ∉ label.data) :
    _getFallbackText "validator.required" [label] = label ++ " is required" := by
  have hsplit : splitAtFirst "\x7b0\x7d".data "\x7b0\x7d is required".data =
      some ([], " is required".data) := by decide
  have hlook : (fallbackTexts.lookup "validator.required").getD "validator.required" =
      "\x7b0\x7d is required" := by decide
  have hpat : ("\x7b" ++ toString 0 ++ "\x7d" : String) = "\x7b0\x7d" := by decide
  unfold _getFallbackText
  rw [hlook]
  simp only [replaceParams, jsReplace, hpat, hsplit]
  rw [expandReplacement_of_no_dollar _ _ _ _ h]
  apply String.ext
  simp

theorem isEmpty_empty_string (c : Control) : _isEmpty (.str "") c = true := by
  unfold _isEmpty
  split
  · rfl
  · simp [trimIsEmpty]

/-- A required control whose value is the empty string gets exactly the required
message, and no constraint check or rule runs; without resource bundle and with a
label free of dollar signs the message is the label followed by " is required". -/
theorem validateControl_required_empty_string (self : State) (c : Control)
    (hval : _getControlValue c = .ok (.str ""))
    (hreq : (_isControlRequired c).truthy = true) :
    (_validateControl self c).result =
      .ok { isValid := false,
            errors := [_getText self.oResourceBundle "validator.required"
              [_getControlLabel self.oResourceBundle c]] } ∧
    (_validateControl self c).trace = [] ∧
    (self.oResourceBundle = none → '$' ∉ (_getControlLabel none c).data →
      _getText self.oResourceBundle "validator.required"
        [_getControlLabel self.oResourceBundle c] =
      _getControlLabel none c ++ " is required") := by
  have hcheck := checkControl_required_falsy self c (.str "") hreq (isEmpty_empty_string c)
    (by decide)
  refine ⟨?_, ?_, ?_⟩
  · rw [validateControl_result_eq, hval]
    simp [hcheck, _getRequiredMessage]
  · simp [_validateControl, hval, hcheck]
  · intro hb hd
    rw [hb]
    simp only [_getText]
    exact getFallbackText_required _ hd

/-! ## The custom-rule check -/

theorem failedMessages_append (rb : Option ResourceBundle) (value : Value) (c : Control)
    (pre post : List Rule) :
    failedMessages rb value c (pre ++ post) =
      failedMessages rb value c pre ++ failedMessages rb value c post := by
  simp [failedMessages]

theorem failedMessages_length_of_all_fail (rb : Option ResourceBundle) (value : Value)
    (c : Control) (rules : List Rule)
    (h : ∀ rule ∈ rules, ruleError rb (rule value c) ≠ none) :
    (failedMessages rb value c rules).length = rules.length := by
  induction rules with
  | nil => simp [failedMessages]
  | cons rule rest ih =>
    have hrule := h rule (by simp)
    have hrest := ih (fun r hr => h r (by simp [hr]))
    cases hr : ruleError rb (rule value c) with
    | none => exact absurd hr hrule
    | some m =>
      simp only [failedMessages] at hrest ⊢
      simp [List.filterMap_cons, hr, hrest]

/-- C4. `_validateCustomRules` invokes every rule registered under the local id of the
control and then every rule registered under its target path, one call per rule in
registration order whatever the earlier rules returned, and its errors are the messages
of the failing rules under the local id, in registration order, followed by those of
the failing rules under the target path; when every rule fails there are as many errors
as rules, so three rules under the id and one under the path give four errors. -/
theorem validateCustomRules_accumulates (self : State) (oControl : Control) (value : Value) :
    (_validateCustomRules self oControl value).2 =
      ruleCalls (_getControlId oControl)
        (rulesFor self.customRules (_getControlId oControl)) ++
      ruleCalls (_getBindingPath oControl)
        (rulesFor self.customRules (_getBindingPath oControl)) ∧
    (_validateCustomRules self oControl value).1.errors =
      failedMessages self.oResourceBundle value oControl
        (rulesFor self.customRules (_getControlId oControl)) ++
      failedMessages self.oResourceBundle value oControl
        (rulesFor self.customRules (_getBindingPath oControl)) ∧
    ((∀ rule ∈ rulesFor self.customRules (_getControlId oControl) ++
          rulesFor self.customRules (_getBindingPath oControl),
        ruleError self.oResourceBundle (rule value oControl) ≠ none) →
      (_validateCustomRules self oControl value).1.errors.length =
        (rulesFor self.customRules (_getControlId oControl)).length +
        (rulesFor self.customRules (_getBindingPath oControl)).length) := by
  rw [validateCustomRules_eq]
  refine ⟨rfl, rfl, ?_⟩
  intro h
  simp only [List.length_append]
  rw [failedMessages_length_of_all_fail, failedMessages_length_of_all_fail]
  · intro rule hr
    exact h rule (by simp [hr])
  · intro rule hr
    exact h rule (by simp [hr])

theorem validateCustomRules_accumulates_witness :
    (_validateCustomRules stateWithFourRules (nameInput "x") (.str "x")).1.errors =
        ["first", "second", "third", "fourth"] ∧
    (_validateCustomRules stateWithFourRules (nameInput "x") (.str "x")).1.errors.length =
        3 + 1 := by
  have h := validateCustomRules_accumulates stateWithFourRules (nameInput "x") (.str "x")
  refine ⟨h.2.1.trans (by decide), ?_⟩
  have h3 := h.2.2 (by decide)
  exact h3.trans (by decide)

/-- C5. When a rule registered for a control throws, `_validateCustomRules` still
returns a verdict (the exception is caught inside the loop): the verdict is invalid, the
text `validator.validationError` stands in the errors at the position of that rule,
between the messages of the failing rules before it and of those after it, and every
registered rule, those after the throwing one included, is invoked. The rule may be
registered under the local id or under the target path. -/
theorem validateCustomRules_catches_throw (self : State) (oControl : Control) (value : Value)
    (before after : List Rule) (rule : Rule) (hthrow : rule value oControl = .threw) :
    (rulesFor self.customRules (_getControlId oControl) = before ++ rule :: after →
      (_validateCustomRules self oControl value).1.isValid = false ∧
      (_validateCustomRules self oControl value).1.errors =
        failedMessages self.oResourceBundle value oControl before ++
        [_getText self.oResourceBundle "validator.validationError" []] ++
        failedMessages self.oResourceBundle value oControl after ++
        failedMessages self.oResourceBundle value oControl
          (rulesFor self.customRules (_getBindingPath oControl)) ∧
      (_validateCustomRules self oControl value).2 =
        ruleCalls (_getControlId oControl) (before ++ rule :: after) ++
        ruleCalls (_getBindingPath oControl)
          (rulesFor self.customRules (_getBindingPath oControl))) ∧
    (rulesFor self.customRules (_getBindingPath oControl) = before ++ rule :: after →
      (_validateCustomRules self oControl value).1.isValid = false ∧
      (_validateCustomRules self oControl value).1.errors =
        failedMessages self.oResourceBundle value oControl
          (rulesFor self.customRules (_getControlId oControl)) ++
        failedMessages self.oResourceBundle value oControl before ++
        [_getText self.oResourceBundle "validator.validationError" []] ++
        failedMessages self.oResourceBundle value oControl after ∧
      (_validateCustomRules self oControl value).2 =
        ruleCalls (_getControlId oControl)
          (rulesFor self.customRules (_getControlId oControl)) ++
        ruleCalls (_getBindingPath oControl) (before ++ rule :: after)) := by
  have hmsgs : failedMessages self.oResourceBundle value oControl (before ++ rule :: after) =
      failedMessages self.oResourceBundle value oControl before ++
      [_getText self.oResourceBundle "validator.validationError" []] ++
      failedMessages self.oResourceBundle value oControl after := by
    simp [failedMessages, List.filterMap_append, List.filterMap_cons, hthrow, ruleError]
  constructor
  · intro h
    rw [validateCustomRules_eq, h, hmsgs]
    simp
  · intro h
    rw [validateCustomRules_eq, h, hmsgs]
    simp

theorem validateCustomRules_catches_throw_witness :
    (_validateCustomRules stateWithThrowingRule (nameInput "x") (.str "x")).1.isValid = false ∧
    (_validateCustomRules stateWithThrowingRule (nameInput "x") (.str "x")).1.errors =
      ["first", "Validation error occurred", "third"] ∧
    (_validateCustomRules stateWithThrowingRule (nameInput "x") (.str "x")).2 =
      [.ruleCall "name" 0, .ruleCall "name" 1, .ruleCall "name" 2] := by
  have h := (validateCustomRules_catches_throw stateWithThrowingRule (nameInput "x") (.str "x")
    [failingRule "first"] [failingRule "third"] throwingRule rfl).1 rfl
  exact ⟨h.1, h.2.1.trans (by decide), h.2.2.trans (by decide)⟩

theorem validateControls_eq (self : State) (aControls : List (Option Control)) :
    (validateControls self aControls).result =
        .ok ((_filterValidatableControls aControls).all (passes self) &&
          self.globalCustomRules.all globalPasses) ∧
    (validateControls self aControls).state.messages =
        (_filterValidatableControls aControls).flatMap (entriesOf self) ++
          self.globalCustomRules.filterMap globalEntry ∧
    (validateControls self aControls).state.InputsErrorsIds =
        (_filterValidatableControls aControls).flatMap (indexRecordsOf self) ∧
    (validateControls self aControls).trace =
        (_filterValidatableControls aControls).flatMap
            (fun c => (_validateControl self c).trace) ++
          (List.range' 0 self.globalCustomRules.length).map Event.globalRuleCall ∧
    (validateControls self aControls).state.oResourceBundle = self.oResourceBundle ∧
    (validateControls self aControls).state.customRules = self.customRules ∧
    (validateControls self aControls).state.globalCustomRules = self.globalCustomRules := by
  have hcfg := validateEach_config (_filterValidatableControls aControls)
    (true, { self with messages := [], InputsErrorsIds := [] }, [])
  simp only at hcfg
  have hg := runGlobalRules_eq self.globalCustomRules 0 { isValid := true, errors := [] }
    (validateEach (_filterValidatableControls aControls)
      (true, { self with messages := [], InputsErrorsIds := [] }, [])).2.1
    []
  have hpass : (_filterValidatableControls aControls).all
      (passes { self with messages := [], InputsErrorsIds := [] }) =
      (_filterValidatableControls aControls).all (passes self) := by
    congr 1
    funext d
    exact passes_congr _ _ d rfl rfl
  have hentries : (_filterValidatableControls aControls).flatMap
      (entriesOf { self with messages := [], InputsErrorsIds := [] }) =
      (_filterValidatableControls aControls).flatMap (entriesOf self) := by
    congr 1
    funext d
    exact entriesOf_congr _ _ d rfl rfl
  have hids : (_filterValidatableControls aControls).flatMap
      (indexRecordsOf { self with messages := [], InputsErrorsIds := [] }) =
      (_filterValidatableControls aControls).flatMap (indexRecordsOf self) := by
    congr 1
    funext d
    exact indexRecordsOf_congr _ _ d rfl rfl
  have htrace : (_filterValidatableControls aControls).flatMap
      (fun c => (_validateControl { self with messages := [], InputsErrorsIds := [] } c).trace) =
      (_filterValidatableControls aControls).flatMap
        (fun c => (_validateControl self c).trace) := by
    congr 1
    funext d
    exact (validateControl_result_congr
      { self with messages := [], InputsErrorsIds := [] } self d rfl rfl).2
  simp only [validateControls, _validateGlobalCustomRules, hcfg.2.2]
  obtain ⟨h1, _, h3, h4, _, h6, h7, h8, h9⟩ := hg
  refine ⟨?_, ?_, ?_, ?_, ?_, ?_, ?_⟩
  · rw [h1, validateEach_isValid, hpass]
    cases (_filterValidatableControls aControls).all (passes self) <;>
    cases self.globalCustomRules.all globalPasses <;> simp
  · rw [h3, validateEach_messages, hentries]
    simp
  · rw [h4, validateEach_ids, hids]
    simp
  · rw [h9, validateEach_trace, htrace]
    simp
  · rw [h6, hcfg.1]
  · rw [h7, hcfg.2.1]
  · rw [h8, hcfg.2.2]

theorem validateControl_controlState_of_ne (self : State) (c : Control) (id : String)
    (h : c.sId ≠ id) :
    (_validateControl self c).state.controlState id = self.controlState id := by
  rw [validateControl_controlState]
  have h' : ¬ (c.hasValueState = true ∧ id = c.sId) := fun hh => h hh.2.symm
  split <;> simp [h']

theorem validateEach_controlState_of_not_mem (cs : List Control) (b : Bool) (s : State)
    (t : List Event) (id : String) (h : ∀ c ∈ cs, c.sId ≠ id) :
    (validateEach cs (b, s, t)).2.1.controlState id = s.controlState id := by
  induction cs generalizing b s t with
  | nil => simp [validateEach]
  | cons c rest ih =>
    rw [validateEach, ih _ _ _ (fun d hd => h d (by simp [hd]))]
    exact validateControl_controlState_of_ne s c id (h c (by simp))

theorem validateEach_controlState (cs : List Control) (b : Bool) (s : State)
    (t : List Event) (hids : ∀ c ∈ cs, ∀ d ∈ cs, c.sId = d.sId → c = d)
    (g : Control) (hg : g ∈ cs) (hvs : g.hasValueState = true) (v : Verdict)
    (hres : (_validateControl s g).result = .ok v) :
    (validateEach cs (b, s, t)).2.1.controlState g.sId = visualStateOf v := by
  induction cs generalizing b s t with
  | nil => simp at hg
  | cons c rest ih =>
    rw [validateEach]
    have hcfg := validateControl_config s c
    by_cases hmem : g ∈ rest
    · apply ih _ _ _ (fun x hx y hy => hids x (by simp [hx]) y (by simp [hy])) hmem
      rw [(validateControl_result_congr _ s g hcfg.1 hcfg.2.1).1]
      exact hres
    · have hgc : g = c := by
        rcases List.mem_cons.1 hg with h | h
        · exact h
        · exact absurd h hmem
      subst hgc
      rw [validateEach_controlState_of_not_mem]
      · rw [validateControl_controlState, hres]
        simp [hvs]
      · intro d hd hsid
        have := hids d (by simp [hd]) g (by simp) hsid
        exact hmem (this ▸ hd)

theorem validateControls_controlState (self : State) (aControls : List (Option Control)) :
    (validateControls self aControls).state.controlState =
      (validateEach (_filterValidatableControls aControls)
        (true, { self with messages := [], InputsErrorsIds := [] }, [])).2.1.controlState := by
  have hg := runGlobalRules_eq self.globalCustomRules 0 { isValid := true, errors := [] }
    (validateEach (_filterValidatableControls aControls)
      (true, { self with messages := [], InputsErrorsIds := [] }, [])).2.1
    []
  have hcfg := validateEach_config (_filterValidatableControls aControls)
    (true, { self with messages := [], InputsErrorsIds := [] }, [])
  simp only at hcfg
  simp only [validateControls, _validateGlobalCustomRules, hcfg.2.2]
  exact hg.2.2.2.2.1

theorem passes_eq_false_of_throw (self : State) (c : Control) (value : Value)
    (hval : _getControlValue c = .ok value) (rule : Rule)
    (hmem : rule ∈ rulesFor self.customRules (_getControlId c) ++
      rulesFor self.customRules (_getBindingPath c))
    (hthrow : rule value c = .threw) : passes self c = false := by
  have hfail : failedMessages self.oResourceBundle value c
        (rulesFor self.customRules (_getControlId c)) ++
      failedMessages self.oResourceBundle value c
        (rulesFor self.customRules (_getBindingPath c)) ≠ [] := by
    rw [← failedMessages_append]
    intro h0
    have : _getText self.oResourceBundle "validator.validationError" [] ∈
        failedMessages self.oResourceBundle value c
          (rulesFor self.customRules (_getControlId c) ++
            rulesFor self.customRules (_getBindingPath c)) := by
      simp only [failedMessages, List.mem_filterMap]
      exact ⟨rule, hmem, by simp [hthrow, ruleError]⟩
    rw [h0] at this
    simp at this
  have hcustom : (_validateCustomRules self c value).1.isValid = false := by
    have hc := validateCustomRules_consistent self c value
    cases hb : (_validateCustomRules self c value).1.isValid with
    | false => rfl
    | true =>
      have := hc.1 hb
      rw [validateCustomRules_eq] at this
      exact absurd this hfail
  unfold passes
  rw [validateControl_result_eq, hval]
  simp only
  unfold checkControl
  cases hreq : _validateRequired self.oResourceBundle c value with
  | valid =>
    simp [RequiredResult.isValid, Verdict.absorb, hcustom]
  | invalid message =>
    cases ht : value.truthy <;>
    simp [RequiredResult.isValid, Verdict.absorb, hcustom]

/-! ## Batch validation -/

theorem entriesOf_target (self : State) (c : Control) :
    ∀ m ∈ entriesOf self c, m.target = _getBindingPath c := by
  intro m hm
  unfold entriesOf at hm
  split at hm
  · simp only [List.mem_map] at hm
    obtain ⟨text, _, rfl⟩ := hm
    rfl
  · simp at hm

theorem globalEntry_target (rules : List GlobalRule) :
    ∀ m ∈ rules.filterMap globalEntry, m.target = "/globalValidation" := by
  intro m hm
  simp only [List.mem_filterMap] at hm
  obtain ⟨rule, _, h⟩ := hm
  unfold globalEntry at h
  split at h
  · simp only [Option.some.injEq] at h
    rw [← h]
    rfl
  · simp at h

/-- C6. `validateControls` returns a boolean, and it returns `true` exactly when every
control that survives the filter of `_filterValidatableControls` gets a valid verdict
from `_validateControl` (so its validation raises nothing) and every registered global
rule returns a truthy `isValid` without throwing. -/
theorem validateControls_true_iff (self : State) (aControls : List (Option Control)) :
    ∃ isValid, (validateControls self aControls).result = .ok isValid ∧
      (isValid = true ↔
        (∀ c ∈ _filterValidatableControls aControls,
          ∃ verdict, (_validateControl self c).result = .ok verdict ∧ verdict.isValid = true) ∧
        (∀ rule ∈ self.globalCustomRules, ∃ message, rule () = .returned true message)) := by
  refine ⟨_, (validateControls_eq self aControls).1, ?_⟩
  simp only [Bool.and_eq_true, List.all_eq_true]
  constructor
  · rintro ⟨h1, h2⟩
    constructor
    · intro c hc
      have := h1 c hc
      unfold passes at this
      split at this
      · rename_i verdict hres
        exact ⟨verdict, hres, this⟩
      · exact Bool.noConfusion this
    · intro rule hr
      have := h2 rule hr
      unfold globalPasses at this
      split at this
      · rename_i message hres
        exact ⟨message, hres⟩
      · exact Bool.noConfusion this
  · rintro ⟨h1, h2⟩
    constructor
    · intro c hc
      obtain ⟨verdict, hres, hv⟩ := h1 c hc
      simp [passes, hres, hv]
    · intro rule hr
      obtain ⟨message, hres⟩ := h2 rule hr
      simp [globalPasses, hres]

/-- C7. `validateControls` never raises. When the validation of a surviving control
raises, or a rule registered for a surviving control throws on its value, the result is
`false`. Every surviving control that gets a verdict is fully validated all the same:
the messages of its own verdict stand as a block in the message manager and are all
that is under its target when no other element of the batch (nor the global target)
shares that target, its checks are part of the run, and, control ids being unique in
the batch, its visual state is the one of its own verdict. -/
theorem validateControls_absorbs_exceptions (self : State)
    (aControls : List (Option Control)) :
    (∃ isValid, (validateControls self aControls).result = .ok isValid) ∧
    ((∃ c ∈ _filterValidatableControls aControls,
        (∃ e, (_validateControl self c).result = .error e) ∨
        (∃ value rule, _getControlValue c = .ok value ∧
          rule ∈ rulesFor self.customRules (_getControlId c) ++
            rulesFor self.customRules (_getBindingPath c) ∧
          rule value c = .threw)) →
      (validateControls self aControls).result = .ok false) ∧
    (∀ g ∈ _filterValidatableControls aControls, ∀ verdict,
      (_validateControl self g).result = .ok verdict →
      (∃ before after, (validateControls self aControls).state.messages =
        before ++
        verdict.errors.map
          (errorMessage (_getBindingPath g) (_getControlLabel self.oResourceBundle g)) ++
        after) ∧
      (∀ l1 l2, _filterValidatableControls aControls = l1 ++ g :: l2 →
        (∀ c ∈ l1 ++ l2, _getBindingPath c ≠ _getBindingPath g) →
        _getBindingPath g ≠ "/globalValidation" →
        (validateControls self aControls).state.messages.filter
            (fun m => m.target = _getBindingPath g) =
          verdict.errors.map
            (errorMessage (_getBindingPath g) (_getControlLabel self.oResourceBundle g))) ∧
      (∃ before after, (validateControls self aControls).trace =
        before ++ (_validateControl self g).trace ++ after) ∧
      (g.hasValueState = true →
        (∀ c ∈ _filterValidatableControls aControls,
          ∀ d ∈ _filterValidatableControls aControls, c.sId = d.sId → c = d) →
        (validateControls self aControls).state.controlState g.sId =
          visualStateOf verdict)) := by
  obtain ⟨hres, hmsg, _, htrace, _, _, _⟩ := validateControls_eq self aControls
  refine ⟨⟨_, hres⟩, ?_, ?_⟩
  · rintro ⟨c, hc, hcase⟩
    have hfalse : passes self c = false := by
      rcases hcase with ⟨e, he⟩ | ⟨value, rule, hval, hmem, hthrow⟩
      · simp [passes, he]
      · exact passes_eq_false_of_throw self c value hval rule hmem hthrow
    rw [hres]
    have : (_filterValidatableControls aControls).all (passes self) = false := by
      rw [List.all_eq_false]
      exact ⟨c, hc, by simp [hfalse]⟩
    simp [this]
  · intro g hg verdict hv
    have hentries : entriesOf self g = verdict.errors.map
        (errorMessage (_getBindingPath g) (_getControlLabel self.oResourceBundle g)) := by
      simp [entriesOf, hv]
    refine ⟨?_, ?_, ?_, ?_⟩
    · obtain ⟨l1, l2, hsplit⟩ := List.append_of_mem hg
      refine ⟨l1.flatMap (entriesOf self),
        l2.flatMap (entriesOf self) ++ self.globalCustomRules.filterMap globalEntry, ?_⟩
      rw [hmsg, hsplit, ← hentries]
      simp
    · intro l1 l2 hsplit hother hglobal
      rw [hmsg, hsplit, ← hentries]
      simp only [List.flatMap_append, List.flatMap_cons, List.filter_append]
      have h1 : (l1.flatMap (entriesOf self)).filter
          (fun m => m.target = _getBindingPath g) = [] := by
        rw [List.filter_eq_nil_iff]
        intro m hm
        simp only [List.mem_flatMap] at hm
        obtain ⟨c, hc, hmc⟩ := hm
        rw [entriesOf_target self c m hmc]
        simpa using hother c (by simp [hc])
      have h2 : (l2.flatMap (entriesOf self)).filter
          (fun m => m.target = _getBindingPath g) = [] := by
        rw [List.filter_eq_nil_iff]
        intro m hm
        simp only [List.mem_flatMap] at hm
        obtain ⟨c, hc, hmc⟩ := hm
        rw [entriesOf_target self c m hmc]
        simpa using hother c (by simp [hc])
      have h3 : (self.globalCustomRules.filterMap globalEntry).filter
          (fun m => m.target = _getBindingPath g) = [] := by
        rw [List.filter_eq_nil_iff]
        intro m hm
        rw [globalEntry_target _ m hm]
        simpa using fun h => hglobal h.symm
      have h4 : (entriesOf self g).filter (fun m => m.target = _getBindingPath g) =
          entriesOf self g := by
        rw [List.filter_eq_self]
        intro m hm
        simpa using entriesOf_target self g m hm
      rw [h1, h2, h3, h4]
      simp
    · obtain ⟨l1, l2, hsplit⟩ := List.append_of_mem hg
      refine ⟨l1.flatMap (fun c => (_validateControl self c).trace),
        l2.flatMap (fun c => (_validateControl self c).trace) ++
          (List.range' 0 self.globalCustomRules.length).map Event.globalRuleCall, ?_⟩
      rw [htrace, hsplit]
      simp
    · intro hvs hids
      rw [validateControls_controlState]
      apply validateEach_controlState _ _ _ _ hids g hg hvs
      rw [(validateControl_result_congr
        { self with messages := [], InputsErrorsIds := [] } self g rfl rfl).1]
      exact hv

/-- C8. After `validateControls` the message manager holds, whatever it held before,
exactly: for each surviving control in the order of the batch, one error message per
error of its verdict, in the order of the verdict and under the target of the control
(none for a control whose validation raises), and then one message under
`/globalValidation` per failing global rule in registration order; `InputsErrorsIds`
holds exactly one record per surviving control with an invalid verdict, in the order of
the batch. Neither depends on the messages and records present before the call. -/
theorem validateControls_store (self : State) (aControls : List (Option Control)) :
    (validateControls self aControls).state.messages =
      (_filterValidatableControls aControls).flatMap (entriesOf self) ++
        self.globalCustomRules.filterMap globalEntry ∧
    (validateControls self aControls).state.InputsErrorsIds =
      (_filterValidatableControls aControls).flatMap (indexRecordsOf self) ∧
    (∀ m ∈ (validateControls self aControls).state.messages, m.type = .Error) ∧
    (∀ (messages : List Message) (ids : List ErrorIdEntry),
      (validateControls { self with messages := messages, InputsErrorsIds := ids }
          aControls).state.messages =
        (validateControls self aControls).state.messages ∧
      (validateControls { self with messages := messages, InputsErrorsIds := ids }
          aControls).state.InputsErrorsIds =
        (validateControls self aControls).state.InputsErrorsIds) := by
  obtain ⟨_, hmsg, hids, _⟩ := validateControls_eq self aControls
  refine ⟨hmsg, hids, ?_, ?_⟩
  · intro m hm
    rw [hmsg, List.mem_append] at hm
    rcases hm with hm | hm
    · simp only [List.mem_flatMap] at hm
      obtain ⟨c, _, hmc⟩ := hm
      unfold entriesOf at hmc
      split at hmc
      · simp only [List.mem_map] at hmc
        obtain ⟨text, _, rfl⟩ := hmc
        rfl
      · simp at hmc
    · simp only [List.mem_filterMap] at hm
      obtain ⟨rule, _, h⟩ := hm
      unfold globalEntry at h
      split at h
      · simp only [Option.some.injEq] at h
        rw [← h]
        rfl
      · simp at h
  · intro messages ids
    obtain ⟨_, hmsg', hids', _⟩ := validateControls_eq
      { self with messages := messages, InputsErrorsIds := ids } aControls
    rw [hmsg', hids', hmsg, hids]
    constructor
    · congr 1
      congr 1
      funext d
      exact entriesOf_congr _ _ d rfl rfl
    · congr 1
      funext d
      exact indexRecordsOf_congr _ _ d rfl rfl


theorem sampleBatch_filtered :
    _filterValidatableControls sampleBatch =
      [nameInput "Ann", taxInput, emailInput, citySelect] := rfl

theorem sampleBatch_ids_unique :
    ∀ c ∈ _filterValidatableControls sampleBatch,
      ∀ d ∈ _filterValidatableControls sampleBatch, c.sId = d.sId → c = d := by
  intro c hc d hd h
  rw [sampleBatch_filtered] at hc hd
  simp only [List.mem_cons, List.mem_singleton, List.not_mem_nil, or_false] at hc hd
  rcases hc with rfl | rfl | rfl | rfl <;> rcases hd with rfl | rfl | rfl | rfl <;>
    first | rfl | exact absurd h (by decide)

theorem validateControls_absorbs_exceptions_witness :
    (validateControls stateWithThrowingTaxRule sampleBatch).result = .ok false ∧
    (validateControls stateWithThrowingTaxRule sampleBatch).state.messages.filter
        (fun m => m.target = "/__xmlview0--email") =
      [errorMessage "/__xmlview0--email" "Email" "Email is required"] ∧
    (validateControls stateWithThrowingTaxRule sampleBatch).state.controlState
        "__xmlview0--email" =
      { valueState := "Error", valueStateText := "Email is required" } ∧
    (validateControls stateWithThrowingTaxRule sampleBatch).state.controlState
        "__xmlview0--city" =
      { valueState := "None", valueStateText := "" } := by
  have h := validateControls_absorbs_exceptions stateWithThrowingTaxRule sampleBatch
  have hemail := h.2.2 emailInput (by rw [sampleBatch_filtered]; simp)
    { isValid := false, errors := ["Email is required"] } rfl
  have hcity := h.2.2 citySelect (by rw [sampleBatch_filtered]; simp)
    { isValid := true, errors := [] } rfl
  refine ⟨?_, ?_, ?_, ?_⟩
  · apply h.2.1
    refine ⟨taxInput, by rw [sampleBatch_filtered]; simp, Or.inr ?_⟩
    have hmem : throwingRule ∈ rulesFor stateWithThrowingTaxRule.customRules
        (_getControlId taxInput) :=
      show throwingRule ∈ [throwingRule] from List.mem_singleton.2 rfl
    exact ⟨.str "12", throwingRule, rfl, List.mem_append_left _ hmem, rfl⟩
  · exact hemail.2.1 [nameInput "Ann", taxInput] [citySelect] rfl (by decide) (by decide)
  · exact hemail.2.2.2 rfl sampleBatch_ids_unique
  · exact hcity.2.2.2 rfl sampleBatch_ids_unique

theorem validateControls_store_witness :
    (validateControls stateWithThrowingTaxRule sampleBatch).state.messages =
      [errorMessage "/__xmlview0--taxId" "Tax number" "Validation error occurred",
       errorMessage "/__xmlview0--email" "Email" "Email is required"] ∧
    (validateControls stateWithThrowingTaxRule sampleBatch).state.InputsErrorsIds =
      [{ sTarget := "/__xmlview0--taxId", inputError := "__xmlview0--taxId" },
       { sTarget := "/__xmlview0--email", inputError := "__xmlview0--email" }] :=
  ⟨(validateControls_store stateWithThrowingTaxRule sampleBatch).1.trans (by decide),
   (validateControls_store stateWithThrowingTaxRule sampleBatch).2.1.trans (by decide)⟩

theorem getBindingPath_ne_empty (c : Control) : _getBindingPath c ≠ "" := by
  unfold _getBindingPath
  simp only
  split
  · intro h
    have := congrArg String.data h
    simp at this
  · assumption

theorem clearControlMessages_messages (self : State) (c : Control) :
    (_clearControlMessages self c).messages =
      self.messages.filter (fun m => m.target != _getBindingPath c) := by
  have hne : (_getBindingPath c != "") = true := by
    simpa using getBindingPath_ne_empty c
  unfold _clearControlMessages
  simp only [hne, if_true]
  cases c.hasValueState <;> simp [setValueState]

theorem clearControlMessages_ids (self : State) (c : Control) :
    (_clearControlMessages self c).InputsErrorsIds =
      self.InputsErrorsIds.filter (fun item => item.inputError != c.sId) := by
  have hne : (_getBindingPath c != "") = true := by
    simpa using getBindingPath_ne_empty c
  unfold _clearControlMessages
  simp only [hne, if_true]
  cases c.hasValueState <;> simp [setValueState]

theorem clearControlMessages_controlState (self : State) (c : Control) (id : String) :
    (_clearControlMessages self c).controlState id =
      if c.hasValueState = true ∧ id = c.sId then
        { valueState := "None", valueStateText := "" }
      else self.controlState id := by
  have hne : (_getBindingPath c != "") = true := by
    simpa using getBindingPath_ne_empty c
  unfold _clearControlMessages
  simp only [hne, if_true]
  cases hs : c.hasValueState <;> simp [setValueState]

theorem clearControlMessages_config (self : State) (c : Control) :
    (_clearControlMessages self c).oResourceBundle = self.oResourceBundle ∧
    (_clearControlMessages self c).customRules = self.customRules ∧
    (_clearControlMessages self c).globalCustomRules = self.globalCustomRules := by
  have hne : (_getBindingPath c != "") = true := by
    simpa using getBindingPath_ne_empty c
  unfold _clearControlMessages
  simp only [hne, if_true]
  cases hs : c.hasValueState <;> simp [setValueState]

theorem validateControl_eq (self : State) (c : Control) :
    (validateControl self c).result = (_validateControl self c).result ∧
    (validateControl self c).trace = (_validateControl self c).trace ∧
    (validateControl self c).state.messages =
      self.messages.filter (fun m => m.target != _getBindingPath c) ++ entriesOf self c ∧
    (validateControl self c).state.InputsErrorsIds =
      self.InputsErrorsIds.filter (fun item => item.inputError != c.sId) ++
        indexRecordsOf self c ∧
    (validateControl self c).state.oResourceBundle = self.oResourceBundle ∧
    (validateControl self c).state.customRules = self.customRules ∧
    (validateControl self c).state.globalCustomRules = self.globalCustomRules := by
  have hcfg := clearControlMessages_config self c
  have hcfg2 := validateControl_config (_clearControlMessages self c) c
  have hcongr := validateControl_result_congr (_clearControlMessages self c) self c
    hcfg.1 hcfg.2.1
  unfold validateControl
  refine ⟨hcongr.1, hcongr.2, ?_, ?_, ?_, ?_, ?_⟩
  · rw [validateControl_messages, clearControlMessages_messages,
      entriesOf_congr _ self c hcfg.1 hcfg.2.1]
  · rw [validateControl_ids, clearControlMessages_ids,
      indexRecordsOf_congr _ self c hcfg.1 hcfg.2.1]
  · rw [hcfg2.1, hcfg.1]
  · rw [hcfg2.2.1, hcfg.2.1]
  · rw [hcfg2.2.2, hcfg.2.2]

theorem validateControl_visual (self : State) (c : Control) (id : String) :
    (validateControl self c).state.controlState id =
      if c.hasValueState = true ∧ id = c.sId then
        match (_validateControl self c).result with
        | .ok verdict => visualStateOf verdict
        | .error _ => { valueState := "None", valueStateText := "" }
      else self.controlState id := by
  have hcfg := clearControlMessages_config self c
  have hcongr := validateControl_result_congr (_clearControlMessages self c) self c
    hcfg.1 hcfg.2.1
  unfold validateControl
  rw [validateControl_controlState, hcongr.1, clearControlMessages_controlState]
  cases (_validateControl self c).result
  · simp
  · simp
    split <;> simp_all

/-! ## Validation of a single control -/

theorem filter_entriesOf_ne (self : State) (c : Control) :
    (entriesOf self c).filter (fun m => m.target != _getBindingPath c) = [] := by
  rw [List.filter_eq_nil_iff]
  intro m hm
  simp [entriesOf_target self c m hm]

theorem filter_entriesOf_eq (self : State) (c : Control) :
    (entriesOf self c).filter (fun m => m.target = _getBindingPath c) = entriesOf self c := by
  rw [List.filter_eq_self]
  intro m hm
  simp [entriesOf_target self c m hm]

theorem filter_indexRecordsOf_ne (self : State) (c : Control) :
    (indexRecordsOf self c).filter (fun item => item.inputError != c.sId) = [] := by
  unfold indexRecordsOf
  split
  · split <;> simp
  · simp

theorem validateControl_own_messages (self : State) (c : Control) :
    (validateControl self c).state.messages.filter (fun m => m.target = _getBindingPath c) =
      entriesOf self c := by
  rw [(validateControl_eq self c).2.2.1, List.filter_append, List.filter_filter,
    filter_entriesOf_eq]
  have : self.messages.filter (fun a => decide (a.target = _getBindingPath c) &&
      (a.target != _getBindingPath c)) = [] := by
    rw [List.filter_eq_nil_iff]
    intro m _
    simp
  rw [this]
  simp

/-- C9. `validateControl` on a control leaves in place, in the same order, every
message whose target is not the target of the control, so the messages under the
target of any other field are unchanged; the messages under the target of the control
are afterwards exactly those of the verdict just returned, one per error in the order
of the verdict, none of the earlier ones remaining (and there is none at all when the
validation raises). -/
theorem validateControl_frame (self : State) (oControl : Control) :
    (validateControl self oControl).state.messages.filter
        (fun m => m.target != _getBindingPath oControl) =
      self.messages.filter (fun m => m.target != _getBindingPath oControl) ∧
    (∀ target, target ≠ _getBindingPath oControl →
      (validateControl self oControl).state.messages.filter (fun m => m.target = target) =
        self.messages.filter (fun m => m.target = target)) ∧
    (∀ verdict, (validateControl self oControl).result = .ok verdict →
      (validateControl self oControl).state.messages.filter
          (fun m => m.target = _getBindingPath oControl) =
        verdict.errors.map (errorMessage (_getBindingPath oControl)
          (_getControlLabel self.oResourceBundle oControl))) ∧
    (∀ e, (validateControl self oControl).result = .error e →
      (validateControl self oControl).state.messages.filter
          (fun m => m.target = _getBindingPath oControl) = []) := by
  obtain ⟨hres, _, hmsg, _⟩ := validateControl_eq self oControl
  have hown := validateControl_own_messages self oControl
  refine ⟨?_, ?_, ?_, ?_⟩
  · rw [hmsg, List.filter_append, List.filter_filter, filter_entriesOf_ne]
    simp
  · intro target htarget
    rw [hmsg, List.filter_append, List.filter_filter]
    have h1 : (entriesOf self oControl).filter (fun m => m.target = target) = [] := by
      rw [List.filter_eq_nil_iff]
      intro m hm
      rw [entriesOf_target self oControl m hm]
      simpa using fun h => htarget h.symm
    rw [h1]
    simp only [List.append_nil]
    apply List.filter_congr
    intro m _
    by_cases h : m.target = target
    · simp [h, htarget]
    · simp [h]
  · intro verdict hv
    rw [hown]
    rw [hres] at hv
    simp [entriesOf, hv]
  · intro e he
    rw [hown]
    rw [hres] at he
    simp [entriesOf, he]

theorem validateControl_frame_witness :
    (validateControl stateWithEarlierErrors (nameInput "Ann")).state.messages =
      [ errorMessage "/__xmlview0--email" "Email" "Email is required",
        { message := "Service unavailable", type := .Error, target := "/serverError",
          additionalText := "" } ] ∧
    (validateControl stateWithEarlierErrors (nameInput "Ann")).state.messages.filter
        (fun m => m.target = "/__xmlview0--email") =
      [errorMessage "/__xmlview0--email" "Email" "Email is required"] ∧
    (validateControl stateWithEarlierErrors (nameInput "Ann")).state.messages.filter
        (fun m => m.target = "/__xmlview0--name") = [] := by
  have h := validateControl_frame stateWithEarlierErrors (nameInput "Ann")
  refine ⟨by decide, ?_, ?_⟩
  · exact (h.2.1 "/__xmlview0--email" (by decide)).trans (by decide)
  · exact h.2.2.1 { isValid := true, errors := [] } rfl

/-- C10. Calling `validateControl` twice in a row on the same control, with the same
value, required flag, constraints and rules, returns the same result both times
and leaves the same state (message manager, `InputsErrorsIds`, visual state of every
control) as the first call; after the first call, and so after the second, the
messages under the target of the control are those of the verdict, once, and
`InputsErrorsIds` holds at most one record of the control. -/
theorem validateControl_idempotent (self : State) (oControl : Control) :
    (validateControl (validateControl self oControl).state oControl).result =
      (validateControl self oControl).result ∧
    (validateControl (validateControl self oControl).state oControl).state =
      (validateControl self oControl).state ∧
    (∀ verdict, (validateControl self oControl).result = .ok verdict →
      (validateControl (validateControl self oControl).state oControl).state.messages.filter
          (fun m => m.target = _getBindingPath oControl) =
        verdict.errors.map (errorMessage (_getBindingPath oControl)
          (_getControlLabel self.oResourceBundle oControl))) ∧
    ((validateControl (validateControl self oControl).state oControl).state.InputsErrorsIds.filter
        (fun item => item.inputError = oControl.sId)).length ≤ 1 := by
  obtain ⟨hres, _, hmsg, hids, hb, hr, hg⟩ := validateControl_eq self oControl
  obtain ⟨hres2, _, hmsg2, hids2, hb2, hr2, hg2⟩ :=
    validateControl_eq (validateControl self oControl).state oControl
  have hcongr := validateControl_result_congr (validateControl self oControl).state self
    oControl hb hr
  have hstate : (validateControl (validateControl self oControl).state oControl).state =
      (validateControl self oControl).state := by
    apply State.ext
    · rw [hb2]
    · rw [hr2]
    · rw [hg2]
    · rw [hids2, hids, indexRecordsOf_congr _ self oControl hb hr, List.filter_append,
        List.filter_filter, filter_indexRecordsOf_ne]
      simp
    · rw [hmsg2, hmsg, entriesOf_congr _ self oControl hb hr, List.filter_append,
        List.filter_filter, filter_entriesOf_ne]
      simp
    · funext id
      rw [validateControl_visual, validateControl_visual, hcongr.1]
      split <;> simp_all
  refine ⟨?_, hstate, ?_, ?_⟩
  · rw [hres2, hres, hcongr.1]
  · intro verdict hv
    rw [hstate, validateControl_own_messages]
    rw [hres] at hv
    simp [entriesOf, hv]
  · rw [hstate, hids, List.filter_append, List.filter_filter]
    have h1 : self.InputsErrorsIds.filter (fun a => decide (a.inputError = oControl.sId) &&
        (a.inputError != oControl.sId)) = [] := by
      rw [List.filter_eq_nil_iff]
      intro m _
      simp
    rw [h1]
    simp only [List.nil_append]
    refine le_trans (List.length_filter_le _ _) ?_
    unfold indexRecordsOf
    split
    · split <;> simp
    · simp

theorem validateControl_idempotent_witness :
    (validateControl stateWithEarlierErrors (nameInput "")).result =
      .ok { isValid := false, errors := ["Name is required"] } ∧
    (validateControl (validateControl stateWithEarlierErrors (nameInput "")).state
        (nameInput "")).result =
      .ok { isValid := false, errors := ["Name is required"] } ∧
    (validateControl (validateControl stateWithEarlierErrors (nameInput "")).state
        (nameInput "")).state.messages.filter (fun m => m.target = "/__xmlview0--name") =
      [errorMessage "/__xmlview0--name" "Name" "Name is required"] := by
  have h := validateControl_idempotent stateWithEarlierErrors (nameInput "")
  exact ⟨rfl, h.1.trans rfl, h.2.2.1 { isValid := false, errors := ["Name is required"] } rfl⟩

/-! ## Clearing all messages -/

theorem resetControls_frame (registry : String → Option Control) (items : List ErrorIdEntry)
    (self : State) :
    (resetControls registry items self).messages = self.messages ∧
    (resetControls registry items self).InputsErrorsIds = self.InputsErrorsIds ∧
    (resetControls registry items self).oResourceBundle = self.oResourceBundle ∧
    (resetControls registry items self).customRules = self.customRules ∧
    (resetControls registry items self).globalCustomRules = self.globalCustomRules ∧
    (∀ id, (resetControls registry items self).controlState id = noError ∨
      (resetControls registry items self).controlState id = self.controlState id) := by
  induction items generalizing self with
  | nil => simp [resetControls]
  | cons item rest ih =>
    rw [resetControls]
    cases hreg : registry item.inputError with
    | none => simpa using ih self
    | some c =>
      cases hvs : c.hasValueState with
      | false => simpa [hvs] using ih self
      | true =>
        simp only [hvs, if_true]
        obtain ⟨h1, h2, h3, h4, h5, h6⟩ := ih (setValueState self c "None" "")
        refine ⟨h1, h2, h3, h4, h5, ?_⟩
        intro id
        rcases h6 id with h | h
        · exact Or.inl h
        · rw [h]
          by_cases hid : id = c.sId
          · left
            simp [setValueState, hid, noError]
          · right
            simp [setValueState, hid]

/-- After `clearAllMessages` the message manager and `InputsErrorsIds` are empty, and
every control that has a record in `InputsErrorsIds`, is found in the registry and has
`setValueState` is in the state `None` with an empty text. -/
theorem clearAllMessages_resets_indexed (registry : String → Option Control) (self : State) :
    (clearAllMessages registry self).messages = [] ∧
    (clearAllMessages registry self).InputsErrorsIds = [] ∧
    (∀ item ∈ self.InputsErrorsIds, ∀ c, registry item.inputError = some c →
      c.hasValueState = true → (clearAllMessages registry self).controlState c.sId = noError) := by
  refine ⟨rfl, rfl, ?_⟩
  intro item hitem c hreg hvs
  show (resetControls registry self.InputsErrorsIds self).controlState c.sId = noError
  generalize self.InputsErrorsIds = items at hitem
  induction items generalizing self with
  | nil => simp at hitem
  | cons first rest ih =>
    rw [resetControls]
    rcases List.mem_cons.1 hitem with h | h
    · subst h
      simp only [hreg, hvs, if_true]
      rcases (resetControls_frame registry rest (setValueState self c "None" "")).2.2.2.2.2 c.sId
        with h | h
      · exact h
      · rw [h]
        simp [setValueState, noError]
    · exact ih _ h

/-- C11. The state reached by validating first the group of the control `email`
(required and empty) and then the group of the control `name` (valid) leaves `email` in
the state `Error` without a record in `InputsErrorsIds`; `clearAllMessages` then empties
the message manager and the index but leaves `email` in the state `Error`. -/
theorem clearAllMessages_leaves_stale_error :
    (validateControls freshState [some emailInput]).state.controlState "__xmlview0--email" =
      { valueState := "Error", valueStateText := "Email is required" } ∧
    stateAfterTwoBatches.InputsErrorsIds = [] ∧
    stateAfterTwoBatches.controlState "__xmlview0--email" =
      { valueState := "Error", valueStateText := "Email is required" } ∧
    sampleRegistry "__xmlview0--email" = some emailInput ∧
    (clearAllMessages sampleRegistry stateAfterTwoBatches).messages = [] ∧
    (clearAllMessages sampleRegistry stateAfterTwoBatches).InputsErrorsIds = [] ∧
    (clearAllMessages sampleRegistry stateAfterTwoBatches).controlState "__xmlview0--email" =
      { valueState := "Error", valueStateText := "Email is required" } := by
  refine ⟨by decide, by decide, by decide, rfl, rfl, rfl, by decide⟩

/-! ## Registration of rules -/

/-- C12. `addCustomRule` and `addGlobalCustomRule` raise exactly when the argument
`validationFunction` is not a function, and when they raise the state, so the rule list
of every key and the list of global rules, is unchanged. -/
theorem addRule_raises_iff (self : State) (controlIdOrPath : String)
    (validationFunction : Callable Rule) (globalFunction : Callable GlobalRule) :
    ((∃ e, (addCustomRule self controlIdOrPath validationFunction).result = .error e) ↔
      validationFunction.isFunction = false) ∧
    ((∃ e, (addGlobalCustomRule self globalFunction).result = .error e) ↔
      globalFunction.isFunction = false) ∧
    ((∃ e, (addCustomRule self controlIdOrPath validationFunction).result = .error e) →
      (addCustomRule self controlIdOrPath validationFunction).state = self) ∧
    ((∃ e, (addGlobalCustomRule self globalFunction).result = .error e) →
      (addGlobalCustomRule self globalFunction).state = self) := by
  refine ⟨?_, ?_, ?_, ?_⟩
  · cases validationFunction <;> simp [addCustomRule, Callable.isFunction]
  · cases globalFunction <;> simp [addGlobalCustomRule, Callable.isFunction]
  · cases validationFunction <;> simp [addCustomRule]
  · cases globalFunction <;> simp [addGlobalCustomRule]

theorem addRule_raises_iff_witness :
    (addCustomRule stateWithNameRule "taxId" (.notFunction (.str "not a function"))).state =
      stateWithNameRule ∧
    (addGlobalCustomRule stateWithNameRule (.notFunction .undefined)).state =
      stateWithNameRule :=
  ⟨(addRule_raises_iff stateWithNameRule "taxId" (.notFunction (.str "not a function"))
      (.notFunction .undefined)).2.2.1 ⟨_, rfl⟩,
   (addRule_raises_iff stateWithNameRule "taxId" (.notFunction (.str "not a function"))
      (.notFunction .undefined)).2.2.2 ⟨_, rfl⟩⟩

/-! ## Global rules -/

theorem filterMap_globalEntry (rules : List GlobalRule) :
    rules.filterMap globalEntry = (rules.filterMap globalError).map globalMessage := by
  induction rules with
  | nil => rfl
  | cons rule rest ih =>
    cases h : rule () with
    | returned ok message =>
      cases ok <;> simp [List.filterMap_cons, globalEntry, globalError, h, ih]
    | threw => simp [List.filterMap_cons, globalEntry, globalError, h, ih]

theorem validateGlobal_eq (self : State) :
    (_validateGlobalCustomRules self).result =
        .ok { isValid := self.globalCustomRules.all globalPasses,
              errors := self.globalCustomRules.filterMap globalError } ∧
    (_validateGlobalCustomRules self).state.messages =
        self.messages ++ (self.globalCustomRules.filterMap globalError).map globalMessage ∧
    (_validateGlobalCustomRules self).trace =
        (List.range' 0 self.globalCustomRules.length).map Event.globalRuleCall ∧
    (_validateGlobalCustomRules self).state.InputsErrorsIds = self.InputsErrorsIds ∧
    (_validateGlobalCustomRules self).state.controlState = self.controlState ∧
    (_validateGlobalCustomRules self).state.oResourceBundle = self.oResourceBundle ∧
    (_validateGlobalCustomRules self).state.customRules = self.customRules ∧
    (_validateGlobalCustomRules self).state.globalCustomRules = self.globalCustomRules := by
  obtain ⟨h1, h2, h3, h4, h5, h6, h7, h8, h9⟩ :=
    runGlobalRules_eq self.globalCustomRules 0 { isValid := true, errors := [] } self []
  refine ⟨?_, ?_, ?_, h4, h5, h6, h7, h8⟩
  · simp only [_validateGlobalCustomRules]
    congr 1
    cases hv : runGlobalRules self.globalCustomRules 0
      ({ isValid := true, errors := [] }, self, []) with
    | mk verdict rest =>
      rw [hv] at h1 h2
      cases verdict with
      | mk isValid errors =>
        simp only at h1 h2
        rw [filterMap_globalEntry] at h2
        simp only [List.map_map, List.nil_append] at h2
        have hid : (fun m : Message => m.message) ∘ globalMessage = id := by
          funext text
          rfl
        rw [hid, List.map_id] at h2
        simp [h1, h2]
  · simp only [_validateGlobalCustomRules]
    rw [h3, filterMap_globalEntry]
  · simp only [_validateGlobalCustomRules]
    rw [h9]
    simp

theorem globalError_append_threw (before after : List GlobalRule) (rule : GlobalRule)
    (h : rule () = .threw) :
    (before ++ rule :: after).filterMap globalError =
      before.filterMap globalError ++ after.filterMap globalError := by
  simp [List.filterMap_append, List.filterMap_cons, globalError, h]

/-- C13. `_validateGlobalCustomRules` invokes every global rule once, in registration
order. Its errors are the messages of the rules that return a falsy `isValid`, in that
order, and for each of them one message with target `/globalValidation` and type
`Error` is appended to the message manager; the verdict is valid exactly when every
rule passes. A rule that throws makes the verdict invalid, adds neither an error nor a
message, and the rules after it are still invoked. -/
theorem validateGlobalCustomRules_run (self : State) :
    (_validateGlobalCustomRules self).trace =
        (List.range' 0 self.globalCustomRules.length).map Event.globalRuleCall ∧
    (_validateGlobalCustomRules self).result =
        .ok { isValid := self.globalCustomRules.all globalPasses,
              errors := self.globalCustomRules.filterMap globalError } ∧
    (_validateGlobalCustomRules self).state.messages =
        self.messages ++
          (self.globalCustomRules.filterMap globalError).map
            (fun text => { message := text, type := .Error, target := "/globalValidation",
                           additionalText := "" }) ∧
    (∀ before rule after, self.globalCustomRules = before ++ rule :: after →
      rule () = .threw →
      (_validateGlobalCustomRules self).result =
          .ok { isValid := false,
                errors := before.filterMap globalError ++ after.filterMap globalError } ∧
      (_validateGlobalCustomRules self).state.messages =
          self.messages ++
            (before.filterMap globalError ++ after.filterMap globalError).map globalMessage ∧
      (_validateGlobalCustomRules self).trace =
          (List.range' 0 (before.length + 1 + after.length)).map Event.globalRuleCall) := by
  obtain ⟨hres, hmsg, htrace, _⟩ := validateGlobal_eq self
  refine ⟨htrace, hres, hmsg, ?_⟩
  intro before rule after hsplit hthrow
  have hpass : self.globalCustomRules.all globalPasses = false := by
    rw [hsplit, List.all_eq_false]
    exact ⟨rule, by simp, by simp [globalPasses, hthrow]⟩
  refine ⟨?_, ?_, ?_⟩
  · rw [hres, hpass, hsplit, globalError_append_threw _ _ _ hthrow]
  · rw [hmsg, hsplit, globalError_append_threw _ _ _ hthrow]
  · rw [htrace, hsplit]
    simp [Nat.add_assoc, Nat.add_comm 1 after.length]

theorem validateGlobalCustomRules_run_witness :
    (_validateGlobalCustomRules
        { freshState with
          globalCustomRules :=
            [attachmentRule 0, throwingGlobalRule, attachmentRule 0] }).result =
      .ok { isValid := false, errors := ["Attachment is mandatory", "Attachment is mandatory"] } ∧
    (_validateGlobalCustomRules
        { freshState with
          globalCustomRules :=
            [attachmentRule 0, throwingGlobalRule, attachmentRule 0] }).trace =
      [.globalRuleCall 0, .globalRuleCall 1, .globalRuleCall 2] := by
  have h := (validateGlobalCustomRules_run
    { freshState with
      globalCustomRules := [attachmentRule 0, throwingGlobalRule, attachmentRule 0] }).2.2.2
    [attachmentRule 0] throwingGlobalRule [attachmentRule 0] rfl rfl
  exact ⟨h.1.trans rfl, h.2.2.trans (by decide)⟩

theorem publicValidateGlobal_eq (self : State) :
    (validateGlobalCustomRules self).result =
        .ok { isValid := self.globalCustomRules.all globalPasses,
              errors := self.globalCustomRules.filterMap globalError } ∧
    (validateGlobalCustomRules self).state.messages =
        self.messages.filter (fun m => m.target != "/globalValidation") ++
          (self.globalCustomRules.filterMap globalError).map globalMessage := by
  obtain ⟨hres, hmsg, _⟩ := validateGlobal_eq
    { self with
      messages := self.messages.filter (fun oMessage => oMessage.target != "/globalValidation") }
  exact ⟨hres, hmsg⟩

/-- C14. After `validateGlobalCustomRules` the messages under `/globalValidation` are
exactly one per global rule that failed in this run, in registration order, none of an
earlier run remaining, and the messages under every other target are unchanged, in the
same order; when every rule passes, no message is left under `/globalValidation` and the
verdict is valid without errors. -/
theorem validateGlobalCustomRules_replaces_entries (self : State) :
    (validateGlobalCustomRules self).state.messages.filter
        (fun m => m.target = "/globalValidation") =
      (self.globalCustomRules.filterMap globalError).map globalMessage ∧
    (validateGlobalCustomRules self).state.messages.filter
        (fun m => m.target != "/globalValidation") =
      self.messages.filter (fun m => m.target != "/globalValidation") ∧
    (∀ target, target ≠ "/globalValidation" →
      (validateGlobalCustomRules self).state.messages.filter (fun m => m.target = target) =
        self.messages.filter (fun m => m.target = target)) ∧
    ((∀ rule ∈ self.globalCustomRules, globalPasses rule = true) →
      (validateGlobalCustomRules self).result = .ok { isValid := true, errors := [] } ∧
      (validateGlobalCustomRules self).state.messages.filter
        (fun m => m.target = "/globalValidation") = []) := by
  obtain ⟨hres, hmsg⟩ := publicValidateGlobal_eq self
  have hnew : ∀ m ∈ (self.globalCustomRules.filterMap globalError).map globalMessage,
      m.target = "/globalValidation" := by
    intro m hm
    simp only [List.mem_map] at hm
    obtain ⟨text, _, rfl⟩ := hm
    rfl
  have hglobal : (validateGlobalCustomRules self).state.messages.filter
      (fun m => m.target = "/globalValidation") =
      (self.globalCustomRules.filterMap globalError).map globalMessage := by
    rw [hmsg, List.filter_append, List.filter_filter]
    have h1 : self.messages.filter (fun a => decide (a.target = "/globalValidation") &&
        (a.target != "/globalValidation")) = [] := by
      rw [List.filter_eq_nil_iff]
      intro m _
      simp
    have h2 : ((self.globalCustomRules.filterMap globalError).map globalMessage).filter
        (fun m => m.target = "/globalValidation") =
        (self.globalCustomRules.filterMap globalError).map globalMessage := by
      rw [List.filter_eq_self]
      intro m hm
      simpa using hnew m hm
    rw [h1, h2]
    simp
  refine ⟨hglobal, ?_, ?_, ?_⟩
  · rw [hmsg, List.filter_append, List.filter_filter]
    have h2 : ((self.globalCustomRules.filterMap globalError).map globalMessage).filter
        (fun m => m.target != "/globalValidation") = [] := by
      rw [List.filter_eq_nil_iff]
      intro m hm
      simp [hnew m hm]
    rw [h2]
    simp
  · intro target htarget
    rw [hmsg, List.filter_append, List.filter_filter]
    have h2 : ((self.globalCustomRules.filterMap globalError).map globalMessage).filter
        (fun m => m.target = target) = [] := by
      rw [List.filter_eq_nil_iff]
      intro m hm
      rw [hnew m hm]
      simpa using fun h => htarget h.symm
    rw [h2]
    simp only [List.append_nil]
    apply List.filter_congr
    intro m _
    by_cases h : m.target = target
    · simp [h, htarget]
    · simp [h]
  · intro hall
    have hnone : self.globalCustomRules.filterMap globalError = [] := by
      rw [List.filterMap_eq_nil_iff]
      intro rule hr
      have := hall rule hr
      unfold globalPasses at this
      unfold globalError
      split at this
      · rename_i message h
        simp [h]
      · exact Bool.noConfusion this
    have hpass : self.globalCustomRules.all globalPasses = true := by
      rw [List.all_eq_true]
      exact hall
    rw [hglobal, hres, hnone, hpass]
    exact ⟨rfl, rfl⟩

theorem validateGlobalCustomRules_replaces_entries_witness :
    (validateGlobalCustomRules (stateWithAttachments 0)).result =
      .ok { isValid := false, errors := ["Attachment is mandatory"] } ∧
    (validateGlobalCustomRules (stateWithAttachments 0)).state.messages =
      [globalMessage "Attachment is mandatory"] ∧
    (validateGlobalCustomRules stateAfterAttachmentAdded).result =
      .ok { isValid := true, errors := [] } ∧
    (validateGlobalCustomRules stateAfterAttachmentAdded).state.messages.filter
      (fun m => m.target = "/globalValidation") = [] := by
  have h := (validateGlobalCustomRules_replaces_entries stateAfterAttachmentAdded).2.2.2
    (by decide)
  exact ⟨rfl, by decide, h.1, h.2⟩

/-- C15. With one global rule that throws, `_validateGlobalCustomRules` and
`validateGlobalCustomRules` return the verdict `isValid = false` with no error, so
`isValid == (errors is empty)` does not hold, and no entry is added under
`/globalValidation`. The per-field check `_validateCustomRules`, for a rule that throws,
returns the invalid verdict with the one error `validator.validationError`. -/
theorem global_verdict_not_consistent :
    (_validateGlobalCustomRules stateWithThrowingGlobalRule).result =
      .ok { isValid := false, errors := [] } ∧
    (validateGlobalCustomRules stateWithThrowingGlobalRule).result =
      .ok { isValid := false, errors := [] } ∧
    ¬ (({ isValid := false, errors := [] } : Verdict).isValid =
        decide (({ isValid := false, errors := [] } : Verdict).errors.length = 0)) ∧
    (_validateGlobalCustomRules stateWithThrowingGlobalRule).state.messages = [] ∧
    (_validateCustomRules stateWithThrowingTaxRule taxInput (.str "12")).1 =
      { isValid := false, errors := ["Validation error occurred"] } := by
  refine ⟨rfl, rfl, by decide, rfl, by decide⟩

/-- For every list of global rules, rules that throw included, the verdict of
`_validateGlobalCustomRules` and of `validateGlobalCustomRules` is valid exactly when it
has no errors and no rule threw; so `isValid == (errors is empty)` holds whenever no rule
throws. -/
theorem global_verdict_valid_iff (self : State) :
    ∃ verdict,
      (_validateGlobalCustomRules self).result = .ok verdict ∧
      (validateGlobalCustomRules self).result = .ok verdict ∧
      (verdict.isValid = true ↔
        verdict.errors = [] ∧ ∀ rule ∈ self.globalCustomRules, rule () ≠ .threw) ∧
      ((∀ rule ∈ self.globalCustomRules, rule () ≠ .threw) →
        verdict.isValid = decide (verdict.errors.length = 0)) := by
  have hiff : self.globalCustomRules.all globalPasses = true ↔
      (self.globalCustomRules.filterMap globalError = [] ∧
        ∀ rule ∈ self.globalCustomRules, rule () ≠ .threw) := by
    rw [List.all_eq_true, List.filterMap_eq_nil_iff]
    constructor
    · intro h
      constructor
      · intro rule hr
        have := h rule hr
        unfold globalPasses at this
        unfold globalError
        split at this
        · rename_i message hm
          simp [hm]
        · exact Bool.noConfusion this
      · intro rule hr hthrow
        have := h rule hr
        simp [globalPasses, hthrow] at this
    · rintro ⟨h1, h2⟩ rule hr
      have he := h1 rule hr
      have ht := h2 rule hr
      unfold globalPasses
      unfold globalError at he
      cases hrule : rule () with
      | returned ok message =>
        cases ok
        · simp [hrule] at he
        · rfl
      | threw => exact absurd hrule ht
  refine ⟨_, (validateGlobal_eq self).1, (publicValidateGlobal_eq self).1, hiff, ?_⟩
  intro hno
  simp only
  cases hb : self.globalCustomRules.all globalPasses with
  | true =>
    have := (hiff.1 hb).1
    simp [this]
  | false =>
    have hne : self.globalCustomRules.filterMap globalError ≠ [] := by
      intro h0
      have := hiff.2 ⟨h0, hno⟩
      rw [hb] at this
      exact Bool.noConfusion this
    simp [hne]

theorem global_verdict_valid_iff_witness :
    (_validateGlobalCustomRules (stateWithAttachments 0)).result =
      .ok { isValid := false, errors := ["Attachment is mandatory"] } ∧
    ({ isValid := false, errors := ["Attachment is mandatory"] } : Verdict).isValid =
      decide (({ isValid := false, errors := ["Attachment is mandatory"] } : Verdict).errors.length
        = 0) := by
  obtain ⟨verdict, h1, _, _, h4⟩ := global_verdict_valid_iff (stateWithAttachments 0)
  have hv : verdict = { isValid := false, errors := ["Attachment is mandatory"] } := by
    have : (_validateGlobalCustomRules (stateWithAttachments 0)).result =
        .ok { isValid := false, errors := ["Attachment is mandatory"] } := rfl
    rw [this] at h1
    exact (Except.ok.inj h1).symm
  refine ⟨rfl, ?_⟩
  rw [← hv]
  apply h4
  intro rule hr
  have : rule = attachmentRule 0 := by simpa [stateWithAttachments] using hr
  rw [this]
  simp [attachmentRule]

/-! ## The pre-check of the constraint evaluator -/

theorem isStringType_of_numeric (typeName : String) (h : _isNumericType typeName = true) :
    _isStringType typeName = false := by
  simp only [_isNumericType, decide_eq_true_eq] at h
  rcases h with h | h | h | h | h <;> (subst h; decide)

/-- C16. For a string type and a value whose length, as measured by the pre-check (the
length of `String(value || "")`), is below `minLength`, `_preValidateConstraints`
returns exactly one error, the text `validator.minLength` with the parameters label
and `minLength`, whatever `maxLength` is (a `maxLength` below `minLength` included): no
`validator.maxLength` message is added. -/
theorem preValidate_minLength_first (oResourceBundle : Option ResourceBundle) (value : Value)
    (constraints : Constraints) (controlLabel : String) (oType : OType) (minLength : Int)
    (hstring : _isStringType oType.name = true)
    (hmin : constraints.minLength = some minLength)
    (hshort : (jsLength (if value.truthy then value.toJsString else "").data : Int) <
      minLength) :
    _preValidateConstraints oResourceBundle value constraints controlLabel oType =
      [_getText oResourceBundle "validator.minLength" [controlLabel, toString minLength]] := by
  simp [_preValidateConstraints, hstring, preValidateLength, hmin, hshort]

theorem preValidate_minLength_first_witness :
    _preValidateConstraints none (.str "ab") { minLength := some 5, maxLength := some 3 }
        "Name" degenerateStringType =
      ["Name: Minimum length is 5 characters"] :=
  (preValidate_minLength_first none (.str "ab") { minLength := some 5, maxLength := some 3 }
    "Name" degenerateStringType 5 (by decide) rfl (by decide)).trans (by decide)

/-- C17. For a control bound with a numeric type and a value that `_tryParseNumber`
parses to a number: when the number is above `maximum` and not below `minimum`,
`_validateConstraints` returns an invalid verdict with exactly one error, the text
`validator.maxValue` with the parameters label and `maximum`; when the number is below
`minimum`, the one error is the text `validator.minValue` with the parameters label and
`minimum`. The external parse and validation are not called. -/
theorem validateConstraints_range (oResourceBundle : Option ResourceBundle)
    (oControl : Control) (value : Value) (binding : Binding) (oType : OType)
    (numericValue : ParsedNumber)
    (hbinding : _getValueBinding oControl = some binding)
    (htype : binding.getType = some oType)
    (hnumeric : _isNumericType oType.name = true)
    (hparse : _tryParseNumber value = some numericValue) :
    (∀ maximum, (oType.getConstraints.getD {}).maximum = some maximum →
      numericValue.gtInt maximum = true →
      (∀ minimum, (oType.getConstraints.getD {}).minimum = some minimum →
        numericValue.ltInt minimum = false) →
      _validateConstraints oResourceBundle oControl value =
        ({ isValid := false,
           errors := [_getText oResourceBundle "validator.maxValue"
             [_getControlLabel oResourceBundle oControl, toString maximum]] }, [])) ∧
    (∀ minimum, (oType.getConstraints.getD {}).minimum = some minimum →
      numericValue.ltInt minimum = true →
      _validateConstraints oResourceBundle oControl value =
        ({ isValid := false,
           errors := [_getText oResourceBundle "validator.minValue"
             [_getControlLabel oResourceBundle oControl, toString minimum]] }, [])) := by
  have hstr := isStringType_of_numeric _ hnumeric
  constructor
  · intro maximum hmax hgt hmin
    cases hm : (oType.getConstraints.getD {}).minimum with
    | none =>
      simp [_validateConstraints, hbinding, htype, _preValidateConstraints, hstr, hnumeric,
        hparse, preValidateNumber, hm, hmax, hgt]
    | some minimum =>
      have := hmin minimum hm
      simp [_validateConstraints, hbinding, htype, _preValidateConstraints, hstr, hnumeric,
        hparse, preValidateNumber, hm, hmax, hgt, this]
  · intro minimum hmin hlt
    simp [_validateConstraints, hbinding, htype, _preValidateConstraints, hstr, hnumeric,
      hparse, preValidateNumber, hmin, hlt]

theorem validateConstraints_range_witness :
    _validateConstraints none (priceInput "150") (.str "150") =
      ({ isValid := false, errors := ["Price: Maximum value is 100"] }, []) ∧
    _validateConstraints none (priceInput "-1") (.str "-1") =
      ({ isValid := false, errors := ["Price: Minimum value is 0"] }, []) := by
  constructor
  · exact ((validateConstraints_range none (priceInput "150") (.str "150")
      { getPath := "/price", getType := some decimalType, getValue := .str "150" }
      decimalType (.finite 150 0) rfl rfl (by decide) (by decide)).1 100 rfl (by decide)
      (by decide)).trans (by decide)
  · exact ((validateConstraints_range none (priceInput "-1") (.str "-1")
      { getPath := "/price", getType := some decimalType, getValue := .str "-1" }
      decimalType (.finite (-1) 0) rfl rfl (by decide) (by decide)).2 0 rfl
      (by decide)).trans (by decide)

/-! ## The fallback message -/

/-- When the pre-check finds nothing and the external parse or validation raises,
`_validateConstraints` returns one error: the label, a colon and a blank, and the
message that `_getFormatErrorMessage` chooses for the name of the type. -/
theorem validateConstraints_fallback (oResourceBundle : Option ResourceBundle)
    (oControl : Control) (value : Value) (binding : Binding) (oType : OType)
    (hbinding : _getValueBinding oControl = some binding)
    (htype : binding.getType = some oType)
    (hpre : _preValidateConstraints oResourceBundle value (oType.getConstraints.getD {})
      (_getControlLabel oResourceBundle oControl) oType = [])
    (hraise : oType.parseValue value = none ∨
      ∃ internal, oType.parseValue value = some internal ∧
        oType.validateValue internal = false) :
    (_validateConstraints oResourceBundle oControl value).1 =
      { isValid := false,
        errors := [_getControlLabel oResourceBundle oControl ++ ": " ++
          _getFormatErrorMessage oResourceBundle oType.name] } := by
  rcases hraise with h | ⟨internal, h1, h2⟩
  · simp [_validateConstraints, hbinding, htype, hpre, h, _createUserFriendlyErrorMessage]
  · simp [_validateConstraints, hbinding, htype, hpre, h1, h2, _createUserFriendlyErrorMessage]

/-- The messages that `_getFormatErrorMessage` chooses, with the fallback table: the
decimal, integer, time, date and text messages for the OData decimal, `Int32` and
`Int16`, `Time`, `Date` and `DateTime`, and both string types; the generic message for
the plain `Integer` and `Float` types. -/
theorem getFormatErrorMessage_table :
    _getFormatErrorMessage none "sap.ui.model.odata.type.Decimal" =
      "Enter a valid decimal number" ∧
    _getFormatErrorMessage none "sap.ui.model.odata.type.Int32" = "Enter a valid integer" ∧
    _getFormatErrorMessage none "sap.ui.model.odata.type.Int16" = "Enter a valid integer" ∧
    _getFormatErrorMessage none "sap.ui.model.odata.type.Time" = "Enter a valid time" ∧
    _getFormatErrorMessage none "sap.ui.model.odata.type.Date" = "Enter a valid date" ∧
    _getFormatErrorMessage none "sap.ui.model.odata.type.DateTime" = "Enter a valid date" ∧
    _getFormatErrorMessage none "sap.ui.model.type.String" = "Enter a valid text" ∧
    _getFormatErrorMessage none "sap.ui.model.odata.type.String" = "Enter a valid text" ∧
    _getFormatErrorMessage none "sap.ui.model.type.Integer" = "Invalid value" ∧
    _getFormatErrorMessage none "sap.ui.model.type.Float" = "Invalid value" := by
  decide

/-- C19. A control bound with the plain type `sap.ui.model.type.Integer`, which
`_isNumericType` accepts, holding the text `abc`: the pre-check finds nothing, the
external parse raises, and the one error returned is the label followed by the generic
invalid-value message, not by the invalid-integer message. -/
theorem plain_integer_gets_generic_message :
    _isNumericType integerType.name = true ∧
    _preValidateConstraints none (.str "abc") (integerType.getConstraints.getD {})
        (_getControlLabel none ageInput) integerType = [] ∧
    integerType.parseValue (.str "abc") = none ∧
    _validateConstraints none ageInput (.str "abc") =
      ({ isValid := false, errors := ["Age: Invalid value"] },
       [.parseValue "__xmlview0--age"]) ∧
    _getText none "validator.invalidInteger" [] = "Enter a valid integer" := by
  refine ⟨by decide, by decide, rfl, by decide, by decide⟩

/-! ## Emptiness -/

/-- C20. `_isEmpty` is true exactly when: the control is a `sap.m.MultiInput` and the
value is not a token array or is an array of length zero; or the control is not a
`sap.m.MultiInput` and the value is `null` or `undefined`, or a string that is empty
after trimming, or the control is a `sap.m.Select` or `sap.m.ComboBox` and the value is
one of the strings "", "0" and "00". On a control that is not a `sap.m.MultiInput` it is
false for every number, every boolean and every other value, and the string "0" is not
empty on a control that is neither a selector nor a `sap.m.MultiInput`. -/
theorem isEmpty_policy (value : Value) (oControl : Control) :
    (_isEmpty value oControl = true ↔
      (oControl.metadataName = "sap.m.MultiInput" ∧
        ((¬ ∃ items, value = .array items) ∨ value = .array [])) ∨
      (oControl.metadataName ≠ "sap.m.MultiInput" ∧
        (value = .null ∨ value = .undefined ∨
         (∃ s, value = .str s ∧ trimIsEmpty s = true) ∨
         ((oControl.metadataName = "sap.m.Select" ∨ oControl.metadataName = "sap.m.ComboBox") ∧
          (value = .str "" ∨ value = .str "0" ∨ value = .str "00"))))) ∧
    (oControl.metadataName ≠ "sap.m.MultiInput" →
      (∀ n, _isEmpty (.num n) oControl = false) ∧
      (∀ b, _isEmpty (.bool b) oControl = false) ∧
      (∀ items, _isEmpty (.array items) oControl = false) ∧
      (∀ repr, _isEmpty (.object repr) oControl = false)) ∧
    (oControl.metadataName ≠ "sap.m.MultiInput" → oControl.metadataName ≠ "sap.m.Select" →
      oControl.metadataName ≠ "sap.m.ComboBox" → _isEmpty (.str "0") oControl = false) := by
  refine ⟨?_, ?_, ?_⟩
  · by_cases hm : oControl.metadataName = "sap.m.MultiInput"
    · cases value <;> simp [_isEmpty, hm]
    · by_cases hs : oControl.metadataName = "sap.m.ComboBox" ∨
          oControl.metadataName = "sap.m.Select"
      · cases value <;> simp [_isEmpty, hm, hs, or_comm]
      · have hs' : ¬ (oControl.metadataName = "sap.m.Select" ∨
            oControl.metadataName = "sap.m.ComboBox") := fun h => hs (Or.comm.1 h)
        cases value <;> simp [_isEmpty, hm, hs, hs']
  · intro hm
    by_cases hs : oControl.metadataName = "sap.m.ComboBox" ∨
        oControl.metadataName = "sap.m.Select"
    · simp [_isEmpty, hm, hs]
    · simp [_isEmpty, hm, hs]
  · intro hm hsel hcombo
    have hs : ¬ (oControl.metadataName = "sap.m.ComboBox" ∨
        oControl.metadataName = "sap.m.Select") := by
      rintro (h | h)
      · exact hcombo h
      · exact hsel h
    have ht : trimIsEmpty "0" = false := by decide
    simp [_isEmpty, hm, hs, ht]

theorem isEmpty_policy_witness :
    _isEmpty (.str "0") (nameInput "0") = false ∧
    _isEmpty (.num 0) (nameInput "0") = false ∧
    _isEmpty (.str "0") citySelect = true ∧
    _isEmpty (.array []) (tagsInput []) = true := by
  have h := isEmpty_policy (.str "0") (nameInput "0")
  refine ⟨h.2.2 (by decide) (by decide) (by decide), (h.2.1 (by decide)).1 0, by decide,
    by decide⟩

/-! ## Plain decimal texts -/

theorem isDigit_toNat (c : Char) (h : isDigit c = true) : 48 ≤ c.toNat ∧ c.toNat ≤ 57 := by
  simpa [isDigit] using h

theorem isDigit_ne (c d : Char) (h : isDigit c = true) (hd : isDigit d = false) : c ≠ d := by
  intro hcd
  rw [hcd, hd] at h
  exact Bool.noConfusion h

theorem isDigit_not_whitespace (c : Char) (h : isDigit c = true) :
    isJsWhitespace c = false := by
  have hc := isDigit_toNat c h
  simp only [isJsWhitespace, Bool.or_eq_false_iff, beq_eq_false_iff_ne, Bool.and_eq_false_iff,
    decide_eq_false_iff_not]
  omega

theorem isDigit_utf16 (c : Char) (h : isDigit c = true) : c.toNat < 0x10000 := by
  have hc := isDigit_toNat c h
  omega

theorem takeWhile_digits (intDigits rest : List Char)
    (hint : ∀ c ∈ intDigits, isDigit c = true) :
    (intDigits ++ '.' :: rest).takeWhile isDigit = intDigits ∧
    (intDigits ++ '.' :: rest).dropWhile isDigit = '.' :: rest := by
  induction intDigits with
  | nil =>
    have : isDigit '.' = false := by decide
    simp [List.takeWhile, List.dropWhile, this]
  | cons c t ih =>
    have hc := hint c (by simp)
    have ht := ih (fun d hd => hint d (by simp [hd]))
    simp [List.takeWhile, List.dropWhile, hc, ht]

theorem takeWhile_all_digits (digits : List Char) (h : ∀ c ∈ digits, isDigit c = true) :
    digits.takeWhile isDigit = digits ∧ digits.dropWhile isDigit = [] := by
  induction digits with
  | nil => simp
  | cons c t ih =>
    have hc := h c (by simp)
    have ht := ih (fun d hd => h d (by simp [hd]))
    simp [List.takeWhile, List.dropWhile, hc, ht]

theorem jsLength_digits (digits : List Char) (h : ∀ c ∈ digits, isDigit c = true) :
    jsLength digits = digits.length := by
  induction digits with
  | nil => rfl
  | cons c t ih =>
    have hc := isDigit_utf16 c (h c (by simp))
    have ht := ih (fun d hd => h d (by simp [hd]))
    simp only [jsLength, List.map_cons, List.sum_cons, List.length_cons] at ht ⊢
    rw [ht]
    simp [hc]
    omega

theorem takeSign_of_not_sign (c : Char) (t : List Char) (hminus : c ≠ '-') (hplus : c ≠ '+') :
    takeSign (c :: t) = (false, c :: t) := by
  unfold takeSign
  split
  · rename_i heq
    simp at heq
    exact absurd heq.1 hminus
  · rename_i heq
    simp at heq
    exact absurd heq.1 hplus
  · rfl

theorem body_head (intDigits fracDigits : List Char)
    (hint : ∀ c ∈ intDigits, isDigit c = true) :
    ∃ c t, intDigits ++ '.' :: fracDigits = c :: t ∧ (isDigit c = true ∨ c = '.') := by
  cases intDigits with
  | nil => exact ⟨'.', fracDigits, rfl, Or.inr rfl⟩
  | cons c t => exact ⟨c, t ++ '.' :: fracDigits, rfl, Or.inl (hint c (by simp))⟩

theorem head_facts (c : Char) (h : isDigit c = true ∨ c = '.') :
    c ≠ '-' ∧ c ≠ '+' ∧ c ≠ 'I' ∧ isJsWhitespace c = false := by
  rcases h with h | h
  · refine ⟨isDigit_ne c _ h (by decide), isDigit_ne c _ h (by decide),
      isDigit_ne c _ h (by decide), isDigit_not_whitespace c h⟩
  · subst h
    decide

theorem parseFloatChars_body (negative : Bool) (intDigits fracDigits : List Char)
    (hint : ∀ c ∈ intDigits, isDigit c = true) (hfrac : ∀ c ∈ fracDigits, isDigit c = true)
    (hne : fracDigits ≠ []) (l : List Char)
    (hsign : takeSign (l.dropWhile isJsWhitespace) =
      (negative, intDigits ++ '.' :: fracDigits)) :
    parseFloatChars l = some (plainDecimalNumber negative intDigits fracDigits) := by
  obtain ⟨c, t, hbody, hc⟩ := body_head intDigits fracDigits hint
  obtain ⟨_, _, hI, _⟩ := head_facts c hc
  have hinf : "Infinity".data.isPrefixOf (intDigits ++ '.' :: fracDigits) = false := by
    rw [hbody]
    have : "Infinity".data = ['I', 'n', 'f', 'i', 'n', 'i', 't', 'y'] := rfl
    rw [this]
    simp [List.isPrefixOf, Ne.symm hI]
  obtain ⟨htake, hdrop⟩ := takeWhile_digits intDigits fracDigits hint
  obtain ⟨hftake, hfdrop⟩ := takeWhile_all_digits fracDigits hfrac
  unfold parseFloatChars
  simp only [hsign, hinf, htake, hdrop, hftake, hfdrop]
  simp [hne, exponentPart, plainDecimalNumber]

theorem parseFloatChars_plainDecimal (negative : Bool) (intDigits fracDigits : List Char)
    (hint : ∀ c ∈ intDigits, isDigit c = true) (hfrac : ∀ c ∈ fracDigits, isDigit c = true)
    (hne : fracDigits ≠ []) :
    parseFloatChars (plainDecimal negative intDigits fracDigits) =
      some (plainDecimalNumber negative intDigits fracDigits) := by
  apply parseFloatChars_body negative intDigits fracDigits hint hfrac hne
  obtain ⟨c, t, hbody, hc⟩ := body_head intDigits fracDigits hint
  obtain ⟨hminus, hplus, _, hws⟩ := head_facts c hc
  cases negative with
  | true =>
    have : isJsWhitespace '-' = false := by decide
    simp [plainDecimal, List.dropWhile, this, takeSign]
  | false =>
    simp only [plainDecimal, Bool.false_eq_true, if_false, List.nil_append]
    rw [hbody]
    simp only [List.dropWhile, hws]
    exact takeSign_of_not_sign c t hminus hplus

theorem plainDecimal_mem (negative : Bool) (intDigits fracDigits : List Char)
    (hint : ∀ c ∈ intDigits, isDigit c = true) (hfrac : ∀ c ∈ fracDigits, isDigit c = true) :
    ∀ c ∈ plainDecimal negative intDigits fracDigits,
      c = '-' ∨ c = '.' ∨ isDigit c = true := by
  intro c hc
  cases negative <;>
    simp only [plainDecimal, Bool.false_eq_true, if_false, if_true, List.nil_append,
      List.mem_append, List.mem_cons, List.mem_singleton, List.not_mem_nil, or_false] at hc
  · rcases hc with h | h | h
    · exact Or.inr (Or.inr (hint c h))
    · exact Or.inr (Or.inl h)
    · exact Or.inr (Or.inr (hfrac c h))
  · rcases hc with h | h | h | h
    · exact Or.inl h
    · exact Or.inr (Or.inr (hint c h))
    · exact Or.inr (Or.inl h)
    · exact Or.inr (Or.inr (hfrac c h))

theorem removeCommas_plainDecimal (negative : Bool) (intDigits fracDigits : List Char)
    (hint : ∀ c ∈ intDigits, isDigit c = true) (hfrac : ∀ c ∈ fracDigits, isDigit c = true) :
    removeCommas (plainDecimal negative intDigits fracDigits) =
      plainDecimal negative intDigits fracDigits := by
  unfold removeCommas
  rw [List.filter_eq_self]
  intro c hc
  rcases plainDecimal_mem negative intDigits fracDigits hint hfrac c hc with h | h | h
  · subst h; decide
  · subst h; decide
  · have := isDigit_ne c ',' h (by decide)
    simpa using this

theorem matchesDecimalShape_plainDecimal (negative : Bool) (intDigits fracDigits : List Char)
    (hint : ∀ c ∈ intDigits, isDigit c = true) (hfrac : ∀ c ∈ fracDigits, isDigit c = true)
    (hne : fracDigits ≠ []) :
    matchesDecimalShape (plainDecimal negative intDigits fracDigits) = true := by
  obtain ⟨hdtake, hddrop⟩ := takeWhile_digits intDigits fracDigits hint
  have hall : fracDigits.all isDigit = true := by
    rw [List.all_eq_true]
    exact hfrac
  cases negative with
  | true =>
    simp [matchesDecimalShape, plainDecimal, hddrop, hne, hall]
  | false =>
    obtain ⟨c, t, hb, hc⟩ := body_head intDigits fracDigits hint
    obtain ⟨hminus, _, _, _⟩ := head_facts c hc
    simp only [plainDecimal, Bool.false_eq_true, if_false, List.nil_append]
    have hddrop2 : (c :: t).dropWhile isDigit = '.' :: fracDigits := by
      rw [← hb]
      exact hddrop
    rw [hb]
    unfold matchesDecimalShape
    have hinner : (match c :: t with
        | '-' :: t' => t'
        | _ => c :: t) = c :: t := by
      split
      · rename_i heq
        simp at heq
        exact absurd heq.1 hminus
      · rfl
    simp only [hinner, hddrop2]
    simp [hne, hall]

theorem digits_filter (digits : List Char) (h : ∀ c ∈ digits, isDigit c = true) :
    digits.filter (fun c => c != '.' && c != ',' && c != '-') = digits := by
  rw [List.filter_eq_self]
  intro c hc
  have h1 := isDigit_ne c '.' (h c hc) (by decide)
  have h2 := isDigit_ne c ',' (h c hc) (by decide)
  have h3 := isDigit_ne c '-' (h c hc) (by decide)
  simp [h1, h2, h3]

theorem precisionFilter_plainDecimal (negative : Bool) (intDigits fracDigits : List Char)
    (hint : ∀ c ∈ intDigits, isDigit c = true) (hfrac : ∀ c ∈ fracDigits, isDigit c = true) :
    (plainDecimal negative intDigits fracDigits).filter
        (fun c => c != '.' && c != ',' && c != '-') = intDigits ++ fracDigits := by
  cases negative <;>
    simp [plainDecimal, List.filter_append, List.filter_cons, digits_filter _ hint,
      digits_filter _ hfrac]

theorem afterFirstDot_digits (digits rest : List Char)
    (h : ∀ c ∈ digits, isDigit c = true) :
    afterFirstDot (digits ++ '.' :: rest) = some rest := by
  induction digits with
  | nil => simp [afterFirstDot]
  | cons c t ih =>
    have hc := isDigit_ne c '.' (h c (by simp)) (by decide)
    simp [afterFirstDot, hc, ih (fun d hd => h d (by simp [hd]))]

theorem afterFirstDot_plainDecimal (negative : Bool) (intDigits fracDigits : List Char)
    (hint : ∀ c ∈ intDigits, isDigit c = true) :
    afterFirstDot (plainDecimal negative intDigits fracDigits) = some fracDigits := by
  cases negative with
  | true =>
    simp only [plainDecimal, if_true, List.singleton_append, afterFirstDot]
    have : ('-' : Char) ≠ '.' := by decide
    simp [this, afterFirstDot_digits intDigits fracDigits hint]
  | false =>
    simp only [plainDecimal, Bool.false_eq_true, if_false, List.nil_append]
    exact afterFirstDot_digits intDigits fracDigits hint

theorem plainDecimal_ne_nil (negative : Bool) (intDigits fracDigits : List Char) :
    plainDecimal negative intDigits fracDigits ≠ [] := by
  cases negative <;> simp [plainDecimal]

/-! ## Texts of the fallback table are not empty -/

theorem dropPattern_eq (p l rest : List Char) (h : dropPattern? p l = some rest) :
    l = p ++ rest := by
  induction p generalizing l with
  | nil =>
    simp only [dropPattern?, Option.some.injEq] at h
    simp [h]
  | cons a p ih =>
    cases l with
    | nil => simp [dropPattern?] at h
    | cons c cs =>
      simp only [dropPattern?] at h
      split at h
      · rename_i hac
        rw [hac, ih cs h]
        rfl
      · simp at h

theorem splitAtFirst_eq (p l before rest : List Char)
    (h : splitAtFirst p l = some (before, rest)) : l = before ++ p ++ rest := by
  induction l generalizing before rest with
  | nil => simp [splitAtFirst] at h
  | cons c cs ih =>
    simp only [splitAtFirst] at h
    split at h
    · rename_i r hr
      simp only [Option.some.injEq, Prod.mk.injEq] at h
      rw [← h.1, ← h.2]
      simpa using dropPattern_eq p (c :: cs) r hr
    · split at h
      · rename_i b r hsplit
        simp only [Option.some.injEq, Prod.mk.injEq] at h
        rw [← h.1, ← h.2, ih b r hsplit]
        simp
      · simp at h

theorem jsReplace_length (text pattern replacement : String) :
    text.data.length ≤ (jsReplace text pattern replacement).data.length + pattern.data.length := by
  unfold jsReplace
  split
  · omega
  · rename_i before rest h
    have := splitAtFirst_eq _ _ _ _ h
    rw [this]
    simp only [List.length_append]
    omega

theorem replaceParams_two_ne_empty (text first second : String)
    (h : 6 < text.data.length) : replaceParams text 0 [first, second] ≠ "" := by
  have h0 : ("\x7b" ++ toString 0 ++ "\x7d" : String) = "\x7b0\x7d" := by decide
  have h1 : ("\x7b" ++ toString (0 + 1) ++ "\x7d" : String) = "\x7b1\x7d" := by decide
  simp only [replaceParams, h0, h1]
  have ha := jsReplace_length text "\x7b0\x7d" first
  have hb := jsReplace_length (jsReplace text "\x7b0\x7d" first) "\x7b1\x7d" second
  have hp0 : ("\x7b0\x7d" : String).data.length = 3 := by decide
  have hp1 : ("\x7b1\x7d" : String).data.length = 3 := by decide
  rw [hp0] at ha
  rw [hp1] at hb
  intro hempty
  rw [hempty] at hb
  have : ("" : String).data.length = 0 := rfl
  omega

theorem maxDecimalPlaces_text_ne_empty (controlLabel scaleText : String) :
    _getFallbackText "validator.maxDecimalPlaces" [controlLabel, scaleText] ≠ "" := by
  unfold _getFallbackText
  apply replaceParams_two_ne_empty
  decide

/-! ## The scale check -/

theorem plainDecimal_value_facts (negative : Bool) (intDigits fracDigits : List Char)
    (hint : ∀ c ∈ intDigits, isDigit c = true) (hfrac : ∀ c ∈ fracDigits, isDigit c = true)
    (hne : fracDigits ≠ []) :
    _tryParseNumber (.str (String.mk (plainDecimal negative intDigits fracDigits))) =
      some (plainDecimalNumber negative intDigits fracDigits) ∧
    _looksLikeValidDecimal (.str (String.mk (plainDecimal negative intDigits fracDigits))) =
      true := by
  have hnil := plainDecimal_ne_nil negative intDigits fracDigits
  have hstr : String.mk (plainDecimal negative intDigits fracDigits) ≠ "" := by
    intro h
    exact hnil (congrArg String.data h)
  constructor
  · unfold _tryParseNumber
    simp only [Value.str.injEq, hstr, or_self, if_false, Value.toJsString, reduceCtorEq]
    rw [removeCommas_plainDecimal negative intDigits fracDigits hint hfrac]
    exact parseFloatChars_plainDecimal negative intDigits fracDigits hint hfrac hne
  · unfold _looksLikeValidDecimal
    simp only [Value.truthy, Value.toJsString]
    rw [removeCommas_plainDecimal negative intDigits fracDigits hint hfrac,
      matchesDecimalShape_plainDecimal negative intDigits fracDigits hint hfrac hne]
    simp [hstr]

/-- C18. For a control bound with a numeric type and a plain decimal text (an optional
minus sign, digits, a full stop and at least one fractional digit) whose number is
neither below `minimum` nor above `maximum`, whose number of digits is at most
`precision` and whose number of fractional digits exceeds `scale`, `_validateConstraints`
returns an invalid verdict with exactly one error, the text `validator.maxDecimalPlaces`
with the parameters label and `scale`, and calls neither the external parse nor the
external validation. A resource bundle, when there is one, must resolve that text to
a non-empty string (the pre-check tests the message for truthiness); the text of the
fallback table is never empty. -/
theorem validateConstraints_scale (oResourceBundle : Option ResourceBundle)
    (oControl : Control) (binding : Binding) (oType : OType)
    (negative : Bool) (intDigits fracDigits : List Char) (scale : Int)
    (hbinding : _getValueBinding oControl = some binding)
    (htype : binding.getType = some oType)
    (hnumeric : _isNumericType oType.name = true)
    (hint : ∀ c ∈ intDigits, isDigit c = true) (hfrac : ∀ c ∈ fracDigits, isDigit c = true)
    (hne : fracDigits ≠ [])
    (hmin : ∀ minimum, (oType.getConstraints.getD {}).minimum = some minimum →
      (plainDecimalNumber negative intDigits fracDigits).ltInt minimum = false)
    (hmax : ∀ maximum, (oType.getConstraints.getD {}).maximum = some maximum →
      (plainDecimalNumber negative intDigits fracDigits).gtInt maximum = false)
    (hprecision : ∀ precision, (oType.getConstraints.getD {}).precision = some precision →
      ((intDigits.length + fracDigits.length : Nat) : Int) ≤ precision)
    (hscale : (oType.getConstraints.getD {}).scale = some scale)
    (hexceeds : scale < (fracDigits.length : Int))
    (htext : ∀ bundle, oResourceBundle = some bundle →
      bundle "validator.maxDecimalPlaces"
        [_getControlLabel oResourceBundle oControl, toString scale] ≠ "") :
    _validateConstraints oResourceBundle oControl
        (.str (String.mk (plainDecimal negative intDigits fracDigits))) =
      ({ isValid := false,
         errors := [_getText oResourceBundle "validator.maxDecimalPlaces"
           [_getControlLabel oResourceBundle oControl, toString scale]] }, []) := by
  obtain ⟨hparse, hlooks⟩ := plainDecimal_value_facts negative intDigits fracDigits hint hfrac hne
  have hstr := isStringType_of_numeric _ hnumeric
  have htextne : _getText oResourceBundle "validator.maxDecimalPlaces"
      [_getControlLabel oResourceBundle oControl, toString scale] ≠ "" := by
    cases hb : oResourceBundle with
    | none => exact maxDecimalPlaces_text_ne_empty _ _
    | some bundle =>
      have := htext bundle hb
      rw [hb] at this
      exact this
  have hprec : _checkDecimalPrecision oResourceBundle
      (.str (String.mk (plainDecimal negative intDigits fracDigits)))
      (oType.getConstraints.getD {}) (_getControlLabel oResourceBundle oControl) = none := by
    unfold _checkDecimalPrecision
    cases hp : (oType.getConstraints.getD {}).precision with
    | none => rfl
    | some precision =>
      have hle := hprecision precision hp
      have hlen : jsLength ((plainDecimal negative intDigits fracDigits).filter
          (fun c => c != '.' && c != ',' && c != '-')) =
          intDigits.length + fracDigits.length := by
        rw [precisionFilter_plainDecimal negative intDigits fracDigits hint hfrac,
          jsLength_digits (intDigits ++ fracDigits) (by
            intro c hc
            rcases List.mem_append.1 hc with h | h
            · exact hint c h
            · exact hfrac c h)]
        simp
      have hnot : ¬ precision < ((intDigits.length + fracDigits.length : Nat) : Int) := by
        omega
      simp only [Value.toJsString, hlen, hnot, if_false]
  have hsc : _checkDecimalScale oResourceBundle
      (.str (String.mk (plainDecimal negative intDigits fracDigits)))
      (oType.getConstraints.getD {}) (_getControlLabel oResourceBundle oControl) =
      some (_getText oResourceBundle "validator.maxDecimalPlaces"
        [_getControlLabel oResourceBundle oControl, toString scale]) := by
    unfold _checkDecimalScale
    simp only [hscale, Value.toJsString,
      afterFirstDot_plainDecimal negative intDigits fracDigits hint,
      jsLength_digits fracDigits hfrac, hexceeds, if_true]
  have hdigits : preValidateDigits oResourceBundle
      (.str (String.mk (plainDecimal negative intDigits fracDigits)))
      (oType.getConstraints.getD {}) (_getControlLabel oResourceBundle oControl) =
      [_getText oResourceBundle "validator.maxDecimalPlaces"
        [_getControlLabel oResourceBundle oControl, toString scale]] := by
    unfold preValidateDigits
    simp [hprec, hsc, htextne]
  have hnumber : preValidateNumber oResourceBundle
      (.str (String.mk (plainDecimal negative intDigits fracDigits)))
      (oType.getConstraints.getD {}) (_getControlLabel oResourceBundle oControl)
      (plainDecimalNumber negative intDigits fracDigits) =
      [_getText oResourceBundle "validator.maxDecimalPlaces"
        [_getControlLabel oResourceBundle oControl, toString scale]] := by
    unfold preValidateNumber
    simp only [hlooks, if_true, hdigits]
    cases hm : (oType.getConstraints.getD {}).minimum with
    | none =>
      cases hx : (oType.getConstraints.getD {}).maximum with
      | none => rfl
      | some maximum => simp [hmax maximum hx]
    | some minimum =>
      cases hx : (oType.getConstraints.getD {}).maximum with
      | none => simp [hmin minimum hm]
      | some maximum => simp [hmin minimum hm, hmax maximum hx]
  simp [_validateConstraints, hbinding, htype, _preValidateConstraints, hstr, hnumeric,
    hparse, hnumber]

theorem validateConstraints_scale_witness :
    _validateConstraints none (priceInput "12.345") (.str "12.345") =
      ({ isValid := false, errors := ["Price: Maximum decimal places is 2"] }, []) :=
  (validateConstraints_scale none (priceInput "12.345")
    { getPath := "/price", getType := some decimalType, getValue := .str "12.345" }
    decimalType false ['1', '2'] ['3', '4', '5'] 2 rfl rfl (by decide) (by decide) (by decide)
    (by decide) (by decide) (by decide) (by decide) rfl (by decide)
    (fun _ h => Option.noConfusion h)).trans (by decide)

/-! ## Targets -/

theorem slash_append_injective (a b : String) (h : "/" ++ a = "/" ++ b) : a = b := by
  have := congrArg String.data h
  simp only [String.data_append] at this
  exact String.ext (List.append_cancel_left this)

theorem getBindingPath_of_path (c : Control) (b : Binding)
    (hb : _getValueBinding c = some b) (hp : b.getPath ≠ "") :
    _getBindingPath c = b.getPath := by
  simp [_getBindingPath, hb, hp]

theorem getBindingPath_of_no_path (c : Control)
    (h : ∀ b, _getValueBinding c = some b → b.getPath = "") :
    _getBindingPath c = "/" ++ c.sId := by
  unfold _getBindingPath
  cases hb : _getValueBinding c with
  | none => simp
  | some b => simp [h b hb]

/-- C21 (counterexample). Two inputs with distinct ids that are bound to the same path
`/name` have the same target. -/
theorem distinct_fields_share_target :
    (boundInput "__xmlview0--firstName" "/name" "").sId ≠
      (boundInput "__xmlview0--alias" "/name" "").sId ∧
    _getBindingPath (boundInput "__xmlview0--firstName" "/name" "") =
      _getBindingPath (boundInput "__xmlview0--alias" "/name" "") := by
  refine ⟨by decide, by decide⟩

/-- C21 (amended). Two controls with distinct ids neither of which has a value binding
with a non-empty path have different targets; two controls whose value bindings have
non-empty paths have the same target exactly when the paths are equal. -/
theorem getBindingPath_distinct (c d : Control) (hid : c.sId ≠ d.sId) :
    ((∀ b, _getValueBinding c = some b → b.getPath = "") →
      (∀ b, _getValueBinding d = some b → b.getPath = "") →
      _getBindingPath c ≠ _getBindingPath d) ∧
    (∀ bc bd, _getValueBinding c = some bc → _getValueBinding d = some bd →
      bc.getPath ≠ "" → bd.getPath ≠ "" →
      (_getBindingPath c = _getBindingPath d ↔ bc.getPath = bd.getPath)) := by
  constructor
  · intro hc hd h
    rw [getBindingPath_of_no_path c hc, getBindingPath_of_no_path d hd] at h
    exact hid (slash_append_injective _ _ h)
  · intro bc bd hbc hbd hpc hpd
    rw [getBindingPath_of_path c bc hbc hpc, getBindingPath_of_path d bd hbd hpd]

theorem getBindingPath_distinct_witness :
    _getBindingPath (nameInput "") ≠ _getBindingPath emailInput :=
  (getBindingPath_distinct (nameInput "") emailInput (by decide)).1
    (fun _ h => Option.noConfusion h) (fun _ h => Option.noConfusion h)

/-- C30. The value binding of a control is the first binding present among `value`,
`selectedKey` and `dateValue`. The target computed by `_getBindingPath` is the path of
that binding when the path is not empty, and a slash followed by the id of the control
otherwise, that is when there is no such binding or its path is empty; the target is
never the empty string. -/
theorem getBindingPath_cases (oControl : Control) :
    (∀ b, oControl.getBinding "value" = some b → _getValueBinding oControl = some b) ∧
    (oControl.getBinding "value" = none → ∀ b, oControl.getBinding "selectedKey" = some b →
      _getValueBinding oControl = some b) ∧
    (oControl.getBinding "value" = none → oControl.getBinding "selectedKey" = none →
      _getValueBinding oControl = oControl.getBinding "dateValue") ∧
    (∀ b, _getValueBinding oControl = some b → b.getPath ≠ "" →
      _getBindingPath oControl = b.getPath) ∧
    (∀ b, _getValueBinding oControl = some b → b.getPath = "" →
      _getBindingPath oControl = "/" ++ oControl.sId) ∧
    (_getValueBinding oControl = none → _getBindingPath oControl = "/" ++ oControl.sId) ∧
    _getBindingPath oControl ≠ "" := by
  refine ⟨?_, ?_, ?_, ?_, ?_, ?_, getBindingPath_ne_empty oControl⟩
  · intro b h
    simp [_getValueBinding, h]
  · intro h1 b h2
    simp [_getValueBinding, h1, h2]
  · intro h1 h2
    simp [_getValueBinding, h1, h2]
  · intro b hb hp
    exact getBindingPath_of_path oControl b hb hp
  · intro b hb hp
    simp [_getBindingPath, hb, hp]
  · intro hb
    simp [_getBindingPath, hb]

theorem getBindingPath_cases_witness :
    _getBindingPath (priceInput "1") = "/price" ∧
    _getBindingPath (boundInput "__xmlview0--free" "" "") = "/__xmlview0--free" ∧
    _getBindingPath (nameInput "") = "/__xmlview0--name" := by
  refine ⟨?_, ?_, ?_⟩
  · exact ((getBindingPath_cases (priceInput "1")).2.2.2.1
      { getPath := "/price", getType := some decimalType, getValue := .str "1" } rfl
      (by decide)).trans rfl
  · exact ((getBindingPath_cases (boundInput "__xmlview0--free" "" "")).2.2.2.2.1
      { getPath := "", getType := none, getValue := .str "" } rfl rfl).trans (by decide)
  · exact ((getBindingPath_cases (nameInput "")).2.2.2.2.2.1 rfl).trans (by decide)

/-! ## Required-ness -/

/-- C29 (counterexample). A control whose `getRequired()` returns the boolean `false`
while its `required` binding currently has the value `true`: `_isControlRequired`
returns `false`, the flag, not the value of the binding. -/
theorem isControlRequired_ignores_binding :
    (∃ b, formattedRequiredInput.getBinding "required" = some b ∧ b.getValue = .bool true) ∧
    _isControlRequired formattedRequiredInput = .bool false := by
  refine ⟨⟨_, rfl, rfl⟩, rfl⟩

/-- C29 (amended). `_isControlRequired` returns the result of `getRequired()` whenever it
is a boolean, whether or not the control has a `required` binding; when `getRequired()`
returns something else, it returns the current value of the `required` binding if there
is one and `false` otherwise; for a control without `getRequired` it returns `false`. -/
theorem isControlRequired_cases (oControl : Control) :
    (∀ flag, oControl.getRequired = some (.bool flag) →
      _isControlRequired oControl = .bool flag) ∧
    (∀ required, oControl.getRequired = some required → (∀ flag, required ≠ .bool flag) →
      ((∀ b, oControl.getBinding "required" = some b →
          _isControlRequired oControl = b.getValue) ∧
       (oControl.getBinding "required" = none → _isControlRequired oControl = .bool false))) ∧
    (oControl.getRequired = none → _isControlRequired oControl = .bool false) := by
  refine ⟨?_, ?_, ?_⟩
  · intro flag h
    simp [_isControlRequired, h]
  · intro required h hnot
    cases required with
    | bool flag => exact absurd rfl (hnot flag)
    | undefined => constructor <;> intros <;> simp_all [_isControlRequired]
    | null => constructor <;> intros <;> simp_all [_isControlRequired]
    | num n => constructor <;> intros <;> simp_all [_isControlRequired]
    | str s => constructor <;> intros <;> simp_all [_isControlRequired]
    | array items => constructor <;> intros <;> simp_all [_isControlRequired]
    | object repr => constructor <;> intros <;> simp_all [_isControlRequired]
  · intro h
    simp [_isControlRequired, h]

theorem isControlRequired_cases_witness :
    _isControlRequired (nameInput "") = .bool true ∧
    _isControlRequired taxInput = .bool false :=
  ⟨(isControlRequired_cases (nameInput "")).1 true rfl,
   (isControlRequired_cases taxInput).2.2 rfl⟩

/-! ## The filter of the batch validation -/

theorem contains_validatableKinds (name : String) :
    aValidatableTypes.contains name = decide (name ∈ validatableKinds) := by
  simp only [aValidatableTypes, validatableKinds, List.contains_eq_any_beq, List.any_cons,
    List.any_nil, List.mem_cons, List.mem_singleton, List.not_mem_nil, or_false,
    Bool.or_false, Bool.decide_or, beq_iff_eq, Bool.decide_eq_true]
  by_cases h : name = "sap.m.CheckBox"
  · simp [h]
  · have hb : (name == "sap.m.CheckBox") = false := by simpa using h
    simp only [hb, h, decide_False, Bool.false_or]
    rfl

/-- C22. `_filterValidatableControls` keeps, in the order of the input, exactly the
entries that are controls (objects with `getMetadata`) of one of the eleven validatable
kinds and that are neither invisible (`getVisible()` false) nor disabled (`getEnabled()`
false); every other entry is dropped and nothing is added: the result is a sublist of
the input. -/
theorem filterValidatableControls_eq (aControls : List (Option Control)) :
    _filterValidatableControls aControls =
      (aControls.filterMap id).filter (fun oControl =>
        decide (oControl.metadataName ∈ validatableKinds) &&
        (oControl.getVisible != some false) && (oControl.getEnabled != some false)) ∧
    List.Sublist ((_filterValidatableControls aControls).map some) aControls := by
  constructor
  · induction aControls with
    | nil => rfl
    | cons entry rest ih =>
      cases entry with
      | none => simpa [_filterValidatableControls] using ih
      | some c =>
        simp only [_filterValidatableControls, List.filterMap_cons, id] at ih ⊢
        rw [ih]
        simp only [isValidatable, contains_validatableKinds, List.filter_cons]
        by_cases hk : c.metadataName ∈ validatableKinds <;>
        by_cases hv : c.getVisible = some false <;>
        by_cases he : c.getEnabled = some false <;> simp [hk, hv, he]
  · induction aControls with
    | nil => simp [_filterValidatableControls]
    | cons entry rest ih =>
      cases entry with
      | none =>
        simp only [_filterValidatableControls, List.filterMap_cons] at ih ⊢
        exact List.Sublist.cons _ ih
      | some c =>
        simp only [_filterValidatableControls, List.filterMap_cons] at ih ⊢
        by_cases hvalid : isValidatable c = true
        · simp only [hvalid, if_true, List.map_cons]
          exact List.Sublist.cons₂ _ ih
        · simp only [hvalid, if_false, Bool.false_eq_true]
          exact List.Sublist.cons _ ih

/-! ## The aggregation of the checks of one control -/

/-- C24. For a control whose value is read as `value`, the verdict of `_validateControl`
has as errors, in this order, the required message if the required check failed, the
errors of the constraint check if it ran (the value is truthy and the required check
passed) and failed, and the errors of the custom-rule check if it ran (the value is
truthy or the required check passed) and failed; `isValid` is the conjunction of the
results of the checks that ran. The constraint check is recorded in the trace exactly
when it ran. -/
theorem validateControl_aggregates (self : State) (oControl : Control) (value : Value)
    (hvalue : _getControlValue oControl = .ok value) :
    (_validateControl self oControl).result = .ok
      { isValid :=
          (_validateRequired self.oResourceBundle oControl value).isValid &&
          (!(value.truthy && (_validateRequired self.oResourceBundle oControl value).isValid) ||
            (_validateConstraints self.oResourceBundle oControl value).1.isValid) &&
          (!(value.truthy || (_validateRequired self.oResourceBundle oControl value).isValid) ||
            (_validateCustomRules self oControl value).1.isValid),
        errors :=
          (match _validateRequired self.oResourceBundle oControl value with
            | .invalid message => [message]
            | .valid => []) ++
          (if (value.truthy && (_validateRequired self.oResourceBundle oControl value).isValid) &&
              !(_validateConstraints self.oResourceBundle oControl value).1.isValid then
            (_validateConstraints self.oResourceBundle oControl value).1.errors else []) ++
          (if (value.truthy || (_validateRequired self.oResourceBundle oControl value).isValid) &&
              !(_validateCustomRules self oControl value).1.isValid then
            (_validateCustomRules self oControl value).1.errors else []) } ∧
    (Event.constraintCheck oControl.sId ∈ (_validateControl self oControl).trace ↔
      (value.truthy && (_validateRequired self.oResourceBundle oControl value).isValid) = true) := by
  have hcustom : Event.constraintCheck oControl.sId ∉
      (_validateCustomRules self oControl value).2 := by
    rw [validateCustomRules_eq]
    simp [ruleCalls]
  constructor
  · rw [validateControl_result_eq, hvalue]
    simp only [checkControl]
    cases hreq : _validateRequired self.oResourceBundle oControl value <;>
    cases htruthy : value.truthy <;>
    cases hcon : (_validateConstraints self.oResourceBundle oControl value).1.isValid <;>
    cases hcus : (_validateCustomRules self oControl value).1.isValid <;>
    simp [Verdict.absorb, RequiredResult.isValid, hcon, hcus]
  · unfold _validateControl
    simp only [hvalue, checkControl]
    cases hreq : _validateRequired self.oResourceBundle oControl value <;>
    cases htruthy : value.truthy <;>
    simp [RequiredResult.isValid, hcustom]

theorem validateControl_aggregates_witness :
    (_validateControl stateWithNameRule (nameInput "   ")).result = .ok
      { isValid := false,
        errors := ["Name is required", "Name must start with a capital letter"] } :=
  (validateControl_aggregates stateWithNameRule (nameInput "   ") (.str "   ") rfl).1.trans rfl

/-- C25. An optional `sap.m.Input` whose text is three blanks and whose type declares a
minimum length of 5: the value is empty under `_isEmpty` and the control is not required,
yet `_validateControl` runs the constraint check and the verdict carries the minimum
length error. A required `sap.m.StepInput` whose value is the number 0: the value is
not empty under `_isEmpty` and the required check passes, yet the constraint check is
not run, although the type declares the minimum 1. -/
theorem optional_blank_input_runs_constraints :
    ((_isControlRequired (postcodeInput "   ")).truthy = false ∧
     _isEmpty (.str "   ") (postcodeInput "   ") = true ∧
     (_validateControl freshState (postcodeInput "   ")).result =
       .ok { isValid := false, errors := ["Postcode: Minimum length is 5 characters"] } ∧
     (_validateControl freshState (postcodeInput "   ")).trace =
       [.constraintCheck "__xmlview0--postcode"]) ∧
    (_isEmpty (.num 0) (quantityInput 0) = false ∧
     (_validateRequired none (quantityInput 0) (.num 0)).isValid = true ∧
     (_validateControl freshState (quantityInput 0)).result =
       .ok { isValid := true, errors := [] } ∧
     (_validateControl freshState (quantityInput 0)).trace = [] ∧
     (_validateConstraints none (quantityInput 0) (.num 0)).1.isValid = false) := by
  refine ⟨⟨by decide, by decide, rfl, by decide⟩, by decide, by decide, rfl, by decide, ?_⟩
  decide

/-! ## The case structure of the constraint evaluator -/

/-- C27. `_validateConstraints` is a total function. It returns the valid verdict without
errors, and calls nothing, when the control has no value binding or the binding has no
type. Otherwise, when the pre-check finds errors, it returns them as an invalid verdict
and calls neither the external parse nor the external validation. When the pre-check
finds nothing, it calls the external parse and, if the parse succeeded, the external
validation: the verdict is valid without errors if both succeed, and invalid with
exactly one error, the fallback message, if either raises. -/
theorem validateConstraints_cases (oResourceBundle : Option ResourceBundle)
    (oControl : Control) (value : Value) :
    (_getValueBinding oControl = none →
      _validateConstraints oResourceBundle oControl value =
        ({ isValid := true, errors := [] }, [])) ∧
    (∀ binding, _getValueBinding oControl = some binding → binding.getType = none →
      _validateConstraints oResourceBundle oControl value =
        ({ isValid := true, errors := [] }, [])) ∧
    (∀ binding oType, _getValueBinding oControl = some binding →
      binding.getType = some oType →
      ((_preValidateConstraints oResourceBundle value (oType.getConstraints.getD {})
          (_getControlLabel oResourceBundle oControl) oType ≠ [] →
        _validateConstraints oResourceBundle oControl value =
          ({ isValid := false,
             errors := _preValidateConstraints oResourceBundle value
               (oType.getConstraints.getD {}) (_getControlLabel oResourceBundle oControl)
               oType }, [])) ∧
       (_preValidateConstraints oResourceBundle value (oType.getConstraints.getD {})
          (_getControlLabel oResourceBundle oControl) oType = [] →
        (oType.parseValue value = none →
          _validateConstraints oResourceBundle oControl value =
            ({ isValid := false,
               errors := [_createUserFriendlyErrorMessage oResourceBundle oControl] },
             [.parseValue oControl.sId])) ∧
        (∀ internalValue, oType.parseValue value = some internalValue →
          oType.validateValue internalValue = false →
          _validateConstraints oResourceBundle oControl value =
            ({ isValid := false,
               errors := [_createUserFriendlyErrorMessage oResourceBundle oControl] },
             [.parseValue oControl.sId, .validateValue oControl.sId])) ∧
        (∀ internalValue, oType.parseValue value = some internalValue →
          oType.validateValue internalValue = true →
          _validateConstraints oResourceBundle oControl value =
            ({ isValid := true, errors := [] },
             [.parseValue oControl.sId, .validateValue oControl.sId]))))) := by
  refine ⟨?_, ?_, ?_⟩
  · intro h
    simp [_validateConstraints, h]
  · intro binding hb ht
    simp [_validateConstraints, hb, ht]
  · intro binding oType hb ht
    refine ⟨?_, ?_⟩
    · intro hpre
      have hpos : 0 < (_preValidateConstraints oResourceBundle value
          (oType.getConstraints.getD {}) (_getControlLabel oResourceBundle oControl)
          oType).length := List.length_pos.2 hpre
      simp [_validateConstraints, hb, ht, hpos]
    · intro hpre
      refine ⟨?_, ?_, ?_⟩
      · intro hparse
        simp [_validateConstraints, hb, ht, hpre, hparse]
      · intro internalValue hparse hvalid
        simp [_validateConstraints, hb, ht, hpre, hparse, hvalid]
      · intro internalValue hparse hvalid
        simp [_validateConstraints, hb, ht, hpre, hparse, hvalid]

theorem validateConstraints_cases_witness :
    _validateConstraints none (nameInput "Ada") (.str "Ada") =
      ({ isValid := true, errors := [] }, []) ∧
    _validateConstraints none (priceInput "12.5") (.str "12.5") =
      ({ isValid := true, errors := [] },
       [.parseValue "__xmlview0--price", .validateValue "__xmlview0--price"]) ∧
    _validateConstraints none ageInput (.str "abc") =
      ({ isValid := false, errors := ["Age: Invalid value"] },
       [.parseValue "__xmlview0--age"]) :=
  ⟨(validateConstraints_cases none (nameInput "Ada") (.str "Ada")).1 rfl,
   ((validateConstraints_cases none (priceInput "12.5") (.str "12.5")).2.2
      { getPath := "/price", getType := some decimalType, getValue := .str "12.5" }
      decimalType rfl rfl).2 (by decide) |>.2.2 (.str "12.5") rfl rfl,
   (((validateConstraints_cases none ageInput (.str "abc")).2.2
      { getPath := "/age", getType := some integerType, getValue := .str "abc" }
      integerType rfl rfl).2 (by decide) |>.1 rfl).trans (by decide)⟩

/-! ## The length measured by the pre-check -/

theorem jsTrim_eq_nil_iff (s : String) : jsTrim s.data = [] ↔ trimIsEmpty s = true := by
  unfold jsTrim trimIsEmpty
  rw [List.reverse_eq_nil_iff, List.dropWhile_eq_nil_iff, List.all_eq_true]
  constructor
  · intro h
    have hnil : s.data.dropWhile isJsWhitespace = [] := by
      cases hd : s.data.dropWhile isJsWhitespace with
      | nil => rfl
      | cons c t =>
        have hc : isJsWhitespace c = true := by
          apply h
          rw [hd]
          simp
        have hhead := List.head_dropWhile_not isJsWhitespace s.data (by rw [hd]; simp)
        simp only [hd, List.head_cons] at hhead
        rw [hc] at hhead
        exact absurd hhead (by decide)
    exact List.dropWhile_eq_nil_iff.1 hnil
  · intro h x hx
    have hnil : s.data.dropWhile isJsWhitespace = [] := List.dropWhile_eq_nil_iff.2 h
    rw [hnil] at hx
    simp at hx

theorem isNumericType_of_string (typeName : String) (h : _isStringType typeName = true) :
    _isNumericType typeName = false := by
  cases hn : _isNumericType typeName with
  | false => rfl
  | true =>
    rw [isStringType_of_numeric typeName hn] at h
    exact absurd h (by decide)

/-- C26 (counterexample). The text `  abc  ` has trimmed length 3, below the minimum
length 5, and the pre-check of a string type reports nothing, because the length it
measures is 7; the optional input holding that text is valid. The text `ab   ` has
trimmed length 2, not above the maximum length 3, and the pre-check reports the
maximum length violation. -/
theorem preValidate_measures_untrimmed :
    (jsLength (jsTrim "  abc  ".data) = 3 ∧
     _preValidateConstraints none (.str "  abc  ") { minLength := some 5 } "Postcode"
       postcodeType = [] ∧
     (_validateControl freshState (postcodeInput "  abc  ")).result =
       .ok { isValid := true, errors := [] }) ∧
    (jsLength (jsTrim "ab   ".data) = 2 ∧
     _preValidateConstraints none (.str "ab   ") { maxLength := some 3 } "Postcode"
       postcodeType = ["Postcode: Maximum length is 3 characters"]) := by
  refine ⟨⟨by decide, by decide, rfl⟩, by decide, by decide⟩

/-- C26 (amended). For a string type, the pre-check measures the length of
`String(value || "")`, without trimming: it returns the one text `validator.minLength`
when `minLength` is defined and that length is below it; otherwise it returns the one
text `validator.maxLength` when `maxLength` is defined and that length is above it;
otherwise it returns no error. -/
theorem preValidate_length_cases (oResourceBundle : Option ResourceBundle) (value : Value)
    (constraints : Constraints) (controlLabel : String) (oType : OType)
    (hstring : _isStringType oType.name = true) :
    (∀ minLength, constraints.minLength = some minLength →
      (jsLength (if value.truthy then value.toJsString else "").data : Int) < minLength →
      _preValidateConstraints oResourceBundle value constraints controlLabel oType =
        [_getText oResourceBundle "validator.minLength" [controlLabel, toString minLength]]) ∧
    ((∀ minLength, constraints.minLength = some minLength →
        ¬ (jsLength (if value.truthy then value.toJsString else "").data : Int) < minLength) →
      (∀ maxLength, constraints.maxLength = some maxLength →
        maxLength < (jsLength (if value.truthy then value.toJsString else "").data : Int) →
        _preValidateConstraints oResourceBundle value constraints controlLabel oType =
          [_getText oResourceBundle "validator.maxLength"
            [controlLabel, toString maxLength]]) ∧
      ((∀ maxLength, constraints.maxLength = some maxLength →
          ¬ maxLength < (jsLength (if value.truthy then value.toJsString else "").data : Int)) →
        _preValidateConstraints oResourceBundle value constraints controlLabel oType = [])) := by
  have hnum := isNumericType_of_string _ hstring
  refine ⟨?_, ?_⟩
  · intro minLength hmin hshort
    simp [_preValidateConstraints, hstring, preValidateLength, hmin, hshort]
  · intro hnotshort
    have hminpart : ∀ fallback : Option String,
        (match constraints.minLength with
          | some minLength =>
            if (jsLength (if value.truthy then value.toJsString else "").data : Int) <
                minLength then
              some (_getText oResourceBundle "validator.minLength"
                [controlLabel, toString minLength])
            else fallback
          | none => fallback) = fallback := by
      intro fallback
      cases hmin : constraints.minLength with
      | none => rfl
      | some minLength => simp [hnotshort minLength hmin]
    refine ⟨?_, ?_⟩
    · intro maxLength hmax hlong
      simp only [_preValidateConstraints, hstring, if_true, preValidateLength, hminpart, hmax,
        hlong, hnum]
    · intro hnotlong
      cases hmax : constraints.maxLength with
      | none =>
        simp [_preValidateConstraints, hstring, preValidateLength, hminpart, hmax, hnum]
      | some maxLength =>
        simp [_preValidateConstraints, hstring, preValidateLength, hminpart, hmax, hnum,
          hnotlong maxLength hmax]

theorem preValidate_length_cases_witness :
    _preValidateConstraints none (.str "ab   ") { maxLength := some 3 } "Postcode"
        postcodeType = ["Postcode: Maximum length is 3 characters"] ∧
    _preValidateConstraints none (.str "  abc  ") { minLength := some 5 } "Postcode"
        postcodeType = [] :=
  ⟨((preValidate_length_cases none (.str "ab   ") { maxLength := some 3 } "Postcode"
      postcodeType (by decide)).2 (fun _ h => Option.noConfusion h)).1 3 rfl
      (by decide) |>.trans (by decide),
   ((preValidate_length_cases none (.str "  abc  ") { minLength := some 5 } "Postcode"
      postcodeType (by decide)).2
      (fun m h => by cases h; decide)).2 (fun _ h => Option.noConfusion h)⟩

/-! ## At most one pre-check error -/

theorem preValidateDigits_length_le (rb : Option ResourceBundle) (value : Value)
    (constraints : Constraints) (controlLabel : String) :
    (preValidateDigits rb value constraints controlLabel).length ≤ 1 := by
  unfold preValidateDigits
  cases _checkDecimalPrecision rb value constraints controlLabel with
  | none =>
    cases _checkDecimalScale rb value constraints controlLabel with
    | none => simp
    | some scaleError => by_cases h : scaleError = "" <;> simp [h]
  | some precisionError =>
    by_cases hp : precisionError = ""
    · cases _checkDecimalScale rb value constraints controlLabel with
      | none => simp [hp]
      | some scaleError => by_cases h : scaleError = "" <;> simp [hp, h]
    · simp [hp]

theorem preValidateNumber_length_le (rb : Option ResourceBundle) (value : Value)
    (constraints : Constraints) (controlLabel : String) (numericValue : ParsedNumber) :
    (preValidateNumber rb value constraints controlLabel numericValue).length ≤ 1 := by
  have hdigits := preValidateDigits_length_le rb value constraints controlLabel
  have hafter : (if _looksLikeValidDecimal value then
      preValidateDigits rb value constraints controlLabel else []).length ≤ 1 := by
    split
    · exact hdigits
    · simp
  unfold preValidateNumber
  cases constraints.minimum with
  | none =>
    cases constraints.maximum with
    | none => exact hafter
    | some maximum =>
      by_cases hx : numericValue.gtInt maximum = true
      · simp [hx]
      · simpa [hx] using hafter
  | some minimum =>
    by_cases hm : numericValue.ltInt minimum = true
    · simp [hm]
    · cases constraints.maximum with
      | none => simpa [hm] using hafter
      | some maximum =>
        by_cases hx : numericValue.gtInt maximum = true
        · simp [hm, hx]
        · simpa [hm, hx] using hafter

theorem preValidateConstraints_length_le (rb : Option ResourceBundle) (value : Value)
    (constraints : Constraints) (controlLabel : String) (oType : OType) :
    (_preValidateConstraints rb value constraints controlLabel oType).length ≤ 1 := by
  unfold _preValidateConstraints
  dsimp only
  split
  · simp
  · split
    · split
      · exact preValidateNumber_length_le _ _ _ _ _
      · simp
    · simp

theorem preValidate_numeric_eq (rb : Option ResourceBundle) (value : Value)
    (constraints : Constraints) (controlLabel : String) (oType : OType)
    (numericValue : ParsedNumber) (hnumeric : _isNumericType oType.name = true)
    (hparse : _tryParseNumber value = some numericValue) :
    _preValidateConstraints rb value constraints controlLabel oType =
      preValidateNumber rb value constraints controlLabel numericValue := by
  simp [_preValidateConstraints, isStringType_of_numeric _ hnumeric, hnumeric, hparse]

theorem maxDigits_text_ne_empty (controlLabel precisionText : String) :
    _getFallbackText "validator.maxDigits" [controlLabel, precisionText] ≠ "" := by
  unfold _getFallbackText
  apply replaceParams_two_ne_empty
  decide

theorem preValidateNumber_in_range (rb : Option ResourceBundle) (value : Value)
    (constraints : Constraints) (controlLabel : String) (numericValue : ParsedNumber)
    (hmin : ∀ minimum, constraints.minimum = some minimum →
      numericValue.ltInt minimum = false)
    (hmax : ∀ maximum, constraints.maximum = some maximum →
      numericValue.gtInt maximum = false) :
    preValidateNumber rb value constraints controlLabel numericValue =
      if _looksLikeValidDecimal value then preValidateDigits rb value constraints controlLabel
      else [] := by
  unfold preValidateNumber
  cases hm : constraints.minimum with
  | none =>
    cases hx : constraints.maximum with
    | none => rfl
    | some maximum => simp [hmax maximum hx]
  | some minimum =>
    cases hx : constraints.maximum with
    | none => simp [hmin minimum hm]
    | some maximum => simp [hmin minimum hm, hmax maximum hx]

/-- C28. `_preValidateConstraints` returns at most one error, whatever the value, the
constraints and the type. For a numeric type and a value that parses to a number, the
error is chosen by the first violated check in the order minimum, maximum, precision,
scale (the last two for a value that looks like a decimal, and a message of the
precision or scale check counts only when it is not the empty text). In particular a
plain decimal text within the range whose number of digits exceeds `precision` yields
exactly the text `validator.maxDigits`, whatever its number of fractional digits and the
scale are; a resource bundle, when there is one, must resolve that text to a non-empty
string. -/
theorem preValidate_at_most_one (oResourceBundle : Option ResourceBundle) (value : Value)
    (constraints : Constraints) (controlLabel : String) (oType : OType) :
    (_preValidateConstraints oResourceBundle value constraints controlLabel oType).length ≤ 1 ∧
    (∀ numericValue, _isNumericType oType.name = true →
      _tryParseNumber value = some numericValue →
      (∀ minimum, constraints.minimum = some minimum →
        numericValue.ltInt minimum = true →
        _preValidateConstraints oResourceBundle value constraints controlLabel oType =
          [_getText oResourceBundle "validator.minValue" [controlLabel, toString minimum]]) ∧
      ((∀ minimum, constraints.minimum = some minimum →
          numericValue.ltInt minimum = false) →
        (∀ maximum, constraints.maximum = some maximum →
          numericValue.gtInt maximum = true →
          _preValidateConstraints oResourceBundle value constraints controlLabel oType =
            [_getText oResourceBundle "validator.maxValue"
              [controlLabel, toString maximum]]) ∧
        ((∀ maximum, constraints.maximum = some maximum →
            numericValue.gtInt maximum = false) →
          _looksLikeValidDecimal value = true →
          (∀ precisionError,
            _checkDecimalPrecision oResourceBundle value constraints controlLabel =
              some precisionError →
            precisionError ≠ "" →
            _preValidateConstraints oResourceBundle value constraints controlLabel oType =
              [precisionError]) ∧
          ((∀ precisionError,
              _checkDecimalPrecision oResourceBundle value constraints controlLabel =
                some precisionError →
              precisionError = "") →
            (∀ scaleError,
              _checkDecimalScale oResourceBundle value constraints controlLabel =
                some scaleError →
              scaleError ≠ "" →
              _preValidateConstraints oResourceBundle value constraints controlLabel oType =
                [scaleError]) ∧
            ((∀ scaleError,
                _checkDecimalScale oResourceBundle value constraints controlLabel =
                  some scaleError →
                scaleError = "") →
              _preValidateConstraints oResourceBundle value constraints controlLabel
                oType = []))))) ∧
    (∀ (negative : Bool) (intDigits fracDigits : List Char) (precision : Int),
      value = .str (String.mk (plainDecimal negative intDigits fracDigits)) →
      _isNumericType oType.name = true →
      (∀ c ∈ intDigits, isDigit c = true) → (∀ c ∈ fracDigits, isDigit c = true) →
      fracDigits ≠ [] →
      (∀ minimum, constraints.minimum = some minimum →
        (plainDecimalNumber negative intDigits fracDigits).ltInt minimum = false) →
      (∀ maximum, constraints.maximum = some maximum →
        (plainDecimalNumber negative intDigits fracDigits).gtInt maximum = false) →
      constraints.precision = some precision →
      precision < ((intDigits.length + fracDigits.length : Nat) : Int) →
      (∀ bundle, oResourceBundle = some bundle →
        bundle "validator.maxDigits" [controlLabel, toString precision] ≠ "") →
      _preValidateConstraints oResourceBundle value constraints controlLabel oType =
        [_getText oResourceBundle "validator.maxDigits"
          [controlLabel, toString precision]]) := by
  refine ⟨preValidateConstraints_length_le _ _ _ _ _, ?_, ?_⟩
  · intro numericValue hnumeric hparse
    rw [preValidate_numeric_eq _ _ _ _ _ _ hnumeric hparse]
    refine ⟨?_, ?_⟩
    · intro minimum hm hlt
      simp [preValidateNumber, hm, hlt]
    · intro hmin
      refine ⟨?_, ?_⟩
      · intro maximum hx hgt
        unfold preValidateNumber
        cases hm : constraints.minimum with
        | none => simp [hx, hgt]
        | some minimum => simp [hmin minimum hm, hx, hgt]
      · intro hmax hlooks
        rw [preValidateNumber_in_range _ _ _ _ _ hmin hmax]
        simp only [hlooks, if_true]
        refine ⟨?_, ?_⟩
        · intro precisionError hp hne
          simp [preValidateDigits, hp, hne]
        · intro hnoprecision
          have hfall : ∀ scalePart : List String,
              (match _checkDecimalPrecision oResourceBundle value constraints controlLabel with
                | some precisionError =>
                  if precisionError != "" then [precisionError] else scalePart
                | none => scalePart) = scalePart := by
            intro scalePart
            cases hp : _checkDecimalPrecision oResourceBundle value constraints controlLabel with
            | none => rfl
            | some precisionError => simp [hnoprecision precisionError hp]
          refine ⟨?_, ?_⟩
          · intro scaleError hs hne
            simp only [preValidateDigits, hfall, hs]
            simp [hne]
          · intro hnoscale
            simp only [preValidateDigits, hfall]
            cases hs : _checkDecimalScale oResourceBundle value constraints controlLabel with
            | none => rfl
            | some scaleError => simp [hnoscale scaleError hs]
  · intro negative intDigits fracDigits precision hvalue hnumeric hint hfrac hne hmin hmax
      hprecision hexceeds htext
    subst hvalue
    obtain ⟨hparse, hlooks⟩ :=
      plainDecimal_value_facts negative intDigits fracDigits hint hfrac hne
    have htextne : _getText oResourceBundle "validator.maxDigits"
        [controlLabel, toString precision] ≠ "" := by
      cases hb : oResourceBundle with
      | none => exact maxDigits_text_ne_empty _ _
      | some bundle =>
        exact htext bundle hb
    have hlen : jsLength ((plainDecimal negative intDigits fracDigits).filter
        (fun c => c != '.' && c != ',' && c != '-')) =
        intDigits.length + fracDigits.length := by
      rw [precisionFilter_plainDecimal negative intDigits fracDigits hint hfrac,
        jsLength_digits (intDigits ++ fracDigits) (by
          intro c hc
          rcases List.mem_append.1 hc with h | h
          · exact hint c h
          · exact hfrac c h)]
      simp
    have hprec : _checkDecimalPrecision oResourceBundle
        (.str (String.mk (plainDecimal negative intDigits fracDigits)))
        constraints controlLabel =
        some (_getText oResourceBundle "validator.maxDigits"
          [controlLabel, toString precision]) := by
      unfold _checkDecimalPrecision
      simp only [hprecision, Value.toJsString, hlen, hexceeds, if_true]
    rw [preValidate_numeric_eq _ _ _ _ _ _ hnumeric hparse,
      preValidateNumber_in_range _ _ _ _ _ hmin hmax]
    simp [hlooks, preValidateDigits, hprec, htextne]

theorem preValidate_at_most_one_witness :
    _preValidateConstraints none (.str "12.3456")
        { minimum := some 0, maximum := some 100, precision := some 5, scale := some 2 }
        "Price" decimalType = ["Price: Maximum total digits is 5"] :=
  ((preValidate_at_most_one none (.str "12.3456")
      { minimum := some 0, maximum := some 100, precision := some 5, scale := some 2 }
      "Price" decimalType).2.2 false ['1', '2'] ['3', '4', '5', '6'] 5 rfl (by decide)
      (by decide) (by decide) (by decide) (by decide) (by decide) rfl (by decide)
      (fun _ h => Option.noConfusion h)).trans (by decide)

/-! ## The registry of custom rules -/

/-- C23. On a validator as the constructor leaves it, the lookup of the key
`constructor` finds the member that the registry object inherits. After
`clearCustomRules("constructor")` the result of `getCustomRules("constructor")` is still
that member, not the empty list; and after `addCustomRule("constructor", rule)` the list
has two entries, the inherited member followed by `rule`, although no rule was
registered under that key before. -/
theorem registry_inherited_key :
    (∃ member, getCustomRules freshState "constructor" = .other member) ∧
    (∃ member,
      getCustomRules (clearCustomRules freshState "constructor") "constructor" =
        .other member) ∧
    (∃ member,
      getCustomRules
          (addCustomRule freshState "constructor" (.function (failingRule "No"))).state
          "constructor" =
        .rules [member, failingRule "No"]) :=
  ⟨⟨_, rfl⟩, ⟨_, rfl⟩, ⟨_, rfl⟩⟩

/-- For a key that names no member of `Object.prototype` and whose rule list is
`previous`: after `addCustomRule(key, rule)` the rule list of the key is `previous` with
`rule` appended, and the rule lists of the other keys and the global rule list are
unchanged; after `clearCustomRules(key)` the rule list of the key is empty and the rule
lists of the other keys are unchanged. -/
theorem registry_ordinary_key (self : State) (key : String) (rule : Rule)
    (previous : List Rule)
    (hkey : objectPrototypeKeys.contains key = false)
    (hprevious : getCustomRules self key = .rules previous) :
    getCustomRules (addCustomRule self key (.function rule)).state key =
      .rules (previous ++ [rule]) ∧
    (∀ other, other ≠ key →
      getCustomRules (addCustomRule self key (.function rule)).state other =
        getCustomRules self other) ∧
    (addCustomRule self key (.function rule)).state.globalCustomRules =
      self.globalCustomRules ∧
    getCustomRules (clearCustomRules self key) key = .rules [] ∧
    (∀ other, other ≠ key →
      getCustomRules (clearCustomRules self key) other = getCustomRules self other) := by
  have hinherited : inheritedEntry key = .absent := by
    unfold inheritedEntry
    rw [hkey]
    rfl
  refine ⟨?_, ?_, rfl, ?_, ?_⟩
  · unfold getCustomRules at hprevious
    cases hentry : self.customRules key with
    | absent =>
      rw [hentry] at hprevious
      cases hprevious
      simp [getCustomRules, addCustomRule, hentry]
    | rules list =>
      rw [hentry] at hprevious
      cases hprevious
      simp [getCustomRules, addCustomRule, hentry]
    | other legacy =>
      rw [hentry] at hprevious
      cases hprevious
  · intro other hother
    simp [getCustomRules, addCustomRule, hother]
  · unfold clearCustomRules
    cases hentry : self.customRules key with
    | absent => simp [getCustomRules, hentry]
    | rules list => simp [getCustomRules, hinherited]
    | other legacy => simp [getCustomRules, hinherited]
  · intro other hother
    unfold clearCustomRules
    cases hentry : self.customRules key with
    | absent => rfl
    | rules list => simp [getCustomRules, hother]
    | other legacy => simp [getCustomRules, hother]

theorem registry_ordinary_key_witness :
    getCustomRules
        (addCustomRule stateWithNameRule "name" (.function throwingRule)).state "name" =
      .rules [failingRule "Name must start with a capital letter", throwingRule] ∧
    getCustomRules (clearCustomRules stateWithNameRule "name") "name" = .rules [] :=
  ⟨(registry_ordinary_key stateWithNameRule "name" throwingRule
      [failingRule "Name must start with a capital letter"] (by decide) rfl).1,
   (registry_ordinary_key stateWithNameRule "name" throwingRule
      [failingRule "Name must start with a capital letter"] (by decide) rfl).2.2.2.1⟩

/-- The filter on a sample list: an absent entry, an invisible input and a button are
dropped, the two inputs are kept in their order. -/
theorem filterValidatableControls_sample :
    _filterValidatableControls
        [some (nameInput "Ann"), none, some hiddenInput, some saveButton, some taxInput] =
      [nameInput "Ann", taxInput] := rfl

/-! ## The visual state after a validation -/

theorem intercalate_go_eq (acc sep : String) (items : List String) :
    String.intercalate.go acc sep items = items.foldl (fun r a => r ++ sep ++ a) acc := by
  induction items generalizing acc with
  | nil => rfl
  | cons a rest ih => rw [String.intercalate.go, ih, List.foldl_cons]

theorem bulleted_foldl (acc : String) (rest : List String) :
    "• " ++ rest.foldl (fun r a => r ++ "\n• " ++ a) acc =
      (rest.map (fun m => "• " ++ m)).foldl (fun r a => r ++ "\n" ++ a) ("• " ++ acc) := by
  induction rest generalizing acc with
  | nil => rfl
  | cons a rest ih =>
    have hsep : ("\n• " : String) = "\n" ++ "• " := rfl
    rw [List.foldl_cons, ih, List.map_cons, List.foldl_cons, hsep]
    simp only [String.append_assoc]

theorem bulleted_eq (first : String) (rest : List String) :
    "• " ++ "\n• ".intercalate (first :: rest) =
      "\n".intercalate ((first :: rest).map (fun m => "• " ++ m)) := by
  simp only [String.intercalate, List.map_cons, intercalate_go_eq]
  exact bulleted_foldl first rest

/-- C31. For a control with `setValueState` whose validation returns a verdict, after
`_validateControl` the state of the control is `None` with the empty text when the
verdict is valid. When the verdict is invalid the state is `Error`; the text is the
message itself when the verdict has one error, and, when it has two or more, a bullet
and a blank followed by the messages joined with a line feed, a bullet and a blank,
which is one bulleted line per message in the order of the verdict. -/
theorem setControlState_after_validation (self : State) (oControl : Control)
    (verdict : Verdict) (hstate : oControl.hasValueState = true)
    (hresult : (_validateControl self oControl).result = .ok verdict) :
    (verdict.isValid = true →
      (_validateControl self oControl).state.controlState oControl.sId =
        { valueState := "None", valueStateText := "" }) ∧
    (verdict.isValid = false →
      ((_validateControl self oControl).state.controlState oControl.sId).valueState =
        "Error" ∧
      (∀ message, verdict.errors = [message] →
        ((_validateControl self oControl).state.controlState oControl.sId).valueStateText =
          message) ∧
      (2 ≤ verdict.errors.length →
        ((_validateControl self oControl).state.controlState oControl.sId).valueStateText =
          "• " ++ "\n• ".intercalate verdict.errors ∧
        ((_validateControl self oControl).state.controlState oControl.sId).valueStateText =
          "\n".intercalate (verdict.errors.map (fun message => "• " ++ message)))) := by
  have h := validateControl_controlState self oControl oControl.sId
  rw [hresult] at h
  simp only [hstate, and_self, if_true] at h
  rw [h]
  refine ⟨?_, ?_⟩
  · intro hvalid
    simp [visualStateOf, hvalid]
  · intro hinvalid
    refine ⟨?_, ?_, ?_⟩
    · simp [visualStateOf, hinvalid]
    · intro message hone
      simp [visualStateOf, hinvalid, hone]
    · intro htwo
      have hgt : verdict.errors.length > 1 := htwo
      have htext : (visualStateOf verdict).valueStateText =
          "• " ++ "\n• ".intercalate verdict.errors := by
        simp [visualStateOf, hinvalid, hgt]
      refine ⟨htext, ?_⟩
      rw [htext]
      cases herrors : verdict.errors with
      | nil => simp [herrors] at htwo
      | cons first rest => exact bulleted_eq first rest

theorem setControlState_after_validation_witness :
    ((_validateControl stateWithFourRules (nameInput "ann")).state.controlState
        "__xmlview0--name").valueStateText = "• first\n• second\n• third\n• fourth" :=
  ((setControlState_after_validation stateWithFourRules (nameInput "ann")
      { isValid := false, errors := ["first", "second", "third", "fourth"] } rfl rfl).2
      rfl).2.2 (by decide) |>.1.trans (by decide)

/-! ## Invocations of the custom rules -/

theorem ruleCalls_nodup (key : String) (rules : List Rule) : (ruleCalls key rules).Nodup := by
  unfold ruleCalls
  apply List.Nodup.map
  · intro a b h
    injection h
  · exact List.nodup_range' 0 rules.length

theorem ruleCalls_key (key : String) (rules : List Rule) (e : Event)
    (h : e ∈ ruleCalls key rules) : ∃ index, e = .ruleCall key index := by
  unfold ruleCalls at h
  obtain ⟨index, _, rfl⟩ := List.mem_map.1 h
  exact ⟨index, rfl⟩

/-- C34 (counterexample). An input with local id `name` whose value is bound with the
relative path `name`, and one failing rule registered under `name`: the rule is invoked
twice during one validation and its message occurs twice in the verdict. -/
theorem rule_invoked_twice :
    _getControlId (relativeNameInput "ann") = _getBindingPath (relativeNameInput "ann") ∧
    rulesFor stateWithNameRule.customRules "name" =
      [failingRule "Name must start with a capital letter"] ∧
    (_validateCustomRules stateWithNameRule (relativeNameInput "ann") (.str "ann")).2 =
      [.ruleCall "name" 0, .ruleCall "name" 0] ∧
    (_validateControl stateWithNameRule (relativeNameInput "ann")).result =
      .ok { isValid := false,
            errors := ["Name must start with a capital letter",
                       "Name must start with a capital letter"] } := by
  refine ⟨by decide, rfl, by decide, rfl⟩

/-- C34 (amended). During one validation of a control the rules registered under its
local id are invoked once each, in registration order, and then the rules registered
under its target are invoked once each; the errors of the check are the messages of the
failing rules of the first list followed by those of the second. When the local id and
the target are different strings no invocation is repeated; when they are the same
string every rule registered under it is invoked exactly twice and the messages of its
failing rules occur twice. -/
theorem validateCustomRules_invocations (self : State) (oControl : Control) (value : Value) :
    (_validateCustomRules self oControl value).2 =
      ruleCalls (_getControlId oControl)
          (rulesFor self.customRules (_getControlId oControl)) ++
        ruleCalls (_getBindingPath oControl)
          (rulesFor self.customRules (_getBindingPath oControl)) ∧
    (_validateCustomRules self oControl value).1.errors =
      failedMessages self.oResourceBundle value oControl
          (rulesFor self.customRules (_getControlId oControl)) ++
        failedMessages self.oResourceBundle value oControl
          (rulesFor self.customRules (_getBindingPath oControl)) ∧
    (_getControlId oControl ≠ _getBindingPath oControl →
      (_validateCustomRules self oControl value).2.Nodup) ∧
    (_getControlId oControl = _getBindingPath oControl →
      (∀ e ∈ (_validateCustomRules self oControl value).2,
        (_validateCustomRules self oControl value).2.count e = 2) ∧
      (_validateCustomRules self oControl value).1.errors =
        failedMessages self.oResourceBundle value oControl
            (rulesFor self.customRules (_getControlId oControl)) ++
          failedMessages self.oResourceBundle value oControl
            (rulesFor self.customRules (_getControlId oControl))) := by
  rw [validateCustomRules_eq]
  refine ⟨rfl, rfl, ?_, ?_⟩
  · intro hne
    apply List.Nodup.append (ruleCalls_nodup _ _) (ruleCalls_nodup _ _)
    intro e h1 h2
    obtain ⟨i, hi⟩ := ruleCalls_key _ _ e h1
    obtain ⟨j, hj⟩ := ruleCalls_key _ _ e h2
    rw [hi] at hj
    injection hj with hkey _
    exact hne hkey
  · intro heq
    dsimp only
    rw [← heq]
    refine ⟨?_, rfl⟩
    intro e he
    have hmem : e ∈ ruleCalls (_getControlId oControl)
        (rulesFor self.customRules (_getControlId oControl)) := by
      rcases List.mem_append.1 he with h | h
      · exact h
      · exact h
    rw [List.count_append, List.count_eq_one_of_mem (ruleCalls_nodup _ _) hmem]

theorem validateCustomRules_invocations_witness :
    (_validateCustomRules stateWithFourRules (nameInput "ann") (.str "ann")).2.Nodup ∧
    (_validateCustomRules stateWithNameRule (relativeNameInput "ann") (.str "ann")).2.count
      (.ruleCall "name" 0) = 2 :=
  ⟨(validateCustomRules_invocations stateWithFourRules (nameInput "ann") (.str "ann")).2.2.1
      (by decide),
   ((validateCustomRules_invocations stateWithNameRule (relativeNameInput "ann")
      (.str "ann")).2.2.2 (by decide)).1 (.ruleCall "name" 0) (by decide)⟩

/-! ## The fallback texts -/

theorem getFallbackText_unknown_key (sKey : String)
    (h : fallbackTexts.lookup sKey = none) : _getFallbackText sKey [] = sKey := by
  simp [_getFallbackText, h, replaceParams]

/-- C35. Without resource bundle, the text `validator.minLength` with the parameters
`Rate {1}` and `5` is `Rate 5: Minimum length is {1} characters`: the placeholder inside
the first parameter is replaced by the second parameter and the placeholder of the
template is left, whereas a simultaneous substitution gives
`Rate {1}: Minimum length is 5 characters`. An input labelled `Rate {1}` whose text is
shorter than the minimum length 5 of its type gets that message. -/
theorem fallback_replacement_is_sequential :
    _getFallbackText "validator.minLength" ["Rate \x7b1\x7d", "5"] =
      "Rate 5: Minimum length is \x7b1\x7d characters" ∧
    _getFallbackText "validator.minLength" ["Rate \x7b1\x7d", "5"] ≠
      "Rate \x7b1\x7d: Minimum length is 5 characters" ∧
    (_validateControl freshState (rateInput "ab")).result =
      .ok { isValid := false, errors := ["Rate 5: Minimum length is \x7b1\x7d characters"] } := by
  refine ⟨by decide, by decide, rfl⟩

/-! ## Entries under the target of a field after a batch -/

theorem filter_flatMap_entriesOf_ne (self : State) (target : String) (controls : List Control)
    (h : ∀ d ∈ controls, _getBindingPath d ≠ target) :
    (controls.flatMap (entriesOf self)).filter (fun m => m.target == target) = [] := by
  rw [List.filter_eq_nil_iff]
  intro m hm
  obtain ⟨d, hd, hmd⟩ := List.mem_flatMap.1 hm
  rw [entriesOf_target self d m hmd]
  simpa using h d hd

theorem filter_flatMap_entriesOf (self : State) (c : Control) (controls : List Control)
    (hnodup : (controls.map _getBindingPath).Nodup) (hc : c ∈ controls) :
    (controls.flatMap (entriesOf self)).filter (fun m => m.target == _getBindingPath c) =
      entriesOf self c := by
  induction controls with
  | nil => simp at hc
  | cons d rest ih =>
    rw [List.map_cons, List.nodup_cons] at hnodup
    rw [List.flatMap_cons, List.filter_append]
    rcases List.mem_cons.1 hc with hcd | hcrest
    · subst hcd
      have hrest : ∀ e ∈ rest, _getBindingPath e ≠ _getBindingPath c := by
        intro e he heq
        exact hnodup.1 (List.mem_map.2 ⟨e, he, heq⟩)
      rw [filter_flatMap_entriesOf_ne self _ rest hrest, List.append_nil,
        List.filter_eq_self]
      intro m hm
      simp [entriesOf_target self c m hm]
    · have hne : _getBindingPath d ≠ _getBindingPath c := by
        intro heq
        exact hnodup.1 (List.mem_map.2 ⟨c, hcrest, heq.symm⟩)
      have hhead : (entriesOf self d).filter (fun m => m.target == _getBindingPath c) = [] := by
        rw [List.filter_eq_nil_iff]
        intro m hm
        rw [entriesOf_target self d m hm]
        simpa using hne
      rw [hhead, List.nil_append, ih hnodup.2 hcrest]

/-- In a batch whose surviving controls have pairwise different targets, none of them the
target of the global check, the entries of the message manager under the target of a
surviving control are, after `validateControls`, exactly the entries of its own
verdict. -/
theorem validateControls_entries_distinct_targets (self : State)
    (aControls : List (Option Control)) (oControl : Control)
    (hnodup : ((_filterValidatableControls aControls).map _getBindingPath).Nodup)
    (hglobal : _getBindingPath oControl ≠ "/globalValidation")
    (hmem : oControl ∈ _filterValidatableControls aControls) :
    entriesUnder (validateControls self aControls).state oControl = entriesOf self oControl := by
  unfold entriesUnder
  rw [(validateControls_eq self aControls).2.1, List.filter_append,
    filter_flatMap_entriesOf self oControl _ hnodup hmem]
  have hglobals : (self.globalCustomRules.filterMap globalEntry).filter
      (fun m => m.target == _getBindingPath oControl) = [] := by
    rw [List.filter_eq_nil_iff]
    intro m hm
    rw [globalEntry_target _ m hm]
    simpa using fun h : "/globalValidation" = _getBindingPath oControl => hglobal h.symm
  rw [hglobals, List.append_nil]

theorem validateControls_entries_distinct_targets_witness :
    entriesUnder (validateControls freshState [some emailInput, some (nameInput "")]).state
        emailInput = entriesOf freshState emailInput :=
  validateControls_entries_distinct_targets freshState
    [some emailInput, some (nameInput "")] emailInput (by decide) (by decide)
    (List.mem_cons_self _ _)

/-- C32. A batch in which the required, empty input `email` occurs twice: its verdict
has one error, and after `validateControls` the message manager holds two entries
under its target and `InputsErrorsIds` holds two records of the control. -/
theorem batch_with_repeated_field :
    (_validateControl freshState emailInput).result =
      .ok { isValid := false, errors := ["Email is required"] } ∧
    entriesUnder (validateControls freshState [some emailInput, some emailInput]).state
        emailInput =
      [ errorMessage "/__xmlview0--email" "Email" "Email is required",
        errorMessage "/__xmlview0--email" "Email" "Email is required" ] ∧
    (validateControls freshState [some emailInput, some emailInput]).state.InputsErrorsIds =
      [ { sTarget := "/__xmlview0--email", inputError := "__xmlview0--email" },
        { sTarget := "/__xmlview0--email", inputError := "__xmlview0--email" } ] := by
  refine ⟨rfl, by decide, by decide⟩

/-! ## Error states without entries -/

/-- C33. From the fresh validator, the live validation of the required, empty input
`email` puts it in the state `Error` with one entry under its target; the batch
validation of the group of the valid input `name` then empties the message manager and
leaves `email` in the state `Error`, without any entry under its target; a following
`clearAllMessages` leaves it so. -/
theorem later_batch_leaves_error_state :
    ((runCalls sampleRegistry [.validateControl emailInput] freshState).controlState
        "__xmlview0--email" =
        { valueState := "Error", valueStateText := "Email is required" } ∧
     entriesUnder (runCalls sampleRegistry [.validateControl emailInput] freshState)
        emailInput = [errorMessage "/__xmlview0--email" "Email" "Email is required"]) ∧
    ((runCalls sampleRegistry
        [.validateControl emailInput, .validateControls [some (nameInput "Ann")]]
        freshState).controlState "__xmlview0--email" =
        { valueState := "Error", valueStateText := "Email is required" } ∧
     entriesUnder (runCalls sampleRegistry
        [.validateControl emailInput, .validateControls [some (nameInput "Ann")]]
        freshState) emailInput = []) ∧
    ((runCalls sampleRegistry
        [.validateControl emailInput, .validateControls [some (nameInput "Ann")],
         .clearAllMessages] freshState).controlState "__xmlview0--email" =
        { valueState := "Error", valueStateText := "Email is required" } ∧
     (runCalls sampleRegistry
        [.validateControl emailInput, .validateControls [some (nameInput "Ann")],
         .clearAllMessages] freshState).messages = []) := by
  refine ⟨⟨by decide, by decide⟩, ⟨by decide, by decide⟩, by decide, by decide⟩

end Validator
